import Mathlib

/-!
# Verification of `crawl-ref/source/spl-damage.cc`

A shallow embedding of the damage spells of Dungeon Crawl Stone Soup
(`cast_chain_lightning`, `_discharge_monsters`, `_shatter_monsters`,
`_shatter_items`, `_shatter_walls`, `airstrike`, `cast_fragmentation`)
together with theorems about their target selection, power decay, damage
classification and effects on terrain and items.

C++ `int` values are modelled by `Int`; none of the modelled computations
leaves the 32-bit range for the powers the game uses, and no theorem below
relies on wrap-around.
-/

namespace Crawl

/-! ## Random draws -/

/-- A computation that consumes random draws.  `uniform n k` asks the draw
source for a number in `[0, n)` (a call of `random2`), `chance n k` asks for a
1-in-`n` event (a call of `one_chance_in`). -/
inductive Rand (α : Type) : Type where
  | pure : α → Rand α
  | uniform : Nat → (Nat → Rand α) → Rand α
  | chance : Nat → (Bool → Rand α) → Rand α

/-- Sequencing of two random computations. -/
def Rand.bind {α β : Type} : Rand α → (α → Rand β) → Rand β
  | .pure a, f => f a
  | .uniform n k, f => .uniform n (fun r => Rand.bind (k r) f)
  | .chance n k, f => .chance n (fun b => Rand.bind (k b) f)

instance : Monad Rand where
  pure := Rand.pure
  bind := Rand.bind

/-- A sequence of raw draws, read from index 0. -/
abbrev Draws := Nat → Nat

/-- The draw sequence that starts with the listed values and continues with 0. -/
def draws (l : List Nat) : Draws := fun i => l.getD i 0

/-- The draw sequence without its first value. -/
def Draws.tail (s : Draws) : Draws := fun i => s (i + 1)

/-- Runs a random computation on a sequence of raw draws: every request takes
the next raw value `r`; `uniform n` yields `r % n` and `chance n` succeeds when
`r % n = 0`.  Returns the result and the unused draws. -/
def Rand.run {α : Type} : Rand α → Draws → α × Draws
  | .pure a, s => (a, s)
  | .uniform n k, s => Rand.run (k (s 0 % n)) s.tail
  | .chance n k, s => Rand.run (k (decide (s 0 % n = 0))) s.tail

/-- Probability of the event `p` over the `one_chance_in` draws alone: the
`random2` draws are read from the sequence `j`, and every `chance n` succeeds
with probability `1 / n`. -/
def Rand.probChance {α : Type} : Rand α → Draws → (α → Bool) → ℚ
  | .pure a, _, p => if p a then 1 else 0
  | .uniform n k, j, p => Rand.probChance (k (j 0 % n)) j.tail p
  | .chance n k, j, p =>
      (1 / (n : ℚ)) * Rand.probChance (k true) j p
        + (1 - 1 / (n : ℚ)) * Rand.probChance (k false) j p

/-- The property `P` holds of the result whatever the draws are. -/
def Rand.All {α : Type} (P : α → Prop) : Rand α → Prop
  | .pure a => P a
  | .uniform n k => ∀ r, Rand.All P (k (r % n))
  | .chance _ k => ∀ b, Rand.All P (k b)

/-- Modelled from the spec: `random2` of random.cc, which is not part of the
sources at hand; the draw source "supplies uniform integers": a uniform draw
from `[0, max)`, and 0 without a draw when `max <= 1`. -/
def random2 (max : Int) : Rand Int :=
  if max ≤ 1 then pure 0 else Rand.uniform max.toNat (fun r => pure (r : Int))

/-- Modelled from the spec: `one_chance_in` of random.cc, which is not part of
the sources at hand; true with probability `1 / n`, and always true when
`n <= 1`. -/
def one_chance_in (n : Int) : Rand Bool :=
  if n ≤ 1 then pure true else Rand.chance n.toNat (fun b => pure b)

/-- Probability of the event `p` over all draws: every `uniform n` yields each
number below `n` with probability `1 / n`, and every `chance n` succeeds with
probability `1 / n`. -/
def Rand.prob {α : Type} : Rand α → (α → Bool) → ℚ
  | .pure a, p => if p a then 1 else 0
  | .uniform n k, p =>
      if n = 0 then Rand.prob (k 0) p
      else ((List.range n).map (fun r => Rand.prob (k r) p)).sum / (n : ℚ)
  | .chance n k, p =>
      (1 / (n : ℚ)) * Rand.prob (k true) p + (1 - 1 / (n : ℚ)) * Rand.prob (k false) p

/-- Modelled from the spec: `x_chance_in_y` of random.cc, which is not part of
the sources at hand; true with probability `x / y`: never when `x <= 0`,
always when `x >= y`, and otherwise when a uniform draw from `[0, y)` is below
`x`. -/
def x_chance_in_y (x y : Int) : Rand Bool :=
  if x ≤ 0 then pure false
  else if x ≥ y then pure true
  else do
    let r ← random2 y
    pure (decide (r < x))

/-- The sum of `n` draws of `random2(size)`. -/
def sum_random2 (size : Int) : Nat → Rand Int
  | 0 => pure 0
  | n + 1 => do
      let r ← random2 size
      let rest ← sum_random2 size n
      pure (r + rest)

/-- Modelled from the spec: `roll_dice` of random.cc, which is not part of the
sources at hand; the `dice_roll(count, size)` of the draw source: the sum of
`num` dice with the faces 1 to `size`, and 0 when `num` or `size` is not
positive. -/
def roll_dice (num size : Int) : Rand Int :=
  if num > 0 ∧ size > 0 then do
    let total ← sum_random2 size num.toNat
    pure (num + total)
  else pure 0

/-! ## Coordinates -/

/-- A cell coordinate (`coord_def`). -/
structure coord_def where
  x : Int
  y : Int
  deriving DecidableEq, Repr

/-- Modelled from the spec: `grid_distance` of coord.h, which is not part of
the sources at hand; the Chebyshev distance of two cells. -/
def grid_distance (p1 p2 : coord_def) : Int :=
  ((max (p1.x - p2.x).natAbs (p1.y - p2.y).natAbs : Nat) : Int)

/-! ## Chain lightning: target selection -/

/-- The monster types that this file names in a `case` label; every other
type of the game's `monster_type` enumeration is `MONS_OTHER` with its
number. -/
inductive monster_type where
  | MONS_SILVER_STATUE
  | MONS_CURSE_SKULL
  | MONS_CLAY_GOLEM
  | MONS_STONE_GOLEM
  | MONS_IRON_GOLEM
  | MONS_CRYSTAL_GOLEM
  | MONS_ORANGE_STATUE
  | MONS_STATUE
  | MONS_EARTH_ELEMENTAL
  | MONS_GARGOYLE
  | MONS_PULSATING_LUMP
  | MONS_JELLY
  | MONS_SLIME_CREATURE
  | MONS_BROWN_OOZE
  | MONS_AZURE_JELLY
  | MONS_DEATH_OOZE
  | MONS_ACID_BLOB
  | MONS_ROYAL_JELLY
  | MONS_OOZE
  | MONS_JELLYFISH
  | MONS_WATER_ELEMENTAL
  | MONS_DANCING_WEAPON
  | MONS_MOLTEN_GARGOYLE
  | MONS_QUICKSILVER_DRAGON
  | MONS_METAL_GARGOYLE
  | MONS_WOOD_GOLEM
  | MONS_OTHER (n : Nat)
  deriving DecidableEq, Repr

/-- The fields of a monster (`monsters`) that the spells of this file read:
its position, its index, its type, its armour class and its hit points. -/
structure monsters where
  pos : coord_def
  mid : Nat
  type : monster_type
  ac : Int
  hit_points : Int
  deriving DecidableEq, Repr

/-- A sample monster of an unlisted type with armour class 0 and 10 hit
points. -/
def mon (pos : coord_def) (mid : Nat) : monsters := ⟨pos, mid, .MONS_OTHER 0, 0, 10⟩

/-- What one hop of `cast_chain_lightning` reads from the game state.
`MONSTER_LOS_RANGE`, `invalid_monster` and the ray test of `_lightning_los`
live outside the file and are parameters. -/
structure hop_env where
  MONSTER_LOS_RANGE : Int
  invalid_monster : monsters → Bool
  lightning_los : coord_def → coord_def → Bool
  you_pos : coord_def

/-- The loop variables of the target search: `min_dist`, `target`, `count`. -/
structure sel_state where
  min_dist : Int
  target : coord_def
  count : Int
  deriving DecidableEq, Repr

/-- The variables at the top of a hop (lines 165-171): `min_dist` is the
sentinel `MONSTER_LOS_RANGE - 1`, `target` is `(-1, -1)`, `count` is 0. -/
def sel_init (E : hop_env) : sel_state :=
  ⟨E.MONSTER_LOS_RANGE - 1, ⟨-1, -1⟩, 0⟩

/-- The body of the monster loop (lines 175-213) for the monster `mi`. -/
def monster_step (E : hop_env) (source : coord_def) (st : sel_state)
    (mi : monsters) : Rand sel_state :=
  if E.invalid_monster mi then pure st
  else
    let dist := grid_distance source mi.pos
    -- check for the source of this arc
    if dist = 0 then pure st
    else do
      -- randomise distance
      let r ← random2 3
      let dist := dist + (r - 1)
      -- always ignore targets further than current one
      if dist > st.min_dist then pure st
      else if !E.lightning_los source mi.pos then pure st
      else
        let count := st.count + 1
        if dist < st.min_dist then do
          -- switch to looking for closer targets (but not always)
          let skip ← one_chance_in 10
          if !skip then pure ⟨dist, mi.pos, 0⟩
          else pure ⟨st.min_dist, st.target, count⟩
        else if st.target.x = -1 then
          -- first target; `dist = max(dist, min_dist)` writes a local only
          pure ⟨st.min_dist, mi.pos, count⟩
        else do
          let pick ← one_chance_in count
          if pick then pure ⟨st.min_dist, mi.pos, count⟩
          else pure ⟨st.min_dist, st.target, count⟩

/-- The monster loop (lines 173-214) over the roster in iteration order. -/
def monster_loop (E : hop_env) (source : coord_def) :
    List monsters → sel_state → Rand sel_state
  | [], st => pure st
  | mi :: rest, st => do
      let st' ← monster_step E source st mi
      monster_loop E source rest st'

/-- The player check (lines 216-232): the target after it. -/
def player_check (E : hop_env) (source : coord_def) (st : sel_state) :
    Rand coord_def :=
  let dist := grid_distance source E.you_pos
  if dist ≠ 0 then do
    let r ← random2 3
    let dist := dist + (r - 1)
    -- `target.x == -1 || dist < min_dist || (dist == min_dist && one_chance_in(count + 1))`
    let sel ←
      if st.target.x = -1 then pure true
      else if dist < st.min_dist then pure true
      else if dist = st.min_dist then one_chance_in (st.count + 1)
      else pure false
    if sel && E.lightning_los source E.you_pos then pure E.you_pos
    else pure st.target
  else pure st.target

/-- Target selection of one hop (lines 165-232): the monster loop followed by
the player check.  The result `(-1, -1)` means that no target was found. -/
def select_target (E : hop_env) (source : coord_def) (roster : List monsters) :
    Rand coord_def := do
  let st ← monster_loop E source roster (sel_init E)
  player_check E source st

/-! ## Chain lightning: the hop loop -/

/-- C++ integer division, which truncates towards zero. -/
def cdiv (a b : Int) : Int := Int.tdiv a b

/-- A damage dice specification (`dice_def`). -/
structure dice_def where
  num : Int
  size : Int
  deriving DecidableEq, Repr

/-- What `cast_chain_lightning` reads from and does to the game state `W`.
Everything here lives outside the file: the monster roster in iteration
order, the positions of the player and of the caster, the attack prompt, the
visibility tests, `calc_dice`, the noise and the firing of the beam. -/
structure chain_env (W : Type) where
  MONSTER_LOS_RANGE : Int
  invalid_monster : monsters → Bool
  lightning_los : W → coord_def → coord_def → Bool
  mons : W → List monsters
  you_pos : W → coord_def
  caster_pos : W → coord_def
  caster_is_you : Bool
  monster_at : W → coord_def → Option monsters
  stop_attack_prompt : W → monsters → Bool
  see_cell_no_trans : W → coord_def → Bool
  calc_dice : Int → Int → dice_def
  noisy : W → coord_def → W
  fire : W → coord_def → coord_def → dice_def → Rand W

/-- The view of the state `w` that the target selection of one hop uses. -/
def chain_env.hop {W : Type} (E : chain_env W) (w : W) : hop_env :=
  ⟨E.MONSTER_LOS_RANGE, E.invalid_monster, E.lightning_los w, E.you_pos w⟩

/-- Why the hop loop stopped.  `out_of_fuel` belongs to the model only. -/
inductive chain_end where
  | grounded
  | exhausted
  | vetoed
  | out_of_fuel
  deriving DecidableEq, Repr

/-- One completed hop: where it started, where it went and the power at the
start of the loop iteration. -/
structure hop_rec where
  source : coord_def
  target : coord_def
  pow : Int
  deriving DecidableEq, Repr

/-- The outcome of `cast_chain_lightning`: the final state, the values of the
loop variables `pow`, `source` and `target` when the loop stopped, the
completed hops in order and the reason of the stop. -/
structure chain_result (W : Type) where
  world : W
  pow : Int
  source : coord_def
  target : coord_def
  hops : List hop_rec
  ending : chain_end

/-- The out-of-sight adjustment of lines 266-270. -/
def los_adjust (seen : Bool) (pow : Int) : Int :=
  if !seen then cdiv pow 2 + 1 else pow

/-- The reduction of the damage when the arc hits the caster (lines 278-284). -/
def kinder (d : dice_def) : dice_def :=
  let num := cdiv d.num 2
  let num := if num = 0 then 1 else num
  let size := cdiv d.size 2
  let size := if size < 3 then 3 else size
  ⟨num, size⟩

/-- Whether the attack prompt of lines 234-242 stops the spell. -/
def prompt_stops {W : Type} (E : chain_env W) (w : W) (target : coord_def) : Bool :=
  E.caster_is_you &&
    (match E.monster_at w target with
     | some m => E.stop_attack_prompt w m
     | none => false)

/-- The rest of a loop iteration once a target is found (lines 255-285) and
the decrement of the `for` statement (line 160): the noise, the out-of-sight
adjustment, the beam, and `pow -= 8 + random2(13)`.  Returns the new state and
the new power. -/
def fire_hop {W : Type} (E : chain_env W) (w : W) (source target : coord_def)
    (pow : Int) : Rand (W × Int) := do
  let w1 := E.noisy w source
  let pow1 := los_adjust (E.see_cell_no_trans w1 target) pow
  let dam := E.calc_dice 5 (12 + cdiv (pow1 * 2) 3)
  -- be kinder to the caster
  let dam := if target = E.caster_pos w1 then kinder dam else dam
  let w2 ← E.fire w1 source target dam
  let r ← random2 13
  pure (w2, pow1 - (8 + r))

/-- The `for` loop of `cast_chain_lightning` (lines 159-286) with its
variables `source`, `target` and `pow`.  `fuel` bounds the number of
iterations of the model. -/
def chain_loop {W : Type} (E : chain_env W) :
    Nat → W → coord_def → coord_def → Int → Rand (chain_result W)
  | 0, w, source, target, pow =>
      pure ⟨w, pow, source, target, [], if pow > 0 then .out_of_fuel else .exhausted⟩
  | fuel + 1, w, source, target, pow =>
      if pow > 0 then do
        let target ← select_target (E.hop w) source (E.mons w)
        if prompt_stops E w target then
          -- `return` inside the loop
          pure ⟨w, pow, source, target, [], .vetoed⟩
        else if target.x = -1 then
          -- "The lightning grounds out."
          pure ⟨w, pow, source, target, [], .grounded⟩
        else do
          let next ← fire_hop E w source target pow
          let res ← chain_loop E fuel next.1 target target next.2
          pure ⟨res.world, res.pow, res.source, res.target,
            ⟨source, target, pow⟩ :: res.hops, res.ending⟩
      else pure ⟨w, pow, source, target, [], .exhausted⟩

/-- The function `cast_chain_lightning(pow, caster)`: the loop starts at the
caster's position; `target` is a default-constructed `coord_def` until the
first hop sets it. -/
def cast_chain_lightning {W : Type} (E : chain_env W) (fuel : Nat) (w : W)
    (pow : Int) : Rand (chain_result W) :=
  chain_loop E fuel w (E.caster_pos w) ⟨0, 0⟩ pow

/-- The number of hops that the power `pow` allows at most: `pow / 8` rounded
up, and 0 for a power that is not positive. -/
def hop_bound (pow : Int) : Nat := ((pow + 7) / 8).toNat

/-! ## Hurting a monster -/

/-- The beam flavours that this file names; every other flavour of the game's
`beam_type` enumeration is `BEAM_OTHER` with its number. -/
inductive beam_type where
  | BEAM_MISSILE
  | BEAM_ELECTRICITY
  | BEAM_DISINTEGRATION
  | BEAM_FRAG
  | BEAM_ICE
  | BEAM_OTHER (n : Nat)
  deriving DecidableEq, Repr

/-- The operations on monsters that `_player_hurt_monster` calls; they live
outside the file. -/
structure hurt_env (W : Type) where
  hurt : W → monsters → Int → beam_type → W
  alive : W → monsters → Bool
  behaviour_event : W → monsters → W
  monster_die : W → monsters → W

/-- The function `_player_hurt_monster(m, damage, flavour)` (lines 760-780):
the new state and whether the monster died. -/
def _player_hurt_monster {W : Type} (H : hurt_env W) (w : W) (m : monsters)
    (damage : Int) (flavour : beam_type) : W × Bool :=
  if damage > 0 then
    let w1 := H.hurt w m damage flavour
    if H.alive w1 m then (H.behaviour_event w1 m, false)
    else (H.monster_die w1 m, true)
  else (w, false)

/-! ## Static discharge -/

/-- Modelled from the spec: `coinflip` of random.cc, which is not part of the
sources at hand; a fair coin flip taken from one uniform draw. -/
def coinflip : Rand Bool := do
  let r ← random2 2
  pure (decide (r ≠ 0))

/-- What `_discharge_monsters` reads from and does to the game state `W`;
everything here lives outside the file.  `around w c n` is the draw of at most
`n` cells around `c` that `apply_random_around_square` makes. -/
structure discharge_env (W : Type) where
  hurt : hurt_env W
  you_pos : W → coord_def
  monster_at : W → coord_def → Option monsters
  res_elec : monsters → Int
  mons_flies : monsters → Bool
  check_your_resists : W → Int → Int
  airborne : W → Bool
  ouch : W → Int → W
  mons_adjust_flavoured : W → monsters → Int → Int
  around : W → coord_def → Nat → Rand (List coord_def)

/-- The outcome of a call of `_discharge_monsters`: the damage it returns, the
new state, the length of the chain of nested arcs that it started, and
whether the model had fuel for all of them. -/
structure discharge_result (W : Type) where
  damage : Int
  world : W
  arcs : Nat
  finished : Bool

/-- Applies `func` to the listed cells in order and adds up the results. -/
def apply_cells {W : Type} (func : W → coord_def → Int → Rand (discharge_result W))
    (power : Int) : List coord_def → discharge_result W → Rand (discharge_result W)
  | [], acc => pure acc
  | c :: cs, acc => do
      let r ← func acc.world c power
      apply_cells func power cs
        ⟨acc.damage + r.damage, r.world, max acc.arcs r.arcs, acc.finished && r.finished⟩

/-- Modelled from the spec: `apply_random_around_square` of spl-util.cc, which
is not part of the sources at hand; the "random-subset sweep" that draws at
most `max_targs` cells around `where_`, applies `func` to each of them with
the given power and returns the sum of the results. -/
def apply_random_around_square {W : Type} (E : discharge_env W)
    (func : W → coord_def → Int → Rand (discharge_result W)) (w : W)
    (where_ : coord_def) (power : Int) (max_targs : Nat) :
    Rand (discharge_result W) := do
  let cells ← E.around w where_ max_targs
  apply_cells func power (cells.take max_targs) ⟨0, w, 0, true⟩

/-- The power that the next arc gets (line 1314): `pow / 2` or `pow / 3`. -/
def arc_power (pow : Int) (coin : Bool) : Int := cdiv pow (if coin then 2 else 3)

/-- The end of `_discharge_monsters` (lines 1309-1325): the gate
`(pow >= 10 && !one_chance_in(3)) || (pow >= 3 && one_chance_in(10))` and the
recursive arc through `self`. -/
def discharge_gate {W : Type} (E : discharge_env W)
    (self : W → coord_def → Int → Rand (discharge_result W)) (w : W)
    (where_ : coord_def) (pow : Int) (damage : Int) : Rand (discharge_result W) := do
  let high ← if pow ≥ 10 then (do let c ← one_chance_in 3; pure (!c)) else pure false
  let go ← if high then pure true
    else if pow ≥ 3 then one_chance_in 10 else pure false
  if go then do
      -- "The lightning arcs!"
      let coin ← coinflip
      let r ← apply_random_around_square E self w where_ (arc_power pow coin) 1
      pure ⟨damage + r.damage, r.world, 1 + r.arcs, r.finished⟩
  else pure ⟨damage, w, 0, true⟩

/-- The function `_discharge_monsters(where, pow)` (lines 1274-1326).  `fuel`
bounds the depth of the recursion of the model. -/
def _discharge_monsters {W : Type} (E : discharge_env W) :
    Nat → W → coord_def → Int → Rand (discharge_result W)
  | 0, w, _, _ => pure ⟨0, w, 0, false⟩
  | fuel + 1, w, where_, pow =>
      if where_ = E.you_pos w then do
        -- "You are struck by lightning."
        let r ← random2 (5 + cdiv pow 10)
        let damage := E.check_your_resists w (3 + r)
        let damage := if E.airborne w then cdiv damage 2 else damage
        discharge_gate E (_discharge_monsters E fuel) (E.ouch w damage) where_ pow damage
      else
        match E.monster_at w where_ with
        | none => pure ⟨0, w, 0, true⟩
        | some monster =>
            if E.res_elec monster > 0 || E.mons_flies monster then pure ⟨0, w, 0, true⟩
            else do
              let r ← random2 (5 + cdiv pow 10)
              let damage := E.mons_adjust_flavoured w monster (3 + r)
              let w1 :=
                if damage ≠ 0 then
                  (_player_hurt_monster E.hurt w monster damage .BEAM_MISSILE).1
                else w
              discharge_gate E (_discharge_monsters E fuel) w1 where_ pow damage

/-! ## Shatter -/

/-- The properties of a monster that `_shatter_monsters` asks for; the
functions live outside the file. -/
structure shatter_env where
  is_insubstantial : monsters → Bool
  mons_flies : monsters → Bool
  is_icy : monsters → Bool
  is_skeletal : monsters → Bool
  petrifying : monsters → Bool
  petrified : monsters → Bool

/-- The damage dice that `_shatter_monsters` chooses for the monster `mon`
(lines 785 and 794-856). -/
def shatter_dice (E : shatter_env) (mon : monsters) (pow : Int) : dice_def :=
  -- number of dice set below
  let dam_dice : dice_def := ⟨0, 5 + cdiv pow 3⟩
  match mon.type with
  | .MONS_SILVER_STATUE => ⟨4, dam_dice.size⟩
  | .MONS_CURSE_SKULL => ⟨6, dam_dice.size⟩
  | .MONS_CLAY_GOLEM => ⟨6, dam_dice.size⟩
  | .MONS_STONE_GOLEM => ⟨6, dam_dice.size⟩
  | .MONS_IRON_GOLEM => ⟨6, dam_dice.size⟩
  | .MONS_CRYSTAL_GOLEM => ⟨6, dam_dice.size⟩
  | .MONS_ORANGE_STATUE => ⟨6, dam_dice.size⟩
  | .MONS_STATUE => ⟨6, dam_dice.size⟩
  | .MONS_EARTH_ELEMENTAL => ⟨6, dam_dice.size⟩
  | .MONS_GARGOYLE => ⟨6, dam_dice.size⟩
  | .MONS_PULSATING_LUMP => ⟨1, cdiv dam_dice.size 2⟩
  | .MONS_JELLY => ⟨1, cdiv dam_dice.size 2⟩
  | .MONS_SLIME_CREATURE => ⟨1, cdiv dam_dice.size 2⟩
  | .MONS_BROWN_OOZE => ⟨1, cdiv dam_dice.size 2⟩
  | .MONS_AZURE_JELLY => ⟨1, cdiv dam_dice.size 2⟩
  | .MONS_DEATH_OOZE => ⟨1, cdiv dam_dice.size 2⟩
  | .MONS_ACID_BLOB => ⟨1, cdiv dam_dice.size 2⟩
  | .MONS_ROYAL_JELLY => ⟨1, cdiv dam_dice.size 2⟩
  | .MONS_OOZE => ⟨1, cdiv dam_dice.size 2⟩
  | .MONS_JELLYFISH => ⟨1, cdiv dam_dice.size 2⟩
  | .MONS_WATER_ELEMENTAL => ⟨1, cdiv dam_dice.size 2⟩
  | .MONS_DANCING_WEAPON => ⟨2, dam_dice.size⟩
  | .MONS_MOLTEN_GARGOYLE => ⟨2, dam_dice.size⟩
  | .MONS_QUICKSILVER_DRAGON => ⟨2, dam_dice.size⟩
  | _ =>
      if E.is_insubstantial mon then ⟨0, dam_dice.size⟩
      else if E.mons_flies mon then ⟨1, dam_dice.size⟩
      else if E.is_icy mon then ⟨4, dam_dice.size⟩
      else if E.is_skeletal mon then ⟨6, dam_dice.size⟩
      else
        let petrifying := E.petrifying mon
        let petrified := E.petrified mon && !petrifying
        -- Petrifying or petrified monsters can be shattered.
        if petrifying || petrified then ⟨if petrifying then 4 else 6, dam_dice.size⟩
        else ⟨3, dam_dice.size⟩

/-- Whether the monster type has a `case` label of its own in the `switch` of
`_shatter_monsters` (lines 796-829). -/
def shatter_listed : monster_type → Bool
  | .MONS_METAL_GARGOYLE => false
  | .MONS_WOOD_GOLEM => false
  | .MONS_OTHER _ => false
  | _ => true

/-- The dice table of the individually listed monster types, by the words of
the comments: 4 dice for the silver statue, 2 for the dancing weapon, the
molten gargoyle and the quicksilver dragon, 1 die of half size for the jellies
and their like, 6 dice for the other listed types. -/
def listed_dice (t : monster_type) (pow : Int) : dice_def :=
  if t = .MONS_SILVER_STATUE then ⟨4, 5 + cdiv pow 3⟩
  else if t = .MONS_DANCING_WEAPON ∨ t = .MONS_MOLTEN_GARGOYLE
      ∨ t = .MONS_QUICKSILVER_DRAGON then ⟨2, 5 + cdiv pow 3⟩
  else if t = .MONS_CURSE_SKULL ∨ t = .MONS_CLAY_GOLEM ∨ t = .MONS_STONE_GOLEM
      ∨ t = .MONS_IRON_GOLEM ∨ t = .MONS_CRYSTAL_GOLEM ∨ t = .MONS_ORANGE_STATUE
      ∨ t = .MONS_STATUE ∨ t = .MONS_EARTH_ELEMENTAL ∨ t = .MONS_GARGOYLE then
    ⟨6, 5 + cdiv pow 3⟩
  else ⟨1, cdiv (5 + cdiv pow 3) 2⟩

/-- The bound on the chain of nested arcs that a call of `_discharge_monsters`
with power `pow` starts: the integer part of the binary logarithm of `pow`
(0 for a power below 1). -/
def arc_bound (pow : Int) : Nat := Nat.log 2 pow.toNat

/-- The facts about a call of `_discharge_monsters` with power `pow` in a
model with `fuel` levels of recursion. -/
def arcs_bounded (fuel : Nat) (pow : Int) (arcs : Nat) (finished : Bool) : Prop :=
  arcs ≤ arc_bound pow ∧ (pow < 3 → arcs = 0) ∧ (arc_bound pow < fuel → finished = true)

/-! ## Shatter: monsters, items and walls -/

/-- The roll of a dice specification (`dice_def::roll`). -/
def dice_def.roll (d : dice_def) : Rand Int := roll_dice d.num d.size

/-- What `_shatter_monsters` reads from and does to the game state `W`. -/
structure shatter_world (W : Type) where
  props : shatter_env
  hurt : hurt_env W
  monster_at : W → coord_def → Option monsters

/-- The function `_shatter_monsters(where, pow)` (lines 783-864): the damage
it returns and the new state.  The roll of the dice is drawn before the
armour roll. -/
def _shatter_monsters {W : Type} (E : shatter_world W) (w : W) (where_ : coord_def)
    (pow : Int) : Rand (Int × W) :=
  match E.monster_at w where_ with
  | none => pure (0, w)
  | some m => do
      let dam_dice := shatter_dice E.props m pow
      let roll ← dam_dice.roll
      let armour ← random2 m.ac
      let damage := max 0 (roll - armour)
      if damage > 0 then
        pure (damage, (_player_hurt_monster E.hurt w m damage .BEAM_MISSILE).1)
      else pure (damage, w)

/-- What `airstrike` reads from and does to the game state `W`; `annoy` stands
for the conducts, the behaviour event and the mimic alert of lines 666-673. -/
structure airstrike_env (W : Type) where
  monster_at : W → coord_def → Option monsters
  stop_attack_prompt : W → monsters → Bool
  annoy : W → monsters → W
  mons_flies : monsters → Bool
  hurt : W → monsters → Int → W

/-- The outcome of `airstrike`: its return value, the new state, and the
damage passed to `monster->hurt` when the monster was struck. -/
structure airstrike_result (W : Type) where
  success : Bool
  world : W
  hurted : Option Int

/-- The damage of `airstrike` (lines 680-691) for a monster with armour class
`ac`: `random2(4)`, the two `random2(pow)` and the armour roll are drawn from
left to right. -/
def airstrike_damage (pow : Int) (flies : Bool) (ac : Int) : Rand Int := do
  let a ← random2 4
  let b ← random2 pow
  let c ← random2 pow
  let r ← random2 (a + cdiv b 6 + cdiv c 7)
  let hurted := 8 + r
  let hurted := if flies then cdiv (hurted * 3) 2 else hurted
  let armour ← random2 (1 + ac)
  let hurted := hurted - armour
  pure (max 0 hurted)

/-- The function `airstrike(pow, beam)` (lines 649-700). -/
def airstrike {W : Type} (E : airstrike_env W) (w : W) (pow : Int)
    (target : coord_def) : Rand (airstrike_result W) :=
  match E.monster_at w target with
  | none => pure ⟨false, w, none⟩
  | some monster =>
      let success := !E.stop_attack_prompt w monster
      if success then do
        let w1 := E.annoy w monster
        let hurted ← airstrike_damage pow (E.mons_flies monster) monster.ac
        pure ⟨success, E.hurt w1 monster hurted, some hurted⟩
      else pure ⟨success, w, none⟩

/-- The item classes that this file names; every other class of the game's
`object_class_type` enumeration is `OBJ_OTHER` with its number. -/
inductive object_class_type where
  | OBJ_WEAPONS
  | OBJ_MISSILES
  | OBJ_POTIONS
  | OBJ_CORPSES
  | OBJ_OTHER (n : Nat)
  deriving DecidableEq, Repr

/-- Modelled from the spec: the game's `corpse_type` enumeration is not part
of the sources at hand; `CORPSE_BODY` is its first value.  Only that it
differs from `CORPSE_SKELETON` matters here. -/
def CORPSE_BODY : Nat := 0

/-- Modelled from the spec: the game's `corpse_type` enumeration is not part
of the sources at hand; `CORPSE_SKELETON` is its second value. -/
def CORPSE_SKELETON : Nat := 1

/-- The fields of an item (`item_def`) that the spells of this file read. -/
structure item_def where
  index : Nat
  base_type : object_class_type
  sub_type : Nat
  deriving DecidableEq, Repr

/-- What `_shatter_items` reads from and does to the game state `W`. -/
structure items_env (W : Type) where
  stack : W → coord_def → List item_def
  destroy_item : W → Nat → W

/-- The outcome of `_shatter_items`: its return value, the new state, and the
items given to `destroy_item`, in order. -/
structure items_result (W : Type) where
  ret : Int
  world : W
  broken : List item_def

/-- The loop of `_shatter_items` (lines 872-879) over the items of the stack;
the accumulator holds `broke_stuff`, the state and the destroyed items. -/
def shatter_stack {W : Type} (E : items_env W) :
    List item_def → Int × W × List item_def → Rand (Int × W × List item_def)
  | [], acc => pure acc
  | si :: rest, (broke_stuff, w, broken) =>
      if si.base_type = .OBJ_POTIONS then do
        let survives ← one_chance_in 10
        if !survives then
          shatter_stack E rest (broke_stuff + 1, E.destroy_item w si.index, broken ++ [si])
        else shatter_stack E rest (broke_stuff, w, broken)
      else shatter_stack E rest (broke_stuff, w, broken)

/-- The function `_shatter_items(where, pow)` (lines 866-890). -/
def _shatter_items {W : Type} (E : items_env W) (w : W) (where_ : coord_def)
    (_pow : Int) : Rand (items_result W) := do
  let acc ← shatter_stack E (E.stack w where_) (0, w, [])
  if acc.1 ≠ 0 then pure ⟨1, acc.2.1, acc.2.2⟩
  else pure ⟨0, acc.2.1, acc.2.2⟩

/-- The dungeon features that this file names; every other feature of the
game's `dungeon_feature_type` enumeration is `DNGN_OTHER` with its number. -/
inductive dungeon_feature_type where
  | DNGN_SECRET_DOOR
  | DNGN_CLOSED_DOOR
  | DNGN_DETECTED_SECRET_DOOR
  | DNGN_OPEN_DOOR
  | DNGN_METAL_WALL
  | DNGN_ORCISH_IDOL
  | DNGN_GRANITE_STATUE
  | DNGN_CLEAR_STONE_WALL
  | DNGN_STONE_WALL
  | DNGN_CLEAR_ROCK_WALL
  | DNGN_ROCK_WALL
  | DNGN_SLIMY_WALL
  | DNGN_GREEN_CRYSTAL_WALL
  | DNGN_FLOOR
  | DNGN_UNDISCOVERED_TRAP
  | DNGN_TRAP_MECHANICAL
  | DNGN_STONE_ARCH
  | DNGN_PERMAROCK_WALL
  | DNGN_CLEAR_PERMAROCK_WALL
  | DNGN_OTHER (n : Nat)
  deriving DecidableEq, Repr

/-- What `_shatter_walls` reads from and does to the game state `W`. -/
structure walls_env (W : Type) where
  in_bounds : coord_def → Bool
  veto_shatter : W → coord_def → Bool
  grd : W → coord_def → dungeon_feature_type
  set_grd : W → coord_def → dungeon_feature_type → W
  noisy : W → coord_def → W
  set_terrain_changed : W → coord_def → W
  did_god_conduct : W → W

/-- The chance in 100 that `_shatter_walls` gives to a feature (the `switch`
of lines 905-947). -/
def shatter_chance (grid : dungeon_feature_type) (pow : Int) : Int :=
  match grid with
  | .DNGN_SECRET_DOOR => 100
  | .DNGN_CLOSED_DOOR => 100
  | .DNGN_DETECTED_SECRET_DOOR => 100
  | .DNGN_OPEN_DOOR => 100
  | .DNGN_METAL_WALL => cdiv pow 10
  | .DNGN_ORCISH_IDOL => 50
  | .DNGN_GRANITE_STATUE => 50
  | .DNGN_CLEAR_STONE_WALL => cdiv pow 6
  | .DNGN_STONE_WALL => cdiv pow 6
  | .DNGN_CLEAR_ROCK_WALL => cdiv pow 4
  | .DNGN_ROCK_WALL => cdiv pow 4
  | .DNGN_SLIMY_WALL => cdiv pow 4
  | .DNGN_GREEN_CRYSTAL_WALL => 50
  | _ => 0

/-- The function `_shatter_walls(where, pow)` (lines 892-963): its return
value and the new state. -/
def _shatter_walls {W : Type} (E : walls_env W) (w : W) (where_ : coord_def)
    (pow : Int) : Rand (Int × W) :=
  -- if not in-bounds then we can't really shatter it
  if !E.in_bounds where_ then pure (0, w)
  else if E.veto_shatter w where_ then pure (0, w)
  else
    let grid := E.grd w where_
    let chance := shatter_chance grid pow
    do
      let hit ← x_chance_in_y chance 100
      if hit then
        let w1 := E.noisy w where_
        let w2 := E.set_grd w1 where_ .DNGN_FLOOR
        let w3 := E.set_terrain_changed w2 where_
        let w4 := if grid = .DNGN_ORCISH_IDOL then E.did_god_conduct w3 else w3
        pure (1, w4)
      else pure (0, w)

/-! ## Fragmentation -/

/-- The part of a trap (`trap_def`) that `cast_fragmentation` reads: its index
and the result of `category()`. -/
structure trap_def where
  index : Nat
  category : dungeon_feature_type
  deriving DecidableEq, Repr

/-- One call of `_player_hurt_monster`: the damage and the flavour that were
passed, and whether the monster died. -/
structure hit_rec where
  damage : Int
  flavour : beam_type
  died : Bool
  deriving DecidableEq, Repr

/-- What `cast_fragmentation` reads from and does to the game state `W`;
everything here lives outside the file.  `explode w target dice ex_size
flavour hole` is `beam.explode(true, hole)`. -/
structure frag_env (W : Type) where
  you_pos : W → coord_def
  exists_ray : W → coord_def → coord_def → Bool
  grd : W → coord_def → dungeon_feature_type
  set_grd : W → coord_def → dungeon_feature_type → W
  set_terrain_changed : W → coord_def → W
  monster_at : W → coord_def → Option monsters
  props : shatter_env
  hurt : hurt_env W
  stack : W → coord_def → List item_def
  explode_corpse : W → item_def → coord_def → Rand (Bool × W)
  destroy_item : W → Nat → W
  veto_fragmentation : W → coord_def → Bool
  find_trap : W → coord_def → Option trap_def
  destroy_trap : W → trap_def → W
  explode : W → coord_def → dice_def → Int → beam_type → Bool → Rand W
  did_god_conduct : W → W

/-- The variables of `cast_fragmentation`: the game state, `beam.damage`,
`beam.ex_size`, `beam.flavour`, `explode`, `hole`, the calls of
`_player_hurt_monster` made so far, and whether `destroy` was called on a
null trap. -/
structure frag_state (W : Type) where
  world : W
  damage : dice_def
  ex_size : Int
  flavour : beam_type
  explode : Bool
  hole : Bool
  hits : List hit_rec
  fault : Bool

/-- The outcome of `cast_fragmentation`: its return value, the variables at
the end, whether `beam.explode` was called and whether the "spell fizzles"
message was given. -/
structure frag_result (W : Type) where
  ret : Bool
  state : frag_state W
  exploded : Bool
  fizzled : Bool

/-- The state with another game state. -/
def frag_state.with_world {W : Type} (st : frag_state W) (w : W) : frag_state W :=
  ⟨w, st.damage, st.ex_size, st.flavour, st.explode, st.hole, st.hits, st.fault⟩

/-- The state with another `beam.damage.num`. -/
def frag_state.with_num {W : Type} (st : frag_state W) (num : Int) : frag_state W :=
  ⟨st.world, ⟨num, st.damage.size⟩, st.ex_size, st.flavour, st.explode, st.hole,
    st.hits, st.fault⟩

/-- The state with another `beam.ex_size`. -/
def frag_state.with_ex_size {W : Type} (st : frag_state W) (n : Int) : frag_state W :=
  ⟨st.world, st.damage, n, st.flavour, st.explode, st.hole, st.hits, st.fault⟩

/-- The state with another `beam.flavour`. -/
def frag_state.with_flavour {W : Type} (st : frag_state W) (f : beam_type) :
    frag_state W :=
  ⟨st.world, st.damage, st.ex_size, f, st.explode, st.hole, st.hits, st.fault⟩

/-- The state with another `explode`. -/
def frag_state.with_explode {W : Type} (st : frag_state W) (b : Bool) : frag_state W :=
  ⟨st.world, st.damage, st.ex_size, st.flavour, b, st.hole, st.hits, st.fault⟩

/-- The state with another `hole`. -/
def frag_state.with_hole {W : Type} (st : frag_state W) (b : Bool) : frag_state W :=
  ⟨st.world, st.damage, st.ex_size, st.flavour, st.explode, b, st.hits, st.fault⟩

/-- The state after `destroy` was called on a null trap. -/
def frag_state.with_fault {W : Type} (st : frag_state W) : frag_state W :=
  ⟨st.world, st.damage, st.ex_size, st.flavour, st.explode, st.hole, st.hits, true⟩

/-- A call `_player_hurt_monster(*mon, damage, flavour)` inside
`cast_fragmentation`: the new variables and whether the monster died. -/
def frag_hurt {W : Type} (E : frag_env W) (st : frag_state W) (m : monsters)
    (damage : Int) (flavour : beam_type) : frag_state W × Bool :=
  let r := _player_hurt_monster E.hurt st.world m damage flavour
  (⟨r.1, st.damage, st.ex_size, st.flavour, st.explode, st.hole,
    st.hits ++ [⟨damage, flavour, r.2⟩], st.fault⟩, r.2)

/-- The pattern of most monster branches: `beam.damage.num = num;` followed by
`if (_player_hurt_monster(*mon, beam.damage.roll(), BEAM_DISINTEGRATION))
beam.damage.num += extra;`. -/
def frag_blast {W : Type} (E : frag_env W) (st : frag_state W) (m : monsters)
    (num extra : Int) : Rand (frag_state W) := do
  let st := st.with_num num
  let dmg ← st.damage.roll
  let r := frag_hurt E st m dmg .BEAM_DISINTEGRATION
  if r.2 then pure (r.1.with_num (r.1.damage.num + extra)) else pure r.1

/-- Where the monster part of `cast_fragmentation` goes on. -/
inductive frag_next where
  | all_done
  | do_terrain
  deriving DecidableEq, Repr

/-- The monster part of `cast_fragmentation` (lines 1429-1581) for the monster
`mon` on the target cell. -/
def frag_monster {W : Type} (E : frag_env W) (pow : Int) (st : frag_state W)
    (mon : monsters) : Rand (frag_state W × frag_next) :=
  match mon.type with
  | .MONS_WOOD_GOLEM => do
      let st := (st.with_explode false).with_num 2
      let dmg ← st.damage.roll
      pure ((frag_hurt E st mon dmg .BEAM_DISINTEGRATION).1, .all_done)
  | .MONS_IRON_GOLEM | .MONS_METAL_GARGOYLE => do
      let st ← frag_blast E (st.with_explode true) mon 4 2
      pure (st, .all_done)
  | .MONS_CLAY_GOLEM | .MONS_STONE_GOLEM | .MONS_EARTH_ELEMENTAL | .MONS_GARGOYLE
  | .MONS_STATUE => do
      let st ← frag_blast E ((st.with_explode true).with_ex_size 2) mon 3 1
      pure (st, .all_done)
  | .MONS_SILVER_STATUE | .MONS_ORANGE_STATUE => do
      let st := (st.with_explode true).with_ex_size 2
      let st := if mon.type = .MONS_SILVER_STATUE then st.with_num 3 else st.with_num 6
      let roll ← st.damage.roll
      let whole ← if pow ≥ 50 then one_chance_in 10 else pure false
      let statue_damage := if whole then mon.hit_points else roll * 2
      let r := frag_hurt E st mon statue_damage .BEAM_DISINTEGRATION
      if r.2 then pure (r.1.with_num (r.1.damage.num + 2), .all_done)
      else pure (r.1, .all_done)
  | .MONS_CRYSTAL_GOLEM => do
      let st ← frag_blast E ((st.with_explode true).with_ex_size 2) mon 4 2
      pure (st, .all_done)
  | _ =>
      if E.props.is_icy mon then do
        -- blast of ice
        let st := ((st.with_explode true).with_num 2).with_flavour .BEAM_ICE
        let dmg ← st.damage.roll
        -- `if (_player_hurt_monster(*mon, beam.damage.roll()), BEAM_DISINTEGRATION)`:
        -- the flavour is outside the call, so the hit has the default flavour
        -- and the condition is the non-zero constant
        let r := frag_hurt E st mon dmg .BEAM_MISSILE
        pure (r.1.with_num (r.1.damage.num + 1), .all_done)
      else if E.props.is_skeletal mon then do
        -- blast of bone
        let st := st.with_explode true
        let kill ← x_chance_in_y (cdiv pow 5) 50
        if kill then
          -- potential insta-kill
          pure (((st.with_world (E.hurt.monster_die st.world mon)).with_num 4), .all_done)
        else do
          let st ← frag_blast E st mon 2 2
          pure (st, .all_done)
      else
        let petrifying := E.props.petrifying mon
        let petrified := E.props.petrified mon && !petrifying
        -- Petrifying or petrified monsters can be exploded.
        if petrifying || petrified then do
          let st := (st.with_explode true).with_ex_size (if petrifying then 1 else 2)
          let st ← frag_blast E st mon (if petrifying then 2 else 3) 1
          pure (st, .all_done)
        else do
          -- Mark that a monster was targeted.
          let st := st.with_num 1
          let dmg ← roll_dice 1 (5 + cdiv pow 25)
          pure ((frag_hurt E st mon dmg .BEAM_DISINTEGRATION).1, .do_terrain)

/-- The corpse loop of `cast_fragmentation` (lines 1583-1604): the state with
which the function goes to `all_done` when the stack holds a corpse, and
nothing when it holds none. -/
def frag_corpses {W : Type} (E : frag_env W) (target : coord_def) :
    List item_def → W → Rand (Option W)
  | [], _ => pure none
  | si :: rest, w =>
      if si.base_type = .OBJ_CORPSES then
        if si.sub_type = CORPSE_BODY then do
          let r ← E.explode_corpse w si target
          if !r.1 then
            -- "seems to be exceptionally well connected"
            pure (some r.2)
          else pure (some (E.destroy_item r.2 si.index))
        else pure (some (E.destroy_item w si.index))
      else frag_corpses E target rest w

/-- The evaluation of `a || b` for two conditions that draw. -/
def or_else (a b : Rand Bool) : Rand Bool := do
  let x ← a
  if x then pure true else b

/-- The evaluation of `c && b` for a condition `b` that draws. -/
def and_then (c : Bool) (b : Rand Bool) : Rand Bool :=
  if c then b else pure false

/-- The state after `grd(spd.target) = DNGN_FLOOR; set_terrain_changed(spd.target);`. -/
def frag_floor {W : Type} (E : frag_env W) (target : coord_def) (st : frag_state W) :
    frag_state W :=
  st.with_world (E.set_terrain_changed (E.set_grd st.world target .DNGN_FLOOR) target)

/-- The rock and stone case of the terrain `switch` (lines 1623-1666). -/
def frag_rock {W : Type} (E : frag_env W) (pow : Int) (grid : dungeon_feature_type)
    (target : coord_def) (st : frag_state W) : Rand (frag_state W) := do
  let st := (st.with_explode true).with_num 3
  let blown ←
    or_else (pure (decide (grid = .DNGN_ORCISH_IDOL)))
      (or_else (pure (decide (grid = .DNGN_GRANITE_STATUE)))
        (or_else (and_then (decide (pow ≥ 40) && decide (grid = .DNGN_ROCK_WALL))
            (one_chance_in 3))
          (or_else (and_then (decide (pow ≥ 40) && decide (grid = .DNGN_CLEAR_ROCK_WALL))
              (one_chance_in 3))
            (or_else (and_then (decide (pow ≥ 60) && decide (grid = .DNGN_STONE_WALL))
                (one_chance_in 10))
              (and_then (decide (pow ≥ 60) && decide (grid = .DNGN_CLEAR_STONE_WALL))
                (one_chance_in 10))))))
  if blown then
    -- terrain blew up real good
    pure (frag_floor E target (st.with_ex_size 2))
  else pure st

/-- The terrain `switch` of `cast_fragmentation` (lines 1618-1772) on the
feature `grid` that the target cell had at the start. -/
def frag_terrain {W : Type} (E : frag_env W) (pow : Int) (grid : dungeon_feature_type)
    (target : coord_def) (st : frag_state W) : Rand (frag_state W) :=
  match grid with
  | .DNGN_ROCK_WALL | .DNGN_CLEAR_ROCK_WALL | .DNGN_SECRET_DOOR
  | .DNGN_CLEAR_STONE_WALL | .DNGN_STONE_WALL | .DNGN_ORCISH_IDOL
  | .DNGN_GRANITE_STATUE => frag_rock E pow grid target st
  | .DNGN_METAL_WALL => do
      let st := (st.with_explode true).with_num 4
      let blown ← and_then (decide (pow ≥ 80)) (x_chance_in_y (cdiv pow 5) 500)
      if blown then pure (frag_floor E target (st.with_num (st.damage.num + 2)))
      else pure st
  | .DNGN_GREEN_CRYSTAL_WALL => do
      let st := ((st.with_explode true).with_ex_size 2).with_num 5
      let blown ← coinflip
      if blown then do
        let big ← coinflip
        pure (frag_floor E target (st.with_ex_size (if big then 3 else 2)))
      else pure st
  | .DNGN_UNDISCOVERED_TRAP | .DNGN_TRAP_MECHANICAL =>
      match E.find_trap st.world target with
      | some ptrap =>
          if ptrap.category ≠ .DNGN_TRAP_MECHANICAL then
            -- Non-mechanical traps don't explode with this spell.
            pure st
          else
            let st := ((st.with_explode true).with_hole false).with_num 2
            pure (st.with_world (E.destroy_trap st.world ptrap))
      | none =>
          -- `ptrap->destroy()` on a null pointer
          pure (((st.with_explode true).with_hole false).with_num 2).with_fault
  | .DNGN_OPEN_DOOR | .DNGN_CLOSED_DOOR | .DNGN_DETECTED_SECRET_DOOR =>
      -- Doors always blow up
      pure ((((frag_floor E target st).with_explode true).with_hole false).with_num 2)
  | .DNGN_STONE_ARCH =>
      pure (((st.with_explode true).with_hole false).with_num 2)
  | .DNGN_PERMAROCK_WALL | .DNGN_CLEAR_PERMAROCK_WALL | .DNGN_FLOOR =>
      pure (st.with_explode false)
  | _ => pure st

/-- The end of `cast_fragmentation` (lines 1774-1791). -/
def frag_all_done {W : Type} (E : frag_env W) (grid : dungeon_feature_type)
    (target : coord_def) (st : frag_state W) : Rand (frag_result W) :=
  if st.explode && decide (st.damage.num > 0) then do
    let w ← E.explode st.world target st.damage st.ex_size st.flavour st.hole
    let w := if grid = .DNGN_ORCISH_IDOL then E.did_god_conduct w else w
    pure ⟨true, st.with_world w, true, false⟩
  else if st.damage.num = 0 then
    -- If damage dice are zero, assume that nothing happened at all.
    pure ⟨true, st, false, true⟩
  else pure ⟨true, st, false, false⟩

/-- The function `cast_fragmentation(pow, spd)` (lines 1396-1792) for the
target cell `target`. -/
def cast_fragmentation {W : Type} (E : frag_env W) (w : W) (pow : Int)
    (target : coord_def) : Rand (frag_result W) :=
  let st0 : frag_state W := ⟨w, ⟨0, 5 + cdiv pow 10⟩, 1, .BEAM_FRAG, false, true, [], false⟩
  if !E.exists_ray w (E.you_pos w) target then
    -- "There's a wall in the way!"
    pure ⟨false, st0, false, false⟩
  else
    let grid := E.grd w target
    match E.monster_at w target with
    | some mon => do
        let r ← frag_monster E pow st0 mon
        match r.2 with
        | .all_done => frag_all_done E grid target r.1
        | .do_terrain => do
            let st ← frag_terrain E pow grid target r.1
            frag_all_done E grid target st
    | none => do
        let found ← frag_corpses E target (E.stack w target) w
        match found with
        | some w1 => frag_all_done E grid target (st0.with_world w1)
        | none =>
            if E.veto_fragmentation w target then
              -- "seems to be unnaturally hard", the spell fizzles
              pure ⟨true, st0, false, true⟩
            else do
              let st ← frag_terrain E pow grid target st0
              frag_all_done E grid target st

/-! ## Vampiric draining -/

/-- Modelled from the spec: `random2avg` of random.cc, which is not part of the
sources at hand; the draw source's average of `rolls` uniform draws: one draw
of `random2(max)` and `rolls - 1` draws of `random2(max + 1)`, added up and
divided by `rolls`. -/
def random2avg (max rolls : Int) : Rand Int := do
  let first ← random2 max
  let rest ← sum_random2 (max + 1) (rolls - 1).toNat
  pure (cdiv (first + rest) rolls)

/-- What `vampiric_drain` reads from and does to the game state `W`;
everything here lives outside the file.  `natural m` is
`monster->holiness() == MH_NATURAL`. -/
structure drain_env (W : Type) where
  submerged : monsters → Bool
  observable : monsters → Bool
  undead_or_demonic : monsters → Bool
  stop_attack_prompt : W → monsters → Bool
  behaviour_event : W → monsters → W
  alive : W → monsters → Bool
  natural : monsters → Bool
  res_negative_energy : monsters → Bool
  is_summoned : monsters → Bool
  you_hp : W → Int
  you_hp_max : W → Int
  dec_hp : W → Int → W
  hurt : W → monsters → Int → W
  inc_hp : W → Int → W

/-- The outcome of `vampiric_drain`: its return value, the new state, the
hit points passed to `monster->hurt` (`hp_gain` before it is halved) and the
hit points passed to `inc_hp`. -/
structure drain_result (W : Type) where
  ret : Bool
  world : W
  drained : Option Int
  healed : Option Int

/-- The value of `hp_gain` of lines 556-559: `random2avg(9, 2)` is drawn
before `random2(pow)`. -/
def drain_gain (pow : Int) (hit_points missing : Int) : Rand Int := do
  -- The practical maximum of this is about 25 (pow @ 100).
  let a ← random2avg 9 2
  let b ← random2 pow
  let hp_gain := 3 + a + cdiv b 7
  let hp_gain := min hit_points hp_gain
  pure (min missing hp_gain)

/-- The function `vampiric_drain(pow, monster)` (lines 502-583); `none` is the
null pointer. -/
def vampiric_drain {W : Type} (E : drain_env W) (w : W) (pow : Int) :
    Option monsters → Rand (drain_result W)
  | none => pure ⟨true, w, none, none⟩
  | some monster =>
      if E.submerged monster then
        -- "There isn't anything there!"
        pure ⟨true, w, none, none⟩
      else if E.observable monster && E.undead_or_demonic monster then
        pure ⟨false, w, none, none⟩
      else
        let success := !E.stop_attack_prompt w monster
        if !success then pure ⟨false, w, none, none⟩
        else
          let w1 := E.behaviour_event w monster
          if !E.alive w1 monster then pure ⟨true, w1, none, none⟩
          else if E.undead_or_demonic monster then do
            -- Monster might be invisible or player misled.
            let r ← random2avg 39 2
            pure ⟨true, E.dec_hp w1 (r + 10), none, none⟩
          else if !E.natural monster || E.res_negative_energy monster then
            pure ⟨true, w1, none, none⟩
          else do
            let hp_gain ← drain_gain pow monster.hit_points (E.you_hp_max w1 - E.you_hp w1)
            if hp_gain = 0 then pure ⟨true, w1, none, none⟩
            else
              let mons_was_summoned := E.is_summoned monster
              let w2 := E.hurt w1 monster hp_gain
              let half := cdiv hp_gain 2
              if half ≠ 0 ∧ mons_was_summoned = false then
                -- "You feel life coursing into your body."
                pure ⟨true, E.inc_hp w2 half, some hp_gain, some half⟩
              else pure ⟨true, w2, some hp_gain, none⟩

/-! ## Properties used in the proofs -/

/-- The number of dice of a monster without a `case` label of its own, by
the words of the claim: the first rule that matches in the order
insubstantial 0, flying 1, icy 4, skeletal 6, petrifying 4, petrified 6,
and 3 when none matches. -/
def group_dice (E : shatter_env) (m : monsters) : Int :=
  if E.is_insubstantial m then 0
  else if E.mons_flies m then 1
  else if E.is_icy m then 4
  else if E.is_skeletal m then 6
  else if E.petrifying m then 4
  else if E.petrified m then 6
  else 3

/-- The chance in 100 that `_shatter_walls` clears a feature, by the words of
the claim: 100 for the doors, `pow / 10` for metal walls, 50 for orcish idols,
granite statues and green crystal walls, `pow / 6` for stone walls, `pow / 4`
for rock and slimy walls, and 0 for every other feature. -/
def wall_chance (grid : dungeon_feature_type) (pow : Int) : Int :=
  if grid = .DNGN_SECRET_DOOR ∨ grid = .DNGN_CLOSED_DOOR
      ∨ grid = .DNGN_DETECTED_SECRET_DOOR ∨ grid = .DNGN_OPEN_DOOR then 100
  else if grid = .DNGN_METAL_WALL then cdiv pow 10
  else if grid = .DNGN_ORCISH_IDOL ∨ grid = .DNGN_GRANITE_STATUE
      ∨ grid = .DNGN_GREEN_CRYSTAL_WALL then 50
  else if grid = .DNGN_STONE_WALL ∨ grid = .DNGN_CLEAR_STONE_WALL then cdiv pow 6
  else if grid = .DNGN_ROCK_WALL ∨ grid = .DNGN_CLEAR_ROCK_WALL
      ∨ grid = .DNGN_SLIMY_WALL then cdiv pow 4
  else 0

/-- The probability of an event that has `c` chances in 100: `c / 100`, kept
between 0 and 1. -/
def chance_in_100 (c : Int) : ℚ := ((max 0 (min 100 c) : Int) : ℚ) / 100

/-- The arc that follows an open gate when the sweep gets the power `q`
(lines 1315-1316): `damage += apply_random_around_square(_discharge_monsters,
where, true, q, 1)`; `self` is the function that the sweep calls on the drawn
cell, and the chain of arcs is one longer than the chain that this call
starts. -/
def next_arc {W : Type} (E : discharge_env W)
    (self : W → coord_def → Int → Rand (discharge_result W)) (w : W)
    (where_ : coord_def) (q : Int) (damage : Int) : Rand (discharge_result W) := do
  let r ← apply_random_around_square E self w where_ q 1
  pure ⟨damage + r.damage, r.world, 1 + r.arcs, r.finished⟩

/-- The chance that a call of `_discharge_monsters` arcs again, by the words
of the claim: 0 below power 3, 1/10 from 3 to 9, and 7/10 from 10 on. -/
def arc_chance (pow : Int) : ℚ :=
  if pow < 3 then 0 else if pow < 10 then 1 / 10 else 7 / 10

/-- The potions that `_shatter_items` is to destroy, by the words of the
claim: every potion of the stack has a draw of its own, in the order of the
stack, and survives exactly when that draw is a 1-in-10 success; items that
are no potions have no draw and are never destroyed. -/
def broken_potions : List item_def → Draws → List item_def
  | [], _ => []
  | si :: rest, s =>
      if si.base_type = .OBJ_POTIONS then
        if s 0 % 10 = 0 then broken_potions rest s.tail
        else si :: broken_potions rest s.tail
      else broken_potions rest s

/-- The draws that are left when the monster loop reaches the monster that
follows the monsters `pre` of the roster. -/
def draws_after (E : hop_env) (source : coord_def) (pre : List monsters)
    (s : Draws) : Draws :=
  ((monster_loop E source pre (sel_init E)).run s).2

/-- The jittered distance that the monster loop computes for `mi` when its
draws start at `s`: the grid distance plus `random2(3) - 1`. -/
def jittered (source : coord_def) (pos : coord_def) (s : Draws) : Int :=
  grid_distance source pos + (((s 0 % 3 : Nat) : Int) - 1)

/-- The rules of the monster loop applied to the player: the target after
`monster_step` has treated a valid monster that stands on the player's cell. -/
def player_by_monster_rules (E : hop_env) (source : coord_def) (st : sel_state) :
    Rand coord_def := do
  let st' ← monster_step ⟨E.MONSTER_LOS_RANGE, fun _ => false, E.lightning_los, E.you_pos⟩
    source st (mon E.you_pos 0)
  pure st'.target

/-- The search state never holds the source cell as its target. -/
def target_off_source (source : coord_def) (t : coord_def) : Prop :=
  t = ⟨-1, -1⟩ ∨ grid_distance source t ≠ 0

/-- While no target is set, `min_dist` is still the sentinel. -/
def sentinel_kept (E : hop_env) (st : sel_state) : Prop :=
  st.target.x = -1 → st.min_dist = E.MONSTER_LOS_RANGE - 1

/-- The facts about the powers of a finished chain: every hop starts at
least 8 below the hop before it, and the final power is at least 8 below the
power of every hop. -/
def powers_decay (pow : Int) (hops : List hop_rec) (final : Int) : Prop :=
  final ≤ pow ∧ (∀ h ∈ hops.head?, h.pow = pow) ∧
    (∀ h ∈ hops, final + 8 ≤ h.pow ∧ h.pow ≤ pow) ∧
    List.Chain' (fun a b : hop_rec => b.pow + 8 ≤ a.pow) hops

/-- Whether the terrain switch of `cast_fragmentation` clears a cell of the
feature `grid` to floor at the power `pow` when its draws are read from `s`, by
the words of the claim: the doors always, orcish idols and granite statues
always, rock walls from power 40 on a 1-in-3 draw, stone walls from power 60
on a 1-in-10 draw, metal walls from power 80 on a `pow / 5`-in-500 draw, green
crystal walls on a coin flip, and no other feature. -/
def frag_floor_cases (grid : dungeon_feature_type) (pow : Int) (s : Draws) : Bool :=
  if grid = .DNGN_OPEN_DOOR ∨ grid = .DNGN_CLOSED_DOOR
      ∨ grid = .DNGN_DETECTED_SECRET_DOOR then true
  else if grid = .DNGN_ORCISH_IDOL ∨ grid = .DNGN_GRANITE_STATUE then true
  else if grid = .DNGN_ROCK_WALL ∨ grid = .DNGN_CLEAR_ROCK_WALL then
    decide (pow ≥ 40) && ((one_chance_in 3).run s).1
  else if grid = .DNGN_STONE_WALL ∨ grid = .DNGN_CLEAR_STONE_WALL then
    decide (pow ≥ 60) && ((one_chance_in 10).run s).1
  else if grid = .DNGN_METAL_WALL then
    decide (pow ≥ 80) && ((x_chance_in_y (cdiv pow 5) 500).run s).1
  else if grid = .DNGN_GREEN_CRYSTAL_WALL then (coinflip.run s).1
  else false

/-! ## Sample states -/

/-- A sample hop: the player stands on (5, 5), every monster is valid, nothing
blocks the lightning, and the monster sight range is 8. -/
def sample_hop : hop_env := ⟨8, fun _ => false, fun _ _ => true, ⟨5, 5⟩⟩

/-- A sample game state: the monsters in iteration order and the player's
cell. -/
structure sample_world where
  mons : List monsters
  you : coord_def
  deriving DecidableEq, Repr

/-- A sample game: the player casts; every monster is valid, nothing blocks
the lightning or the view, the monster with id 7 is a friend for which the
attack prompt stops the spell, and the beam leaves every monster alive and in
place. -/
def sample_chain : chain_env sample_world :=
  ⟨8, fun _ => false, fun _ _ _ => true, fun w => w.mons, fun w => w.you,
    fun w => w.you, true,
    fun w p => w.mons.find? (fun mi => decide (mi.pos = p)),
    fun _ mi => decide (mi.mid = 7), fun _ _ => true, fun n sz => ⟨n, sz⟩,
    fun w _ => w, fun w _ _ _ => pure w⟩

/-- A sample game for static discharge: nothing resists or flies, damage is
not adjusted, the blows change nothing, and the cells drawn around a cell are
the cells of the monsters next to it. -/
def sample_discharge : discharge_env sample_world :=
  ⟨⟨fun w _ _ _ => w, fun _ _ => true, fun w _ => w, fun w _ => w⟩,
    fun w => w.you,
    fun w p => w.mons.find? (fun mi => decide (mi.pos = p)),
    fun _ => 0, fun _ => false, fun _ d => d, fun _ => false, fun w _ => w,
    fun _ _ d => d,
    fun w c _ => pure ((w.mons.map (fun mi => mi.pos)).filter
      (fun p => decide (grid_distance c p = 1)))⟩

/-- A sample of monster properties: every monster is insubstantial, flying,
icy, skeletal, petrifying and petrified at once. -/
def sample_shatter : shatter_env :=
  ⟨fun _ => true, fun _ => true, fun _ => true, fun _ => true, fun _ => true, fun _ => true⟩

/-- A sample game state for the terrain spells: the monsters, the features of
the cells that are not floor, the items with their cells, the cells with a
veto marker, the player's cell and the dice of the explosions so far. -/
structure frag_world where
  mons : List monsters
  grid : List (coord_def × dungeon_feature_type)
  items : List (coord_def × item_def)
  vetoes : List coord_def
  you : coord_def
  blasts : List dice_def
  deriving DecidableEq, Repr

/-- The feature of a cell of the sample state. -/
def frag_world.feature (w : frag_world) (p : coord_def) : dungeon_feature_type :=
  match w.grid.find? (fun c => decide (c.1 = p)) with
  | some c => c.2
  | none => .DNGN_FLOOR

/-- The sample state with the feature of a cell changed. -/
def frag_world.set_feature (w : frag_world) (p : coord_def)
    (f : dungeon_feature_type) : frag_world :=
  ⟨w.mons, (p, f) :: w.grid, w.items, w.vetoes, w.you, w.blasts⟩

/-- The monsters of a sample game: a blow lowers the hit points of the
struck monster, a monster is alive while it has hit points, and a dead
monster leaves the roster. -/
def sample_hurt : hurt_env frag_world :=
  ⟨fun w m d _ =>
      ⟨w.mons.map (fun mi =>
          if mi.mid = m.mid then ⟨mi.pos, mi.mid, mi.type, mi.ac, mi.hit_points - d⟩ else mi),
        w.grid, w.items, w.vetoes, w.you, w.blasts⟩,
    fun w m =>
      match w.mons.find? (fun mi => decide (mi.mid = m.mid)) with
      | some mi => decide (mi.hit_points > 0)
      | none => false,
    fun w _ => w,
    fun w m =>
      ⟨w.mons.filter (fun mi => decide (mi.mid ≠ m.mid)), w.grid, w.items, w.vetoes, w.you,
        w.blasts⟩⟩

/-- A sample of monster properties: no monster is insubstantial, flying, icy,
skeletal, petrifying or petrified. -/
def plain_props : shatter_env :=
  ⟨fun _ => false, fun _ => false, fun _ => false, fun _ => false, fun _ => false,
    fun _ => false⟩

/-- A sample game for fragmentation: every ray is clear, corpses always
explode, there are no traps, and an explosion is recorded with its dice. -/
def sample_frag : frag_env frag_world :=
  ⟨fun w => w.you, fun _ _ _ => true, fun w p => w.feature p,
    fun w p f => w.set_feature p f, fun w _ => w,
    fun w p => w.mons.find? (fun mi => decide (mi.pos = p)),
    plain_props, sample_hurt,
    fun w p => (w.items.filter (fun c => decide (c.1 = p))).map (fun c => c.2),
    fun w _ _ => pure (true, w),
    fun w i =>
      ⟨w.mons, w.grid, w.items.filter (fun c => decide (c.2.index ≠ i)), w.vetoes, w.you,
        w.blasts⟩,
    fun w p => decide (p ∈ w.vetoes), fun _ _ => none, fun w _ => w,
    fun w _ d _ _ _ => pure ⟨w.mons, w.grid, w.items, w.vetoes, w.you, w.blasts ++ [d]⟩,
    fun w => w⟩

/-- A sample game for shatter on the sample state: every monster has every
property. -/
def sample_shatter_world : shatter_world frag_world :=
  ⟨sample_shatter, sample_hurt, fun w p => w.mons.find? (fun mi => decide (mi.pos = p))⟩

/-- A sample game for `_shatter_walls`: the cells with both coordinates from 1
to 78 are in bounds, a veto marker vetoes, and noise and conducts change
nothing. -/
def sample_walls : walls_env frag_world :=
  ⟨fun p => decide (0 < p.x) && decide (p.x < 79) && decide (0 < p.y) && decide (p.y < 69),
    fun w p => decide (p ∈ w.vetoes), fun w p => w.feature p,
    fun w p f => w.set_feature p f, fun w _ => w, fun w _ => w, fun w => w⟩

/-- A sample game for `_shatter_items` on the sample state. -/
def sample_items : items_env frag_world :=
  ⟨fun w p => (w.items.filter (fun c => decide (c.1 = p))).map (fun c => c.2),
    fun w i =>
      ⟨w.mons, w.grid, w.items.filter (fun c => decide (c.2.index ≠ i)), w.vetoes, w.you,
        w.blasts⟩⟩

/-- The sample game for fragmentation with every monster icy. -/
def sample_frag_icy : frag_env frag_world :=
  ⟨sample_frag.you_pos, sample_frag.exists_ray, sample_frag.grd, sample_frag.set_grd,
    sample_frag.set_terrain_changed, sample_frag.monster_at,
    ⟨fun _ => false, fun _ => false, fun _ => true, fun _ => false, fun _ => false,
      fun _ => false⟩,
    sample_frag.hurt, sample_frag.stack, sample_frag.explode_corpse,
    sample_frag.destroy_item, sample_frag.veto_fragmentation, sample_frag.find_trap,
    sample_frag.destroy_trap, sample_frag.explode, sample_frag.did_god_conduct⟩

/-- A sample state for draining: the player's hit points and their maximum. -/
structure drain_world where
  hp : Int
  hp_max : Int
  deriving DecidableEq, Repr

/-- A sample game for draining: the monster is a visible, living, natural
being that is not summoned, no attack is stopped, and `inc_hp` adds to the
player's hit points without any cap. -/
def sample_drain : drain_env drain_world :=
  ⟨fun _ => false, fun _ => true, fun _ => false, fun _ _ => false, fun w _ => w,
    fun _ _ => true, fun _ => true, fun _ => false, fun _ => false,
    fun w => w.hp, fun w => w.hp_max, fun w d => ⟨w.hp - d, w.hp_max⟩, fun w _ _ => w,
    fun w h => ⟨w.hp + h, w.hp_max⟩⟩

/-- A sample game for fragmentation with traps: every cell that shows a
mechanical trap holds one, numbered by its place in the list of cells, and
the trap's `destroy` (whose body lies outside the file) removes the trap from
its cell and leaves floor there. -/
def sample_frag_trap : frag_env frag_world :=
  ⟨sample_frag.you_pos, sample_frag.exists_ray, sample_frag.grd, sample_frag.set_grd,
    sample_frag.set_terrain_changed, sample_frag.monster_at, sample_frag.props,
    sample_frag.hurt, sample_frag.stack, sample_frag.explode_corpse,
    sample_frag.destroy_item, sample_frag.veto_fragmentation,
    fun w p =>
      if w.feature p = .DNGN_TRAP_MECHANICAL then
        some ⟨w.grid.findIdx (fun c => decide (c.1 = p)), .DNGN_TRAP_MECHANICAL⟩
      else none,
    fun w t =>
      match w.grid.get? t.index with
      | some c => w.set_feature c.1 .DNGN_FLOOR
      | none => w,
    sample_frag.explode, sample_frag.did_god_conduct⟩

/-! ## Running random computations -/

@[simp] theorem Rand.run_pure {α : Type} (a : α) (s : Draws) :
    (Pure.pure a : Rand α).run s = (a, s) := rfl

@[simp] theorem Rand.run_bind {α β : Type} (m : Rand α) (f : α → Rand β) (s : Draws) :
    (m >>= f).run s = (f (m.run s).1).run (m.run s).2 := by
  induction m generalizing s with
  | pure a => rfl
  | uniform n k ih => exact ih _ _
  | chance n k ih => exact ih _ _

theorem random2_run (max : Int) (s : Draws) :
    (random2 max).run s =
      if max ≤ 1 then (0, s) else (((s 0 % max.toNat : Nat) : Int), s.tail) := by
  unfold random2
  split <;> rfl

theorem one_chance_in_run (n : Int) (s : Draws) :
    (one_chance_in n).run s =
      if n ≤ 1 then (true, s) else (decide (s 0 % n.toNat = 0), s.tail) := by
  unfold one_chance_in
  split <;> rfl

theorem Rand.All.run {α : Type} {P : α → Prop} {m : Rand α} (h : m.All P)
    (s : Draws) : P (m.run s).1 := by
  induction m generalizing s with
  | pure a => exact h
  | uniform n k ih => exact ih _ (h _) _
  | chance n k ih => exact ih _ (h _) _

theorem Rand.All.mono {α : Type} {P Q : α → Prop} {m : Rand α} (h : m.All P)
    (hPQ : ∀ a, P a → Q a) : m.All Q := by
  induction m with
  | pure a => exact hPQ a h
  | uniform n k ih => exact fun r => ih _ (h r)
  | chance n k ih => exact fun b => ih b (h b)

theorem Rand.All.any {α : Type} {P : α → Prop} (m : Rand α) (h : ∀ a, P a) : m.All P := by
  induction m with
  | pure a => exact h a
  | uniform n k ih => exact fun r => ih _
  | chance n k ih => exact fun b => ih b

theorem Rand.All.of_pure {α : Type} {P : α → Prop} {a : α} (h : P a) :
    (Pure.pure a : Rand α).All P := h

theorem Rand.All.bind {α β : Type} {P : β → Prop} {m : Rand α} {f : α → Rand β}
    (h : m.All (fun a => (f a).All P)) : (m >>= f).All P := by
  induction m with
  | pure a => exact h
  | uniform n k ih => exact fun r => ih _ (h r)
  | chance n k ih => exact fun b => ih b (h b)

theorem Rand.All.random2 {P : Int → Prop} {max : Int}
    (h : ∀ r : Int, 0 ≤ r → r < Max.max max 1 → P r) : (random2 max).All P := by
  unfold Crawl.random2
  split
  · exact h 0 le_rfl (by omega)
  · intro r
    have hpos : 0 < max.toNat := by omega
    have hlt := Nat.mod_lt r hpos
    apply h
    · exact Int.natCast_nonneg _
    · have : ((r % max.toNat : Nat) : Int) < max := by omega
      exact lt_of_lt_of_le this (le_max_left _ _)

theorem Rand.All.one_chance_in {P : Bool → Prop} {n : Int}
    (h : ∀ b : Bool, P b) : (one_chance_in n).All P := by
  unfold Crawl.one_chance_in
  split
  · exact h true
  · exact fun b => h b

theorem Rand.All.bind_random2 {β : Type} {P : β → Prop} {max : Int} {f : Int → Rand β}
    (h : ∀ r : Int, 0 ≤ r → r < Max.max max 1 → (f r).All P) :
    (Crawl.random2 max >>= f).All P :=
  Rand.All.bind (Rand.All.random2 h)

theorem Rand.All.bind_chance {β : Type} {P : β → Prop} {n : Int} {f : Bool → Rand β}
    (h : ∀ b : Bool, (f b).All P) : (Crawl.one_chance_in n >>= f).All P :=
  Rand.All.bind (Rand.All.one_chance_in h)

theorem Rand.All.bind_pure {α β : Type} {P : β → Prop} {a : α} {f : α → Rand β}
    (h : (f a).All P) : ((Pure.pure a : Rand α) >>= f).All P := h

theorem random2_three_run (s : Draws) :
    (random2 3).run s = (((s 0 % 3 : Nat) : Int), s.tail) := rfl

theorem random2_thirteen_run (s : Draws) :
    (random2 13).run s = (((s 0 % 13 : Nat) : Int), s.tail) := rfl

theorem one_chance_in_ten_run (s : Draws) :
    (one_chance_in 10).run s = (decide (s 0 % 10 = 0), s.tail) := rfl

/-! ## C1: the source cell is never the next target -/

theorem monster_step_off_source (E : hop_env) (source : coord_def) (st : sel_state)
    (mi : monsters) (h : target_off_source source st.target) :
    (monster_step E source st mi).All (fun st' => target_off_source source st'.target) := by
  unfold monster_step
  dsimp only
  by_cases hd : grid_distance source mi.pos = 0
  · split_ifs <;> exact h
  · have hm : target_off_source source mi.pos := Or.inr hd
    repeat' first
      | exact h
      | exact hm
      | split_ifs
      | (apply Rand.All.bind_random2; intro r _ _)
      | (apply Rand.All.bind_chance; intro b)

theorem monster_loop_off_source (E : hop_env) (source : coord_def)
    (roster : List monsters) (st : sel_state)
    (h : target_off_source source st.target) :
    (monster_loop E source roster st).All
      (fun st' => target_off_source source st'.target) := by
  induction roster generalizing st with
  | nil => exact h
  | cons mi rest ih =>
      unfold monster_loop
      apply Rand.All.bind
      exact Rand.All.mono (monster_step_off_source E source st mi h) (fun st' h' => ih st' h')

theorem player_check_off_source (E : hop_env) (source : coord_def) (st : sel_state)
    (h : target_off_source source st.target) :
    (player_check E source st).All (target_off_source source) := by
  unfold player_check
  dsimp only
  by_cases hd : grid_distance source E.you_pos = 0
  · simp only [ne_eq, hd, not_true_eq_false, if_false]
    exact h
  · have hm : target_off_source source E.you_pos := Or.inr hd
    simp only [ne_eq, hd, not_false_eq_true, if_true]
    apply Rand.All.bind_random2
    intro r _ _
    split_ifs <;>
      first
        | (apply Rand.All.bind_pure; split_ifs <;> first | exact h | exact hm)
        | (apply Rand.All.bind_chance; intro b; split_ifs <;> first | exact h | exact hm)

theorem select_target_off_source (E : hop_env) (source : coord_def)
    (roster : List monsters) :
    (select_target E source roster).All (target_off_source source) := by
  unfold select_target
  apply Rand.All.bind
  exact Rand.All.mono (monster_loop_off_source E source roster _ (Or.inl rfl))
    (fun st' h' => player_check_off_source E source st' h')

/-- C1: in a hop of `cast_chain_lightning`, for every roster, player position
and sequence of draws, a selected target (one whose `x` is not -1) is never the
source cell: its grid distance from the source is non-zero. -/
theorem select_target_never_source (E : hop_env) (source : coord_def)
    (roster : List monsters) (s : Draws)
    (hsel : ((select_target E source roster).run s).1.x ≠ -1) :
    grid_distance source ((select_target E source roster).run s).1 ≠ 0 := by
  rcases (select_target_off_source E source roster).run s with h | h
  · rw [h] at hsel
    exact absurd rfl hsel
  · exact h

theorem select_target_never_source_witness :
    ((select_target sample_hop ⟨5, 5⟩ [(mon ⟨8, 5⟩ 1)]).run (draws [1, 1])).1 = ⟨8, 5⟩ ∧
    grid_distance ⟨5, 5⟩
      ((select_target sample_hop ⟨5, 5⟩ [(mon ⟨8, 5⟩ 1)]).run (draws [1, 1])).1 ≠ 0 :=
  ⟨by decide, select_target_never_source sample_hop ⟨5, 5⟩ [(mon ⟨8, 5⟩ 1)] (draws [1, 1])
    (by decide)⟩

/-! ## C2: when a target is found -/

theorem monster_step_keeps_target (E : hop_env) (source : coord_def) (st : sel_state)
    (mi : monsters) (hm : mi.pos.x ≠ -1) (h : st.target.x ≠ -1) :
    (monster_step E source st mi).All (fun st' => st'.target.x ≠ -1) := by
  unfold monster_step
  dsimp only
  repeat' first
    | exact h
    | exact hm
    | split_ifs
    | (apply Rand.All.bind_random2; intro r _ _)
    | (apply Rand.All.bind_chance; intro b)

theorem monster_loop_keeps_target (E : hop_env) (source : coord_def)
    (roster : List monsters) (st : sel_state)
    (hm : ∀ mi ∈ roster, mi.pos.x ≠ -1) (h : st.target.x ≠ -1) :
    (monster_loop E source roster st).All (fun st' => st'.target.x ≠ -1) := by
  induction roster generalizing st with
  | nil => exact h
  | cons mi rest ih =>
      unfold monster_loop
      apply Rand.All.bind
      exact Rand.All.mono
        (monster_step_keeps_target E source st mi (hm mi (List.mem_cons_self _ _)) h)
        (fun st' h' => ih st' (fun m hmem => hm m (List.mem_cons_of_mem _ hmem)) h')

theorem player_check_keeps_target (E : hop_env) (source : coord_def) (st : sel_state)
    (hyou : E.you_pos.x ≠ -1) (h : st.target.x ≠ -1) :
    (player_check E source st).All (fun t => t.x ≠ -1) := by
  unfold player_check
  dsimp only
  split_ifs
  · apply Rand.All.bind_random2
    intro r _ _
    split_ifs <;>
      first
        | (apply Rand.All.bind_pure; split_ifs <;> first | exact h | exact hyou)
        | (apply Rand.All.bind_chance; intro b; split_ifs <;> first | exact h | exact hyou)
  · exact h

theorem monster_step_sentinel (E : hop_env) (source : coord_def) (st : sel_state)
    (mi : monsters) (hm : mi.pos.x ≠ -1) (h : sentinel_kept E st) :
    (monster_step E source st mi).All (sentinel_kept E) := by
  unfold monster_step
  dsimp only
  repeat' first
    | exact h
    | exact (fun hx => absurd hx hm)
    | split_ifs
    | (apply Rand.All.bind_random2; intro r _ _)
    | (apply Rand.All.bind_chance; intro b)

theorem monster_loop_sentinel (E : hop_env) (source : coord_def)
    (roster : List monsters) (st : sel_state)
    (hm : ∀ mi ∈ roster, mi.pos.x ≠ -1) (h : sentinel_kept E st) :
    (monster_loop E source roster st).All (sentinel_kept E) := by
  induction roster generalizing st with
  | nil => exact h
  | cons mi rest ih =>
      unfold monster_loop
      apply Rand.All.bind
      exact Rand.All.mono
        (monster_step_sentinel E source st mi (hm mi (List.mem_cons_self _ _)) h)
        (fun st' h' => ih st' (fun m hmem => hm m (List.mem_cons_of_mem _ hmem)) h')

theorem monster_loop_append_run (E : hop_env) (source : coord_def)
    (l1 l2 : List monsters) (st : sel_state) (s : Draws) :
    (monster_loop E source (l1 ++ l2) st).run s =
      (monster_loop E source l2 ((monster_loop E source l1 st).run s).1).run
        ((monster_loop E source l1 st).run s).2 := by
  induction l1 generalizing st s with
  | nil => rfl
  | cons mi rest ih =>
      simp only [List.cons_append, monster_loop, Rand.run_bind]
      exact ih _ _

theorem monster_step_selects (E : hop_env) (source : coord_def) (st : sel_state)
    (m : monsters) (s : Draws) (hm : m.pos.x ≠ -1)
    (hvalid : E.invalid_monster m = false)
    (hdist : grid_distance source m.pos ≠ 0)
    (hlos : E.lightning_los source m.pos = true)
    (hinv : sentinel_kept E st)
    (helig : jittered source m.pos s ≤ E.MONSTER_LOS_RANGE - 1)
    (hkeep : jittered source m.pos s = E.MONSTER_LOS_RANGE - 1 ∨ s 1 % 10 ≠ 0) :
    ((monster_step E source st m).run s).1.target.x ≠ -1 := by
  by_cases ht : st.target.x = -1
  · have hmin := hinv ht
    unfold monster_step
    simp only [hvalid, hdist, hlos, Rand.run_bind, random2_three_run,
      one_chance_in_ten_run, Bool.false_eq_true, if_false, Bool.not_true, ht, if_true]
    unfold jittered at helig hkeep
    rw [hmin]
    have h1 : ¬ (grid_distance source m.pos + (((s 0 % 3 : Nat) : Int) - 1)
        > E.MONSTER_LOS_RANGE - 1) := not_lt.mpr helig
    rw [if_neg h1]
    split_ifs with h2
    · have h3 : s 1 % 10 ≠ 0 := by
        rcases hkeep with hk | hk
        · omega
        · exact hk
      have h4 : s.tail 0 % 10 ≠ 0 := h3
      simp only [Rand.run_bind, Rand.run_pure, one_chance_in_ten_run, h4, decide_False,
        Bool.not_false, if_true]
      exact hm
    · exact hm
  · exact (monster_step_keeps_target E source st m hm ht).run s

/-- C2, as stated, fails: the player casts from (5, 5), the only monster is
valid, stands at grid distance 3 with a clear line, and its jittered distance
3 is below the sentinel 7; the `one_chance_in(10)` draw passes it over and the
hop ends with the target still at (-1, -1). -/
theorem select_target_eligible_but_none :
    sample_hop.invalid_monster (mon ⟨8, 5⟩ 1) = false ∧
    grid_distance ⟨5, 5⟩ ⟨8, 5⟩ = 3 ∧
    jittered ⟨5, 5⟩ ⟨8, 5⟩ (draws [1, 0]) = 3 ∧
    jittered ⟨5, 5⟩ ⟨8, 5⟩ (draws [1, 0]) ≤ sample_hop.MONSTER_LOS_RANGE - 1 ∧
    sample_hop.lightning_los ⟨5, 5⟩ ⟨8, 5⟩ = true ∧
    ((select_target sample_hop ⟨5, 5⟩ [(mon ⟨8, 5⟩ 1)]).run (draws [1, 0])).1 = ⟨-1, -1⟩ := by
  decide

/-- C2, amended: if a valid monster of the roster is eligible when the loop
reaches it (non-zero grid distance, jittered distance not above the sentinel,
clear lightning line) and the 1-in-10 draw does not pass it over (its jittered
distance equals the sentinel, or the draw that follows its jitter draw is not
a multiple of 10), then the hop ends with a target selected, whatever the
other monsters, the player and the other draws are. -/
theorem select_target_found (E : hop_env) (source : coord_def)
    (pre post : List monsters) (m : monsters) (s : Draws)
    (hgrid : ∀ mi ∈ pre ++ m :: post, mi.pos.x ≠ -1)
    (hyou : E.you_pos.x ≠ -1)
    (hvalid : E.invalid_monster m = false)
    (hdist : grid_distance source m.pos ≠ 0)
    (hlos : E.lightning_los source m.pos = true)
    (helig : jittered source m.pos (draws_after E source pre s) ≤ E.MONSTER_LOS_RANGE - 1)
    (hkeep : jittered source m.pos (draws_after E source pre s) = E.MONSTER_LOS_RANGE - 1
      ∨ draws_after E source pre s 1 % 10 ≠ 0) :
    ((select_target E source (pre ++ m :: post)).run s).1.x ≠ -1 := by
  have hpre : ∀ mi ∈ pre, mi.pos.x ≠ -1 :=
    fun mi h => hgrid mi (List.mem_append_left _ h)
  have hm : m.pos.x ≠ -1 := hgrid m (List.mem_append_right _ (List.mem_cons_self _ _))
  have hpost : ∀ mi ∈ post, mi.pos.x ≠ -1 :=
    fun mi h => hgrid mi (List.mem_append_right _ (List.mem_cons_of_mem _ h))
  have hinv : sentinel_kept E ((monster_loop E source pre (sel_init E)).run s).1 :=
    (monster_loop_sentinel E source pre (sel_init E) hpre (fun _ => rfl)).run s
  unfold select_target
  simp only [Rand.run_bind, monster_loop_append_run, monster_loop]
  apply (player_check_keeps_target E source _ hyou _).run
  apply (monster_loop_keeps_target E source post _ hpost _).run
  exact monster_step_selects E source _ m _ hm hvalid hdist hlos hinv helig hkeep

theorem select_target_found_witness :
    ((select_target sample_hop ⟨5, 5⟩ ([] ++ [(mon ⟨8, 5⟩ 1)])).run (draws [1, 1])).1.x ≠ -1 :=
  select_target_found sample_hop ⟨5, 5⟩ [] [] (mon ⟨8, 5⟩ 1) (draws [1, 1])
    (by decide) (by decide) (by decide) (by decide) (by decide) (by decide) (by decide)

/-! ## C3: choice among tied monsters -/

theorem Rand.pure_bind_eq {α β : Type} (a : α) (f : α → Rand β) :
    (Pure.pure a : Rand α) >>= f = f a := rfl

theorem Rand.uniform_bind_eq {α β : Type} (n : Nat) (k : Nat → Rand α) (f : α → Rand β) :
    Rand.uniform n k >>= f = Rand.uniform n (fun r => k r >>= f) := rfl

theorem Rand.chance_bind_eq {α β : Type} (n : Nat) (k : Bool → Rand α) (f : α → Rand β) :
    Rand.chance n k >>= f = Rand.chance n (fun b => k b >>= f) := rfl

theorem Rand.bind_assoc_eq {α β γ : Type} (m : Rand α) (f : α → Rand β) (g : β → Rand γ) :
    (m >>= f) >>= g = m >>= (fun a => f a >>= g) := by
  induction m with
  | pure a => rfl
  | uniform n k ih =>
      simp only [Rand.uniform_bind_eq]
      congr 1
      funext r
      exact ih r
  | chance n k ih =>
      simp only [Rand.chance_bind_eq]
      congr 1
      funext b
      exact ih b

theorem Rand.probChance_pure {α : Type} (a : α) (j : Draws) (p : α → Bool) :
    (Pure.pure a : Rand α).probChance j p = if p a then 1 else 0 := rfl

theorem Rand.probChance_uniform {α : Type} (n : Nat) (k : Nat → Rand α) (j : Draws)
    (p : α → Bool) :
    (Rand.uniform n k).probChance j p = (k (j 0 % n)).probChance j.tail p := rfl

theorem Rand.probChance_chance {α : Type} (n : Nat) (k : Bool → Rand α) (j : Draws)
    (p : α → Bool) :
    (Rand.chance n k).probChance j p =
      (1 / (n : ℚ)) * (k true).probChance j p
        + (1 - 1 / (n : ℚ)) * (k false).probChance j p := rfl

theorem random2_three_eq : random2 3 = Rand.uniform 3 (fun r => Pure.pure (r : Int)) := rfl

theorem one_chance_in_ten_eq : one_chance_in 10 = Rand.chance 10 (fun b => Pure.pure b) := rfl

/-- C4, as stated, fails: the arc starts at (9, 5), the monster loop has
adopted the monster on (14, 5) at jittered distance 5, and the player on
(5, 5) gets the jittered distance 4.  With the next draw a multiple of 10 the
monster rules pass a candidate on the player's cell over; the player check
selects the player. -/
theorem player_check_differs_from_monster_rules :
    ((monster_loop sample_hop ⟨9, 5⟩ [(mon ⟨14, 5⟩ 1)] (sel_init sample_hop)).run
      (draws [1, 1])).1 = ⟨5, ⟨14, 5⟩, 0⟩ ∧
    jittered ⟨9, 5⟩ sample_hop.you_pos (draws [1, 0]) = 4 ∧
    ((player_check sample_hop ⟨9, 5⟩ ⟨5, ⟨14, 5⟩, 0⟩).run (draws [1, 0])).1 = ⟨5, 5⟩ ∧
    ((player_by_monster_rules sample_hop ⟨9, 5⟩ ⟨5, ⟨14, 5⟩, 0⟩).run (draws [1, 0])).1
      = ⟨14, 5⟩ := by
  decide

theorem player_check_unreachable (E : hop_env) (source : coord_def) (st : sel_state)
    (s : Draws)
    (h : grid_distance source E.you_pos = 0 ∨ E.lightning_los source E.you_pos = false) :
    ((player_check E source st).run s).1 = st.target := by
  have key : (player_check E source st).All (fun t => t = st.target) := by
    unfold player_check
    dsimp only
    by_cases hd : grid_distance source E.you_pos = 0
    · simp only [ne_eq, hd, not_true_eq_false, if_false]
      exact rfl
    · have hl : E.lightning_los source E.you_pos = false := by
        rcases h with h | h
        · exact absurd h hd
        · exact h
      simp only [ne_eq, hd, not_false_eq_true, if_true, hl, Bool.and_false,
        Bool.false_eq_true, if_false]
      apply Rand.All.bind_random2
      intro r _ _
      split_ifs <;>
        first
          | exact rfl
          | (apply Rand.All.bind_chance; intro b; exact rfl)
  exact key.run s

theorem player_check_run (E : hop_env) (source : coord_def) (st : sel_state)
    (s : Draws) (hd : grid_distance source E.you_pos ≠ 0)
    (hlos : E.lightning_los source E.you_pos = true) :
    ((player_check E source st).run s).1 =
      if st.target.x = -1 then E.you_pos
      else if jittered source E.you_pos s < st.min_dist then E.you_pos
      else if jittered source E.you_pos s = st.min_dist then
        (if ((one_chance_in (st.count + 1)).run s.tail).1 then E.you_pos else st.target)
      else st.target := by
  unfold player_check jittered
  dsimp only
  simp only [ne_eq, hd, not_false_eq_true, if_true, hlos, Bool.and_true, Rand.run_bind,
    random2_three_run]
  split_ifs <;> simp_all

theorem player_by_monster_rules_run (E : hop_env) (source : coord_def) (st : sel_state)
    (s : Draws) (hd : grid_distance source E.you_pos ≠ 0)
    (hlos : E.lightning_los source E.you_pos = true) (ht : st.target.x ≠ -1)
    (hge : st.min_dist ≤ jittered source E.you_pos s) :
    ((player_by_monster_rules E source st).run s).1 =
      if jittered source E.you_pos s = st.min_dist then
        (if ((one_chance_in (st.count + 1)).run s.tail).1 then E.you_pos else st.target)
      else st.target := by
  unfold player_by_monster_rules monster_step
  unfold jittered at hge ⊢
  dsimp only
  have hmp : (mon E.you_pos 0).pos = E.you_pos := rfl
  simp only [hmp, Bool.false_eq_true, if_false, hd, hlos, Bool.not_true, Rand.run_bind,
    random2_three_run, ht]
  have hnlt : ¬ (grid_distance source E.you_pos + (((s 0 % 3 : Nat) : Int) - 1)
      < st.min_dist) := not_lt.mpr hge
  split_ifs <;> simp_all
  omega

/-- C4, amended: the player is considered only at non-zero distance and with a
clear lightning line (otherwise the target is unchanged).  Then, for every
state and sequence of draws: when no target is set the player is selected
whatever its jittered distance is; when a target is set and the player is
strictly closer than `min_dist` it is always selected (no 9-in-10 draw); and
when a target is set and the player is not strictly closer the outcome is the
one of the monster rules for a monster on the player's cell (discarded beyond
`min_dist`, adopted with chance 1/(count+1) on a tie). -/
theorem player_check_rules (E : hop_env) (source : coord_def) (st : sel_state)
    (s : Draws) :
    ((grid_distance source E.you_pos = 0 ∨ E.lightning_los source E.you_pos = false) →
      ((player_check E source st).run s).1 = st.target) ∧
    (grid_distance source E.you_pos ≠ 0 → E.lightning_los source E.you_pos = true →
      (st.target.x = -1 → ((player_check E source st).run s).1 = E.you_pos) ∧
      (st.target.x ≠ -1 → jittered source E.you_pos s < st.min_dist →
        ((player_check E source st).run s).1 = E.you_pos) ∧
      (st.target.x ≠ -1 → st.min_dist ≤ jittered source E.you_pos s →
        ((player_check E source st).run s).1 =
          ((player_by_monster_rules E source st).run s).1)) := by
  refine ⟨player_check_unreachable E source st s, fun hd hlos => ⟨?_, ?_, ?_⟩⟩
  · intro ht
    rw [player_check_run E source st s hd hlos, if_pos ht]
  · intro ht hlt
    rw [player_check_run E source st s hd hlos, if_neg ht, if_pos hlt]
  · intro ht hge
    rw [player_check_run E source st s hd hlos,
      player_by_monster_rules_run E source st s hd hlos ht hge, if_neg ht,
      if_neg (not_lt.mpr hge)]

theorem player_check_rules_witness :
    ((player_check sample_hop ⟨9, 5⟩ ⟨5, ⟨14, 5⟩, 0⟩).run (draws [1, 0])).1
      = sample_hop.you_pos ∧
    ((player_check sample_hop ⟨9, 5⟩ ⟨4, ⟨13, 5⟩, 1⟩).run (draws [1, 3])).1
      = ((player_by_monster_rules sample_hop ⟨9, 5⟩ ⟨4, ⟨13, 5⟩, 1⟩).run (draws [1, 3])).1 :=
  ⟨((player_check_rules sample_hop ⟨9, 5⟩ ⟨5, ⟨14, 5⟩, 0⟩ (draws [1, 0])).2
      (by decide) (by decide)).2.1 (by decide) (by decide),
   ((player_check_rules sample_hop ⟨9, 5⟩ ⟨4, ⟨13, 5⟩, 1⟩ (draws [1, 3])).2
      (by decide) (by decide)).2.2 (by decide) (by decide)⟩

/-! ## C5 and C6: power decay and termination of the hop loop -/

theorem los_adjust_le (seen : Bool) (pow : Int) (h : 1 ≤ pow) :
    los_adjust seen pow ≤ pow := by
  unfold los_adjust cdiv
  split_ifs
  · rw [Int.tdiv_eq_ediv (by omega) (by omega)]
    omega
  · exact le_rfl

theorem los_adjust_pos (seen : Bool) (pow : Int) (h : 1 ≤ pow) :
    1 ≤ los_adjust seen pow := by
  unfold los_adjust cdiv
  split_ifs
  · rw [Int.tdiv_eq_ediv (by omega) (by omega)]
    omega
  · exact h

theorem fire_hop_decay {W : Type} (E : chain_env W) (w : W) (source target : coord_def)
    (pow : Int) (h : 0 < pow) :
    (fire_hop E w source target pow).All
      (fun next => next.2 + 8 ≤ pow ∧
        ∃ d : Int, 0 ≤ d ∧ d < 13 ∧
          next.2 = los_adjust (E.see_cell_no_trans (E.noisy w source) target) pow - (8 + d)) := by
  unfold fire_hop
  dsimp only
  apply Rand.All.bind
  apply Rand.All.any
  intro w2
  apply Rand.All.bind_random2
  intro r hr0 hr13
  have hle := los_adjust_le (E.see_cell_no_trans (E.noisy w source) target) pow (by omega)
  have hr13b : r < 13 := by simpa using hr13
  exact ⟨by show _ - (8 + r) + 8 ≤ pow; omega, r, hr0, hr13b, rfl⟩

theorem chain_loop_decay {W : Type} (E : chain_env W) (fuel : Nat) :
    ∀ (w : W) (source target : coord_def) (pow : Int),
      (chain_loop E fuel w source target pow).All
        (fun res => powers_decay pow res.hops res.pow) := by
  have hnil : ∀ pow : Int, powers_decay pow [] pow := fun pow =>
    ⟨le_rfl, by simp, by simp, List.chain'_nil⟩
  induction fuel with
  | zero =>
      intro w source target pow
      exact hnil pow
  | succ fuel ih =>
      intro w source target pow
      unfold chain_loop
      split_ifs with hpow
      · apply Rand.All.bind
        apply Rand.All.any
        intro t
        split_ifs
        · exact hnil pow
        · exact hnil pow
        · apply Rand.All.bind
          apply Rand.All.mono (fire_hop_decay E w source t pow hpow)
          rintro next ⟨hnext, -⟩
          apply Rand.All.bind
          apply Rand.All.mono (ih next.1 t t next.2)
          rintro res ⟨h1, h2, h3, h4⟩
          refine ⟨?_, ?_, ?_, ?_⟩
          · show res.pow ≤ pow
            omega
          · intro h hh
            simp only [List.head?_cons, Option.mem_def, Option.some.injEq] at hh
            rw [← hh]
          · intro h hh
            rcases List.mem_cons.mp hh with hh | hh
            · rw [hh]
              exact ⟨by show res.pow + 8 ≤ pow; omega, le_rfl⟩
            · have := h3 h hh
              exact ⟨this.1, by omega⟩
          · cases hhops : res.hops with
            | nil => exact List.chain'_singleton _
            | cons h0 rest =>
                rw [hhops] at h2 h4
                have h0pow : h0.pow = next.2 := h2 h0 (by simp)
                exact List.Chain'.cons (by show h0.pow + 8 ≤ pow; omega) h4
      · exact hnil pow

/-- C5: across the hops of `cast_chain_lightning` the power never increases:
the out-of-sight adjustment `pow / 2 + 1` is at most `pow` for every
`pow >= 1`; a completed hop leaves a power that is at least 8 and at most 20
below the adjusted power; so in every run each hop starts at least 8 below
the hop before it, and the final power is at least 8 below the power of every
hop, which is at most the initial power. -/
theorem chain_power_never_increases {W : Type} (E : chain_env W) (fuel : Nat) (w : W)
    (pow : Int) (s : Draws) :
    (∀ p : Int, 1 ≤ p → ∀ seen : Bool, los_adjust seen p ≤ p) ∧
    (∀ (w' : W) (source target : coord_def) (p : Int) (s' : Draws), 0 < p →
      ((fire_hop E w' source target p).run s').1.2 + 8 ≤ p ∧
      los_adjust (E.see_cell_no_trans (E.noisy w' source) target) p - 20
        ≤ ((fire_hop E w' source target p).run s').1.2 ∧
      ((fire_hop E w' source target p).run s').1.2
        ≤ los_adjust (E.see_cell_no_trans (E.noisy w' source) target) p - 8) ∧
    List.Chain' (fun a b : hop_rec => b.pow + 8 ≤ a.pow)
      ((cast_chain_lightning E fuel w pow).run s).1.hops ∧
    (∀ h ∈ ((cast_chain_lightning E fuel w pow).run s).1.hops,
      ((cast_chain_lightning E fuel w pow).run s).1.pow + 8 ≤ h.pow ∧ h.pow ≤ pow) := by
  refine ⟨fun p hp seen => los_adjust_le seen p hp, ?_, ?_, ?_⟩
  · intro w' source target p s' hp
    obtain ⟨h1, d, hd0, hd13, hd⟩ := (fire_hop_decay E w' source target p hp).run s'
    exact ⟨h1, by omega, by omega⟩
  · exact ((chain_loop_decay E fuel w (E.caster_pos w) ⟨0, 0⟩ pow).run s).2.2.2
  · exact ((chain_loop_decay E fuel w (E.caster_pos w) ⟨0, 0⟩ pow).run s).2.2.1

theorem chain_power_never_increases_witness :
    (((cast_chain_lightning sample_chain 5 ⟨[(mon ⟨8, 5⟩ 1)], ⟨5, 5⟩⟩ 40).run
        (draws [1, 1, 0, 1, 0, 0, 0])).1.hops.map (fun h => h.pow)) = [40, 32] ∧
    (∀ h ∈ ((cast_chain_lightning sample_chain 5 ⟨[(mon ⟨8, 5⟩ 1)], ⟨5, 5⟩⟩ 40).run
        (draws [1, 1, 0, 1, 0, 0, 0])).1.hops,
      ((cast_chain_lightning sample_chain 5 ⟨[(mon ⟨8, 5⟩ 1)], ⟨5, 5⟩⟩ 40).run
        (draws [1, 1, 0, 1, 0, 0, 0])).1.pow + 8 ≤ h.pow ∧ h.pow ≤ 40) :=
  ⟨by decide,
   (chain_power_never_increases sample_chain 5 ⟨[(mon ⟨8, 5⟩ 1)], ⟨5, 5⟩⟩ 40
      (draws [1, 1, 0, 1, 0, 0, 0])).2.2.2⟩

theorem hop_bound_step (pow next : Int) (hpow : 0 < pow) (h : next + 8 ≤ pow) :
    hop_bound next + 1 ≤ hop_bound pow := by
  unfold hop_bound
  omega

theorem chain_loop_bounded {W : Type} (E : chain_env W) (fuel : Nat) :
    ∀ (w : W) (source target : coord_def) (pow : Int),
      (chain_loop E fuel w source target pow).All
        (fun res => res.hops.length ≤ hop_bound pow ∧
          (hop_bound pow ≤ fuel → res.ending ≠ .out_of_fuel) ∧
          (pow ≤ 0 → res.hops = [] ∧ res.ending = .exhausted)) := by
  induction fuel with
  | zero =>
      intro w source target pow
      refine ⟨Nat.zero_le _, ?_, ?_⟩
      · intro hb
        have hp : ¬ (pow > 0) := by
          unfold hop_bound at hb
          omega
        show (if pow > 0 then chain_end.out_of_fuel else chain_end.exhausted) ≠ _
        rw [if_neg hp]
        decide
      · intro hp
        have hp' : ¬ (pow > 0) := by omega
        refine ⟨rfl, ?_⟩
        show (if pow > 0 then chain_end.out_of_fuel else chain_end.exhausted) = _
        rw [if_neg hp']
  | succ fuel ih =>
      intro w source target pow
      unfold chain_loop
      split_ifs with hpow
      · apply Rand.All.bind
        apply Rand.All.any
        intro t
        split_ifs
        · exact ⟨Nat.zero_le _, fun _ => chain_end.noConfusion, fun h => by omega⟩
        · exact ⟨Nat.zero_le _, fun _ => chain_end.noConfusion, fun h => by omega⟩
        · apply Rand.All.bind
          apply Rand.All.mono (fire_hop_decay E w source t pow hpow)
          rintro next ⟨hnext, -⟩
          apply Rand.All.bind
          apply Rand.All.mono (ih next.1 t t next.2)
          rintro res ⟨h1, h2, -⟩
          have hstep := hop_bound_step pow next.2 hpow hnext
          refine ⟨?_, ?_, fun h => by omega⟩
          · show res.hops.length + 1 ≤ hop_bound pow
            omega
          · intro hb
            exact h2 (by omega)
      · exact ⟨Nat.zero_le _, fun _ => chain_end.noConfusion, fun _ => ⟨rfl, rfl⟩⟩

/-- C6: for every initial power, roster and sequence of draws the hop loop of
`cast_chain_lightning` terminates: it makes no hop when `pow <= 0`, at most
`pow / 8` rounded up hops otherwise, and with that many iterations allowed the
model never runs out of fuel. -/
theorem chain_loop_terminates {W : Type} (E : chain_env W) (fuel : Nat) (w : W)
    (pow : Int) (s : Draws) :
    (pow ≤ 0 → ((cast_chain_lightning E fuel w pow).run s).1.hops = [] ∧
      ((cast_chain_lightning E fuel w pow).run s).1.ending = .exhausted) ∧
    ((cast_chain_lightning E fuel w pow).run s).1.hops.length ≤ hop_bound pow ∧
    (hop_bound pow ≤ fuel →
      ((cast_chain_lightning E fuel w pow).run s).1.ending ≠ .out_of_fuel) ∧
    (0 < pow → (hop_bound pow : Int) * 8 < pow + 8 ∧ pow ≤ (hop_bound pow : Int) * 8) := by
  have key := (chain_loop_bounded E fuel w (E.caster_pos w) ⟨0, 0⟩ pow).run s
  refine ⟨key.2.2, key.1, key.2.1, ?_⟩
  intro hpow
  unfold hop_bound
  omega

theorem chain_loop_terminates_witness :
    ((cast_chain_lightning sample_chain 5 ⟨[(mon ⟨8, 5⟩ 1)], ⟨5, 5⟩⟩ 40).run
        (draws [1, 1, 0, 1, 0, 0, 0])).1.hops.length = 2 ∧
    hop_bound 40 = 5 ∧
    ((cast_chain_lightning sample_chain 5 ⟨[(mon ⟨8, 5⟩ 1)], ⟨5, 5⟩⟩ 40).run
        (draws [1, 1, 0, 1, 0, 0, 0])).1.ending ≠ .out_of_fuel :=
  ⟨by decide, by decide,
   (chain_loop_terminates sample_chain 5 ⟨[(mon ⟨8, 5⟩ 1)], ⟨5, 5⟩⟩ 40
      (draws [1, 1, 0, 1, 0, 0, 0])).2.2.1 (by decide)⟩

/-! ## C7: why the chain stops -/

/-- C8, as stated, fails: the player casts with power 40 at a single monster
at distance 3.  With the draws 1, 1, 0, 1, 0, 0, 0 the arc hits the monster
and then arcs back to the caster, so two hops are made before the chain
grounds out; with the draws 1, 0 the monster is passed over and no hop is
made at all. -/
theorem single_monster_not_one_hop :
    ((cast_chain_lightning sample_chain 5 ⟨[(mon ⟨8, 5⟩ 1)], ⟨5, 5⟩⟩ 40).run
        (draws [1, 1, 0, 1, 0, 0, 0])).1.hops
      = [⟨⟨5, 5⟩, ⟨8, 5⟩, 40⟩, ⟨⟨8, 5⟩, ⟨5, 5⟩, 32⟩] ∧
    ((cast_chain_lightning sample_chain 5 ⟨[(mon ⟨8, 5⟩ 1)], ⟨5, 5⟩⟩ 40).run
        (draws [1, 1, 0, 1, 0, 0, 0])).1.ending = .grounded ∧
    ((cast_chain_lightning sample_chain 5 ⟨[(mon ⟨8, 5⟩ 1)], ⟨5, 5⟩⟩ 40).run
        (draws [1, 0])).1.hops = [] ∧
    ((cast_chain_lightning sample_chain 5 ⟨[(mon ⟨8, 5⟩ 1)], ⟨5, 5⟩⟩ 40).run
        (draws [1, 0])).1.ending = .grounded := by
  decide

theorem grid_distance_self (p : coord_def) : grid_distance p p = 0 := by
  simp [grid_distance]

theorem grid_distance_comm (p q : coord_def) : grid_distance p q = grid_distance q p := by
  unfold grid_distance
  have hx : (p.x - q.x).natAbs = (q.x - p.x).natAbs := by omega
  have hy : (p.y - q.y).natAbs = (q.y - p.y).natAbs := by omega
  rw [hx, hy]

theorem monster_loop_all_skipped (E : hop_env) (source : coord_def)
    (roster : List monsters) (st : sel_state)
    (h : ∀ mi ∈ roster, E.invalid_monster mi = true ∨ mi.pos = source) :
    monster_loop E source roster st = Pure.pure st := by
  induction roster with
  | nil => rfl
  | cons mi rest ih =>
      have hstep : monster_step E source st mi = Pure.pure st := by
        unfold monster_step
        dsimp only
        rcases h mi (List.mem_cons_self _ _) with hi | hp
        · rw [if_pos hi]
        · rw [hp, if_pos (grid_distance_self source)]
          exact ite_self _
      unfold monster_loop
      rw [hstep, Rand.pure_bind_eq]
      exact ih (fun m hm => h m (List.mem_cons_of_mem _ hm))

theorem select_target_back (E : hop_env) (source : coord_def) (roster : List monsters)
    (h : ∀ mi ∈ roster, E.invalid_monster mi = true ∨ mi.pos = source)
    (hd : grid_distance source E.you_pos ≠ 0)
    (hlos : E.lightning_los source E.you_pos = true) :
    (select_target E source roster).All (fun t => t = E.you_pos) := by
  unfold select_target
  rw [monster_loop_all_skipped E source roster _ h, Rand.pure_bind_eq]
  unfold player_check sel_init
  dsimp only
  simp only [ne_eq, hd, not_false_eq_true, if_true, hlos, Bool.and_true]
  apply Rand.All.bind_random2
  intro r _ _
  exact rfl

theorem select_target_single (E : hop_env) (source : coord_def) (m : monsters)
    (s : Draws)
    (hyou : E.you_pos = source)
    (hvalid : E.invalid_monster m = false)
    (hdist : grid_distance source m.pos = 3)
    (hlos : E.lightning_los source m.pos = true)
    (hrange : 6 ≤ E.MONSTER_LOS_RANGE) :
    ((select_target E source [m]).run s).1 =
      if s 1 % 10 = 0 then ⟨-1, -1⟩ else m.pos := by
  have hj0 : (0 : Int) ≤ ((s 0 % 3 : Nat) : Int) := Int.natCast_nonneg _
  have hj3 : ((s 0 % 3 : Nat) : Int) < 3 := by
    have := Nat.mod_lt (s 0) (by decide : 0 < 3)
    omega
  have h1 : ¬ ((3 : Int) + (((s 0 % 3 : Nat) : Int) - 1) > E.MONSTER_LOS_RANGE - 1) := by
    omega
  have h2 : (3 : Int) + (((s 0 % 3 : Nat) : Int) - 1) < E.MONSTER_LOS_RANGE - 1 := by
    omega
  have hs1 : s.tail 0 = s 1 := rfl
  unfold select_target
  simp only [monster_loop, Rand.run_bind, Rand.run_pure]
  unfold monster_step player_check sel_init
  dsimp only
  simp only [hvalid, hdist, hlos, hyou, grid_distance_self, Bool.false_eq_true, if_false,
    Bool.not_true, Rand.run_bind, Rand.run_pure, random2_three_run, one_chance_in_ten_run,
    h1, h2, if_true, OfNat.ofNat_ne_zero, ne_eq, not_true_eq_false, hs1]
  by_cases hskip : s 1 % 10 = 0
  · simp [hskip]
  · simp [hskip]

theorem chain_loop_arcs_back {W : Type} (E : chain_env W) (fuel : Nat) (w2 : W)
    (source target you : coord_def) (pow : Int) (hpow : 0 < pow)
    (hyou : E.you_pos w2 = you) (hyx : you.x ≠ -1)
    (hmons : ∀ mi ∈ E.mons w2, E.invalid_monster mi = true ∨ mi.pos = source)
    (hd : grid_distance source you ≠ 0)
    (hlos : E.lightning_los w2 source you = true)
    (hprompt : prompt_stops E w2 you = false) :
    (chain_loop E (fuel + 1) w2 source target pow).All
      (fun res => ∃ rest, res.hops = ⟨source, you, pow⟩ :: rest) := by
  unfold chain_loop
  rw [if_pos hpow]
  apply Rand.All.bind
  have hsel : (select_target (E.hop w2) source (E.mons w2)).All (fun t => t = you) := by
    have := select_target_back (E.hop w2) source (E.mons w2) hmons
      (by show grid_distance source (E.you_pos w2) ≠ 0; rw [hyou]; exact hd)
      (by show E.lightning_los w2 source (E.you_pos w2) = true; rw [hyou]; exact hlos)
    exact Rand.All.mono this (fun t ht => by rw [ht]; exact hyou)
  apply Rand.All.mono hsel
  intro t ht
  subst ht
  rw [hprompt]
  simp only [Bool.false_eq_true, if_false, hyx]
  apply Rand.All.bind
  apply Rand.All.any
  intro next
  apply Rand.All.bind
  apply Rand.All.any
  intro res
  exact ⟨res.hops, rfl⟩

/-- C8, amended: the player casts chain lightning with power 40 and exactly one
monster exists, valid, at grid distance 3 with a clear line, in view, and not
protected by the attack prompt; the beam leaves the player in place and no
valid monster off the struck cell.  If the 1-in-10 draw passes the monster
over, no hop is made and the chain ends grounded.  Otherwise the first hop goes
onto that monster, the power becomes 40 - (8 + d) for the drawn d in [0, 13),
and the following target selection does not ground out: it selects the
caster's own cell, so a second hop arcs back to the player. -/
theorem single_monster_chain {W : Type} (E : chain_env W) (fuel : Nat) (w : W)
    (m : monsters) (s : Draws)
    (hfuel : 2 ≤ fuel)
    (hcaster : E.caster_pos w = E.you_pos w)
    (hroster : E.mons w = [m])
    (hvalid : E.invalid_monster m = false)
    (hdist : grid_distance (E.you_pos w) m.pos = 3)
    (hlos : E.lightning_los w (E.you_pos w) m.pos = true)
    (hrange : 6 ≤ E.MONSTER_LOS_RANGE)
    (hmx : m.pos.x ≠ -1) (hyx : (E.you_pos w).x ≠ -1)
    (hnone : prompt_stops E w ⟨-1, -1⟩ = false)
    (hprompt : prompt_stops E w m.pos = false)
    (hsee : E.see_cell_no_trans (E.noisy w (E.you_pos w)) m.pos = true)
    (hfire : ∀ dam, (E.fire (E.noisy w (E.you_pos w)) (E.you_pos w) m.pos dam).All
      (fun w2 => E.you_pos w2 = E.you_pos w ∧
        (∀ mi ∈ E.mons w2, E.invalid_monster mi = true ∨ mi.pos = m.pos) ∧
        E.lightning_los w2 m.pos (E.you_pos w) = true ∧
        prompt_stops E w2 (E.you_pos w) = false)) :
    (s 1 % 10 = 0 →
      ((cast_chain_lightning E fuel w 40).run s).1.hops = [] ∧
      ((cast_chain_lightning E fuel w 40).run s).1.ending = .grounded) ∧
    (s 1 % 10 ≠ 0 →
      ∃ d : Int, 0 ≤ d ∧ d < 13 ∧ ∃ rest,
        ((cast_chain_lightning E fuel w 40).run s).1.hops =
          ⟨E.you_pos w, m.pos, 40⟩ :: ⟨m.pos, E.you_pos w, 40 - (8 + d)⟩ :: rest) := by
  obtain ⟨f, rfl⟩ : ∃ f, fuel = f + 2 := ⟨fuel - 2, by omega⟩
  have hsel := select_target_single (E.hop w) (E.you_pos w) m s rfl hvalid hdist hlos hrange
  have hback : grid_distance m.pos (E.you_pos w) ≠ 0 := by
    rw [grid_distance_comm, hdist]
    decide
  unfold cast_chain_lightning
  rw [hcaster]
  unfold chain_loop
  rw [if_pos (by decide : (40 : Int) > 0), hroster]
  simp only [Rand.run_bind]
  rw [hsel]
  constructor
  · intro hskip
    rw [if_pos hskip, hnone]
    simp only [Bool.false_eq_true, if_false, if_true, Rand.run_pure, and_self]
  · intro hskip
    rw [if_neg hskip, hprompt]
    simp only [Bool.false_eq_true, if_false, hmx]
    have hrest : (fire_hop E w (E.you_pos w) m.pos 40 >>= fun next =>
        chain_loop E (f + 1) next.1 m.pos m.pos next.2 >>= fun res =>
          (Pure.pure ⟨res.world, res.pow, res.source, res.target,
            ⟨E.you_pos w, m.pos, 40⟩ :: res.hops, res.ending⟩ : Rand (chain_result W))).All
        (fun res => ∃ d : Int, 0 ≤ d ∧ d < 13 ∧ ∃ rest,
          res.hops = ⟨E.you_pos w, m.pos, 40⟩ :: ⟨m.pos, E.you_pos w, 40 - (8 + d)⟩ :: rest) := by
      apply Rand.All.bind
      unfold fire_hop
      dsimp only
      apply Rand.All.bind
      apply Rand.All.mono (hfire _)
      rintro w2 ⟨hw2you, hw2mons, hw2los, hw2prompt⟩
      apply Rand.All.bind_random2
      intro r hr0 hr13
      have hr13b : r < 13 := by simpa using hr13
      apply Rand.All.of_pure
      apply Rand.All.bind
      have hadj : los_adjust (E.see_cell_no_trans (E.noisy w (E.you_pos w)) m.pos) 40 = 40 := by
        rw [hsee]
        rfl
      rw [hadj]
      have hpow2 : (0 : Int) < 40 - (8 + r) := by omega
      apply Rand.All.mono
        (chain_loop_arcs_back E f w2 m.pos m.pos (E.you_pos w) (40 - (8 + r)) hpow2
          hw2you hyx hw2mons hback hw2los hw2prompt)
      rintro res ⟨rest, hres⟩
      exact ⟨r, hr0, hr13b, rest, by show _ :: res.hops = _; rw [hres]⟩
    exact hrest.run _

theorem single_monster_chain_witness :
    ∃ d : Int, 0 ≤ d ∧ d < 13 ∧ ∃ rest,
      ((cast_chain_lightning sample_chain 5 ⟨[(mon ⟨8, 5⟩ 1)], ⟨5, 5⟩⟩ 40).run
          (draws [1, 1, 0, 1, 0, 0, 0])).1.hops =
        ⟨⟨5, 5⟩, ⟨8, 5⟩, 40⟩ :: ⟨⟨8, 5⟩, ⟨5, 5⟩, 40 - (8 + d)⟩ :: rest :=
  (single_monster_chain sample_chain 5 ⟨[(mon ⟨8, 5⟩ 1)], ⟨5, 5⟩⟩ (mon ⟨8, 5⟩ 1)
    (draws [1, 1, 0, 1, 0, 0, 0]) (by decide) rfl rfl rfl (by decide) rfl (by decide)
    (by decide) (by decide) (by decide) (by decide) rfl
    (fun _ => Rand.All.of_pure ⟨rfl, by decide, rfl, by decide⟩)).2 (by decide)

/-! ## C9: the recursion of `_discharge_monsters` -/

theorem arc_power_eq (pow : Int) (coin : Bool) (h : 0 ≤ pow) :
    arc_power pow coin = if coin then pow / 2 else pow / 3 := by
  unfold arc_power cdiv
  cases coin
  · simp only [Bool.false_eq_true, if_false]
    exact Int.tdiv_eq_ediv h (by decide)
  · simp only [if_true]
    exact Int.tdiv_eq_ediv h (by decide)

theorem arc_power_lt (pow : Int) (coin : Bool) (h : 1 ≤ pow) :
    arc_power pow coin < pow ∧ arc_power pow coin ≤ pow / 2 ∧ 0 ≤ arc_power pow coin := by
  rw [arc_power_eq pow coin (by omega)]
  cases coin
  · simp only [Bool.false_eq_true, if_false]
    omega
  · simp only [if_true]
    omega

theorem arc_bound_step (pow next : Int) (hpow : 3 ≤ pow) (hnext : next ≤ pow / 2) :
    arc_bound next + 1 ≤ arc_bound pow := by
  unfold arc_bound
  have h1 : next.toNat ≤ pow.toNat / 2 := by omega
  have h2 : Nat.log 2 next.toNat ≤ Nat.log 2 (pow.toNat / 2) := Nat.log_mono_right h1
  have h3 : Nat.log 2 (pow.toNat / 2) = Nat.log 2 pow.toNat - 1 := Nat.log_div_base 2 pow.toNat
  have h4 : 0 < Nat.log 2 pow.toNat := Nat.log_pos (by decide) (by omega)
  omega

theorem apply_cells_bounded {W : Type}
    (func : W → coord_def → Int → Rand (discharge_result W)) (power : Int)
    (bound : Nat) (c : Prop)
    (hfunc : ∀ w cell, (func w cell power).All
      (fun r => r.arcs ≤ bound ∧ (c → r.finished = true)))
    (cells : List coord_def) :
    ∀ acc : discharge_result W, acc.arcs ≤ bound → (c → acc.finished = true) →
      (apply_cells func power cells acc).All
        (fun r => r.arcs ≤ bound ∧ (c → r.finished = true)) := by
  induction cells with
  | nil =>
      intro acc h1 h2
      exact ⟨h1, h2⟩
  | cons cell rest ih =>
      intro acc h1 h2
      unfold apply_cells
      apply Rand.All.bind
      apply Rand.All.mono (hfunc acc.world cell)
      rintro r ⟨hr1, hr2⟩
      apply ih
      · exact max_le h1 hr1
      · intro hc
        show (acc.finished && r.finished) = true
        rw [h2 hc, hr2 hc]
        rfl

theorem discharge_gate_bounded {W : Type} (E : discharge_env W) (fuel : Nat)
    (self : W → coord_def → Int → Rand (discharge_result W))
    (hself : ∀ w cell p, (self w cell p).All
      (fun r => arcs_bounded fuel p r.arcs r.finished))
    (w : W) (where_ : coord_def) (pow damage : Int) :
    (discharge_gate E self w where_ pow damage).All
      (fun r => arcs_bounded (fuel + 1) pow r.arcs r.finished) := by
  have hstop : arcs_bounded (fuel + 1) pow 0 true :=
    ⟨Nat.zero_le _, fun _ => rfl, fun _ => rfl⟩
  have harc : 3 ≤ pow →
      (do
        let coin ← coinflip
        let r ← apply_random_around_square E self w where_ (arc_power pow coin) 1
        (Pure.pure ⟨damage + r.damage, r.world, 1 + r.arcs, r.finished⟩ :
          Rand (discharge_result W))).All
        (fun r : discharge_result W => arcs_bounded (fuel + 1) pow r.arcs r.finished) := by
    intro hpow
    apply Rand.All.bind
    apply Rand.All.any
    intro coin
    obtain ⟨-, hhalf, -⟩ := arc_power_lt pow coin (by omega)
    have hstep := arc_bound_step pow (arc_power pow coin) hpow hhalf
    apply Rand.All.bind
    unfold apply_random_around_square
    apply Rand.All.bind
    apply Rand.All.any
    intro cells
    have hcells := apply_cells_bounded self (arc_power pow coin)
      (arc_bound (arc_power pow coin)) (arc_bound (arc_power pow coin) < fuel)
      (fun w' cell => Rand.All.mono (hself w' cell (arc_power pow coin))
        (fun r hr => ⟨hr.1, hr.2.2⟩))
      (cells.take 1) ⟨0, w, 0, true⟩ (Nat.zero_le _) (fun _ => rfl)
    apply Rand.All.mono hcells
    rintro r ⟨hr1, hr2⟩
    refine ⟨?_, fun h => by omega, fun h => hr2 (by omega)⟩
    show 1 + r.arcs ≤ arc_bound pow
    omega
  unfold discharge_gate
  by_cases h10 : pow ≥ 10
  · rw [if_pos h10]
    simp only [Rand.bind_assoc_eq, Rand.pure_bind_eq]
    apply Rand.All.bind_chance
    intro c
    cases c
    · simp only [Bool.not_false, if_true, Rand.pure_bind_eq]
      exact harc (by omega)
    · have h3 : pow ≥ 3 := by omega
      simp only [Bool.not_true, Bool.false_eq_true, if_false, h3, if_true]
      apply Rand.All.bind_chance
      intro go
      cases go
      · exact hstop
      · exact harc h3
  · rw [if_neg h10]
    simp only [Rand.pure_bind_eq, Bool.false_eq_true, if_false]
    by_cases h3 : pow ≥ 3
    · rw [if_pos h3]
      apply Rand.All.bind_chance
      intro go
      cases go
      · exact hstop
      · exact harc h3
    · rw [if_neg h3]
      exact hstop

theorem discharge_bounded {W : Type} (E : discharge_env W) (fuel : Nat) :
    ∀ (w : W) (where_ : coord_def) (pow : Int),
      (_discharge_monsters E fuel w where_ pow).All
        (fun r => arcs_bounded fuel pow r.arcs r.finished) := by
  induction fuel with
  | zero =>
      intro w where_ pow
      exact ⟨Nat.zero_le _, fun _ => rfl, fun h => absurd h (Nat.not_lt_zero _)⟩
  | succ fuel ih =>
      intro w where_ pow
      have hstop : arcs_bounded (fuel + 1) pow 0 true :=
        ⟨Nat.zero_le _, fun _ => rfl, fun _ => rfl⟩
      unfold _discharge_monsters
      by_cases hyou : where_ = E.you_pos w
      · rw [if_pos hyou]
        apply Rand.All.bind
        apply Rand.All.any
        intro r
        exact discharge_gate_bounded E fuel _ ih _ _ _ _
      · rw [if_neg hyou]
        cases hm : E.monster_at w where_ with
        | none => exact hstop
        | some monster =>
            dsimp only
            by_cases hres : (decide (E.res_elec monster > 0) || E.mons_flies monster) = true
            · rw [if_pos hres]
              exact hstop
            · rw [if_neg hres]
              apply Rand.All.bind
              apply Rand.All.any
              intro r
              exact discharge_gate_bounded E fuel _ ih _ _ _ _

/-- C9: for every power and sequence of draws the recursion of
`_discharge_monsters` terminates: a call with `pow < 3` never arcs again; an
arc continues with `pow / 2` or `pow / 3` (integer division), which is
strictly less than `pow`; so a call with `pow >= 1` starts a chain of at most
`floor(log2 pow)` nested arcs, and a model with more levels than that never
runs out of fuel. -/
theorem discharge_terminates {W : Type} (E : discharge_env W) (fuel : Nat) (w : W)
    (where_ : coord_def) (pow : Int) (s : Draws) :
    (pow < 3 → ((_discharge_monsters E fuel w where_ pow).run s).1.arcs = 0) ∧
    (∀ p : Int, 1 ≤ p → ∀ coin : Bool,
      arc_power p coin < p ∧ arc_power p coin = (if coin then p / 2 else p / 3)) ∧
    (1 ≤ pow →
      ((_discharge_monsters E fuel w where_ pow).run s).1.arcs ≤ Nat.log 2 pow.toNat) ∧
    (Nat.log 2 pow.toNat < fuel →
      ((_discharge_monsters E fuel w where_ pow).run s).1.finished = true) := by
  have key := (discharge_bounded E fuel w where_ pow).run s
  exact ⟨key.2.1,
    fun p hp coin => ⟨(arc_power_lt p coin hp).1, arc_power_eq p coin (by omega)⟩,
    fun _ => key.1, key.2.2⟩

theorem discharge_terminates_witness :
    ((_discharge_monsters sample_discharge 5 ⟨[mon ⟨6, 5⟩ 1, mon ⟨7, 5⟩ 2], ⟨5, 5⟩⟩
        ⟨6, 5⟩ 12).run (draws [0, 1, 1, 0, 0, 0, 0])).1.arcs = 2 ∧
    ((_discharge_monsters sample_discharge 5 ⟨[mon ⟨6, 5⟩ 1, mon ⟨7, 5⟩ 2], ⟨5, 5⟩⟩
        ⟨6, 5⟩ 12).run (draws [0, 1, 1, 0, 0, 0, 0])).1.arcs ≤ Nat.log 2 (12 : Int).toNat ∧
    ((_discharge_monsters sample_discharge 5 ⟨[mon ⟨6, 5⟩ 1, mon ⟨7, 5⟩ 2], ⟨5, 5⟩⟩
        ⟨6, 5⟩ 12).run (draws [0, 1, 1, 0, 0, 0, 0])).1.finished = true :=
  ⟨by decide,
   (discharge_terminates sample_discharge 5 ⟨[mon ⟨6, 5⟩ 1, mon ⟨7, 5⟩ 2], ⟨5, 5⟩⟩
      ⟨6, 5⟩ 12 (draws [0, 1, 1, 0, 0, 0, 0])).2.2.1 (by decide),
   (discharge_terminates sample_discharge 5 ⟨[mon ⟨6, 5⟩ 1, mon ⟨7, 5⟩ 2], ⟨5, 5⟩⟩
      ⟨6, 5⟩ 12 (draws [0, 1, 1, 0, 0, 0, 0])).2.2.2
      (Nat.log_lt_of_lt_pow (by decide) (by decide))⟩

/-! ## C10: the dice of individually listed monster types -/

/-- C10: for a monster whose type has a `case` label of its own in
`_shatter_monsters`, the dice depend on the type and on `pow` only, whatever
its insubstantial, flying, icy, skeletal or petrified properties are: 4 dice
for the silver statue, 6 for the curse skull, the golems, the statues, the
earth elemental and the gargoyle, 1 die of half size for the jellies and
their like, 2 dice for the dancing weapon, the molten gargoyle and the
quicksilver dragon. -/
theorem shatter_listed_dice (E : shatter_env) (m : monsters) (pow : Int)
    (h : shatter_listed m.type = true) :
    shatter_dice E m pow = listed_dice m.type pow := by
  obtain ⟨pos, mid, type, ac, hp⟩ := m
  cases type <;> first
    | rfl
    | exact Bool.noConfusion h

theorem shatter_listed_dice_witness :
    shatter_dice sample_shatter ⟨⟨3, 3⟩, 1, .MONS_DANCING_WEAPON, 5, 20⟩ 30 = ⟨2, 15⟩ ∧
    shatter_dice sample_shatter ⟨⟨3, 3⟩, 1, .MONS_DANCING_WEAPON, 5, 20⟩ 30
      = listed_dice .MONS_DANCING_WEAPON 30 :=
  ⟨by decide,
   shatter_listed_dice sample_shatter ⟨⟨3, 3⟩, 1, .MONS_DANCING_WEAPON, 5, 20⟩ 30 rfl⟩

/-! ## C11 and C12: the damage of shatter and airstrike -/

theorem roll_dice_zero (size : Int) : roll_dice 0 size = Pure.pure 0 := by
  unfold roll_dice
  rw [if_neg (by omega)]

theorem shatter_dice_insubstantial (E : shatter_env) (m : monsters) (pow : Int)
    (hunlisted : shatter_listed m.type = false) (hins : E.is_insubstantial m = true) :
    shatter_dice E m pow = ⟨0, 5 + cdiv pow 3⟩ := by
  obtain ⟨pos, mid, type, ac, hp⟩ := m
  cases type <;> first
    | exact Bool.noConfusion hunlisted
    | (unfold shatter_dice; simp only [hins, if_true])

/-- C11: for an insubstantial monster whose type has no `case` label of its
own, `_shatter_monsters` uses zero dice: for every power, armour class and
sequence of draws it returns the damage 0 and the game state it was given, so
that no monster is hurt or killed, whatever the hurt and kill operations are. -/
theorem shatter_insubstantial_immune {W : Type} (E : shatter_world W) (w : W)
    (where_ : coord_def) (pow : Int) (m : monsters) (s : Draws)
    (hm : E.monster_at w where_ = some m)
    (hunlisted : shatter_listed m.type = false)
    (hins : E.props.is_insubstantial m = true) :
    (shatter_dice E.props m pow).num = 0 ∧
    ((_shatter_monsters E w where_ pow).run s).1 = (0, w) := by
  have hdice := shatter_dice_insubstantial E.props m pow hunlisted hins
  refine ⟨by rw [hdice], ?_⟩
  have key : (_shatter_monsters E w where_ pow).All (fun r => r = (0, w)) := by
    unfold _shatter_monsters
    rw [hm]
    dsimp only
    rw [hdice]
    unfold dice_def.roll
    dsimp only
    rw [roll_dice_zero]
    apply Rand.All.bind_pure
    apply Rand.All.bind_random2
    intro r hr _
    have hmax : max 0 (0 - r) = 0 := max_eq_left (by omega)
    rw [hmax]
    exact rfl
  exact key.run s

theorem shatter_insubstantial_immune_witness :
    ((_shatter_monsters sample_shatter_world
        ⟨[⟨⟨7, 5⟩, 1, .MONS_OTHER 3, 5, 10⟩], [], [], [], ⟨5, 5⟩, []⟩ ⟨7, 5⟩ 100).run
      (draws [4])).1
      = (0, ⟨[⟨⟨7, 5⟩, 1, .MONS_OTHER 3, 5, 10⟩], [], [], [], ⟨5, 5⟩, []⟩) :=
  (shatter_insubstantial_immune sample_shatter_world
    ⟨[⟨⟨7, 5⟩, 1, .MONS_OTHER 3, 5, 10⟩], [], [], [], ⟨5, 5⟩, []⟩ ⟨7, 5⟩ 100
    ⟨⟨7, 5⟩, 1, .MONS_OTHER 3, 5, 10⟩ (draws [4]) rfl rfl rfl).2

theorem shatter_monsters_nonneg {W : Type} (E : shatter_world W) (w : W)
    (where_ : coord_def) (pow : Int) :
    (_shatter_monsters E w where_ pow).All (fun r => 0 ≤ r.1) := by
  unfold _shatter_monsters
  cases E.monster_at w where_ with
  | none => exact le_rfl
  | some m =>
      dsimp only
      apply Rand.All.bind
      apply Rand.All.any
      intro roll
      apply Rand.All.bind
      apply Rand.All.any
      intro armour
      split_ifs <;> exact le_max_left _ _

theorem airstrike_damage_nonneg (pow : Int) (flies : Bool) (ac : Int) :
    (airstrike_damage pow flies ac).All (fun h => 0 ≤ h) := by
  unfold airstrike_damage
  apply Rand.All.bind
  apply Rand.All.any
  intro a
  apply Rand.All.bind
  apply Rand.All.any
  intro b
  apply Rand.All.bind
  apply Rand.All.any
  intro c
  apply Rand.All.bind
  apply Rand.All.any
  intro r
  apply Rand.All.bind
  apply Rand.All.any
  intro armour
  exact le_max_left _ _

theorem airstrike_hurted_nonneg {W : Type} (E : airstrike_env W) (w : W) (pow : Int)
    (target : coord_def) :
    (airstrike E w pow target).All (fun r => ∀ h ∈ r.hurted, 0 ≤ h) := by
  unfold airstrike
  cases E.monster_at w target with
  | none =>
      intro h hh
      exact absurd hh (by simp)
  | some monster =>
      dsimp only
      split_ifs
      · apply Rand.All.bind
        apply Rand.All.mono (airstrike_damage_nonneg pow (E.mons_flies monster) monster.ac)
        intro d hd h hh
        simp only [Option.mem_def, Option.some.injEq] at hh
        rw [← hh]
        exact hd
      · intro h hh
        exact absurd hh (by simp)

theorem shatter_dice_num (E : shatter_env) (m : monsters) (pow : Int) :
    (shatter_dice E m pow).num ∈ [0, 1, 2, 3, 4, 6] := by
  obtain ⟨pos, mid, type, ac, hp⟩ := m
  cases type <;> unfold shatter_dice <;> dsimp only <;>
    first
      | decide
      | (split_ifs <;> dsimp only <;> decide)

/-- C12: in `_shatter_monsters` and in `airstrike` the damage that is left
after the armour roll is never negative, for every power, armour class and
sequence of draws, and the number of dice that `_shatter_monsters` chooses is
one of 0, 1, 2, 3, 4 and 6. -/
theorem shatter_airstrike_damage_nonneg {W : Type} (E : shatter_world W)
    (A : airstrike_env W) (w : W) (where_ : coord_def) (pow : Int) (s : Draws) :
    0 ≤ ((_shatter_monsters E w where_ pow).run s).1.1 ∧
    (∀ (flies : Bool) (ac : Int), 0 ≤ ((airstrike_damage pow flies ac).run s).1) ∧
    (∀ h ∈ ((airstrike A w pow where_).run s).1.hurted, 0 ≤ h) ∧
    (∀ m : monsters, (shatter_dice E.props m pow).num ∈ [0, 1, 2, 3, 4, 6]) :=
  ⟨(shatter_monsters_nonneg E w where_ pow).run s,
   fun flies ac => (airstrike_damage_nonneg pow flies ac).run s,
   (airstrike_hurted_nonneg A w pow where_).run s,
   fun m => shatter_dice_num E.props m pow⟩

/-! ## C13 and C14: `_shatter_walls` -/

/-- C13: applied to a cell that is out of bounds, or that carries the
`veto_shatter` marker, `_shatter_walls` returns 0 with the game state it was
given and makes no random draw. -/
theorem shatter_walls_skips {W : Type} (E : walls_env W) (w : W) (where_ : coord_def)
    (pow : Int)
    (h : E.in_bounds where_ = false ∨ E.veto_shatter w where_ = true) :
    _shatter_walls E w where_ pow = Rand.pure (0, w) := by
  unfold _shatter_walls
  rcases h with h | h
  · rw [h]
    rfl
  · rw [h]
    simp only [if_true, ite_self]
    rfl

theorem shatter_walls_skips_witness :
    _shatter_walls sample_walls ⟨[], [(⟨7, 5⟩, .DNGN_ROCK_WALL)], [], [⟨7, 5⟩], ⟨5, 5⟩, []⟩
        ⟨7, 5⟩ 200
      = Rand.pure (0, ⟨[], [(⟨7, 5⟩, .DNGN_ROCK_WALL)], [], [⟨7, 5⟩], ⟨5, 5⟩, []⟩) ∧
    _shatter_walls sample_walls ⟨[], [(⟨0, 5⟩, .DNGN_ROCK_WALL)], [], [], ⟨5, 5⟩, []⟩
        ⟨0, 5⟩ 200
      = Rand.pure (0, ⟨[], [(⟨0, 5⟩, .DNGN_ROCK_WALL)], [], [], ⟨5, 5⟩, []⟩) :=
  ⟨shatter_walls_skips sample_walls _ ⟨7, 5⟩ 200 (Or.inr (by decide)),
   shatter_walls_skips sample_walls _ ⟨0, 5⟩ 200 (Or.inl (by decide))⟩

theorem x_chance_in_y_pos (x y : Int) :
    (x_chance_in_y x y).All (fun hit => hit = true → 0 < x) := by
  unfold x_chance_in_y
  split_ifs with h1 h2
  · exact Bool.noConfusion
  · exact fun _ => by omega
  · apply Rand.All.bind_random2
    intro r _ _
    exact fun _ => by omega

theorem shatter_walls_floor {W : Type} (E : walls_env W) (w : W) (where_ : coord_def)
    (pow : Int) (h : E.grd w where_ = .DNGN_FLOOR) :
    _shatter_walls E w where_ pow = Rand.pure (0, w) := by
  unfold _shatter_walls
  dsimp only
  rw [h]
  have hx : x_chance_in_y (shatter_chance .DNGN_FLOOR pow) 100 = Pure.pure false := rfl
  rw [hx]
  split_ifs <;> rfl

theorem shatter_walls_outcomes {W : Type} (E : walls_env W) (w : W) (where_ : coord_def)
    (pow : Int)
    (hset : ∀ w p f, E.grd (E.set_grd w p f) p = f)
    (hchanged : ∀ w p q, E.grd (E.set_terrain_changed w p) q = E.grd w q)
    (hconduct : ∀ w q, E.grd (E.did_god_conduct w) q = E.grd w q) :
    (_shatter_walls E w where_ pow).All
      (fun r => (r.1 = 1 ∧ E.grd r.2 where_ = .DNGN_FLOOR ∧ E.grd w where_ ≠ .DNGN_FLOOR)
        ∨ r = (0, w)) := by
  unfold _shatter_walls
  dsimp only
  by_cases hb : (!E.in_bounds where_) = true
  · rw [if_pos hb]
    exact Or.inr rfl
  rw [if_neg hb]
  by_cases hv : E.veto_shatter w where_ = true
  · rw [if_pos hv]
    exact Or.inr rfl
  rw [if_neg hv]
  apply Rand.All.bind
  apply Rand.All.mono (x_chance_in_y_pos (shatter_chance (E.grd w where_) pow) 100)
  intro hit hhit
  cases hit with
  | false => exact Or.inr rfl
  | true =>
      have hpos := hhit rfl
      have hne : E.grd w where_ ≠ .DNGN_FLOOR := by
        intro hfl
        rw [hfl] at hpos
        exact absurd hpos (lt_irrefl 0)
      refine Or.inl ⟨rfl, ?_, hne⟩
      by_cases hidol : E.grd w where_ = .DNGN_ORCISH_IDOL
      · simp only [hidol, if_true]
        rw [hconduct, hchanged, hset]
      · simp only [hidol, if_true, if_false]
        rw [hchanged, hset]

/-- C14: `_shatter_walls` turns a cell into open floor exactly once: it
returns 1 or 0; it returns 1 only after it has set a cell that was not floor
to `DNGN_FLOOR`, and 0 only with the game state unchanged; and for every
power and sequence of draws a second application to a cell that it has cleared
returns 0, makes no draw and leaves the state, and so the floor, as it is. -/
theorem shatter_walls_once {W : Type} (E : walls_env W) (w : W) (where_ : coord_def)
    (pow : Int) (s : Draws)
    (hset : ∀ w p f, E.grd (E.set_grd w p f) p = f)
    (hchanged : ∀ w p q, E.grd (E.set_terrain_changed w p) q = E.grd w q)
    (hconduct : ∀ w q, E.grd (E.did_god_conduct w) q = E.grd w q) :
    (((_shatter_walls E w where_ pow).run s).1.1 = 1 ∨
      ((_shatter_walls E w where_ pow).run s).1.1 = 0) ∧
    (((_shatter_walls E w where_ pow).run s).1.1 = 1 →
      E.grd ((_shatter_walls E w where_ pow).run s).1.2 where_ = .DNGN_FLOOR ∧
      E.grd w where_ ≠ .DNGN_FLOOR) ∧
    (((_shatter_walls E w where_ pow).run s).1.1 = 0 →
      ((_shatter_walls E w where_ pow).run s).1.2 = w) ∧
    (((_shatter_walls E w where_ pow).run s).1.1 = 1 → ∀ pow2 : Int,
      _shatter_walls E ((_shatter_walls E w where_ pow).run s).1.2 where_ pow2
        = Rand.pure (0, ((_shatter_walls E w where_ pow).run s).1.2)) := by
  have key := (shatter_walls_outcomes E w where_ pow hset hchanged hconduct).run s
  rcases key with ⟨h1, h2, h3⟩ | h
  · refine ⟨Or.inl h1, fun _ => ⟨h2, h3⟩, fun h0 => ?_, fun _ pow2 =>
      shatter_walls_floor E _ where_ pow2 h2⟩
    rw [h1] at h0
    exact absurd h0 (by decide)
  · rw [h]
    have h01 : ¬ ((0 : Int) = 1) := by decide
    exact ⟨Or.inr rfl, fun h1 => absurd h1 h01, fun _ => rfl, fun h1 => absurd h1 h01⟩

theorem shatter_walls_once_witness :
    ((_shatter_walls sample_walls ⟨[], [(⟨7, 5⟩, .DNGN_ROCK_WALL)], [], [], ⟨5, 5⟩, []⟩
        ⟨7, 5⟩ 200).run (draws [49])).1.1 = 1 ∧
    sample_walls.grd
      ((_shatter_walls sample_walls ⟨[], [(⟨7, 5⟩, .DNGN_ROCK_WALL)], [], [], ⟨5, 5⟩, []⟩
        ⟨7, 5⟩ 200).run (draws [49])).1.2 ⟨7, 5⟩ = .DNGN_FLOOR :=
  ⟨by decide,
   ((shatter_walls_once sample_walls ⟨[], [(⟨7, 5⟩, .DNGN_ROCK_WALL)], [], [], ⟨5, 5⟩, []⟩
      ⟨7, 5⟩ 200 (draws [49])
      (fun w p f => by simp [sample_walls, frag_world.feature, frag_world.set_feature])
      (fun _ _ _ => rfl) (fun _ _ => rfl)).2.1 (by decide)).1⟩

/-! ## C15, C16, C20: fragmentation against its markers and comments -/

/-- C15 fails on the code: the target cell (7, 5) is an open door with the
`veto_fragmentation` marker and a monster of an unlisted, not icy, not
skeletal, not petrified kind stands in it.  The monster branch ends with
`goto do_terrain`, which jumps over the veto test: the door becomes floor and
the terrain explodes with 2 dice. -/
theorem frag_veto_bypassed_by_monster :
    sample_frag.veto_fragmentation
      ⟨[mon ⟨7, 5⟩ 1], [(⟨7, 5⟩, .DNGN_OPEN_DOOR)], [], [⟨7, 5⟩], ⟨5, 5⟩, []⟩ ⟨7, 5⟩ = true ∧
    sample_frag.grd
      ⟨[mon ⟨7, 5⟩ 1], [(⟨7, 5⟩, .DNGN_OPEN_DOOR)], [], [⟨7, 5⟩], ⟨5, 5⟩, []⟩ ⟨7, 5⟩
      = .DNGN_OPEN_DOOR ∧
    sample_frag.grd
      ((cast_fragmentation sample_frag
        ⟨[mon ⟨7, 5⟩ 1], [(⟨7, 5⟩, .DNGN_OPEN_DOOR)], [], [⟨7, 5⟩], ⟨5, 5⟩, []⟩ 40
        ⟨7, 5⟩).run (draws [2])).1.state.world ⟨7, 5⟩ = .DNGN_FLOOR ∧
    ((cast_fragmentation sample_frag
        ⟨[mon ⟨7, 5⟩ 1], [(⟨7, 5⟩, .DNGN_OPEN_DOOR)], [], [⟨7, 5⟩], ⟨5, 5⟩, []⟩ 40
        ⟨7, 5⟩).run (draws [2])).1.exploded = true ∧
    ((cast_fragmentation sample_frag
        ⟨[mon ⟨7, 5⟩ 1], [(⟨7, 5⟩, .DNGN_OPEN_DOOR)], [], [⟨7, 5⟩], ⟨5, 5⟩, []⟩ 40
        ⟨7, 5⟩).run (draws [2])).1.state.world.blasts = [⟨2, 9⟩] := by
  decide

theorem frag_corpses_none {W : Type} (E : frag_env W) (target : coord_def)
    (stack : List item_def) (w : W)
    (h : ∀ si ∈ stack, si.base_type ≠ .OBJ_CORPSES) :
    frag_corpses E target stack w = Pure.pure none := by
  induction stack with
  | nil => rfl
  | cons si rest ih =>
      unfold frag_corpses
      rw [if_neg (h si (List.mem_cons_self _ _))]
      exact ih (fun x hx => h x (List.mem_cons_of_mem _ hx))

/-- The path that C15 describes: with no monster and no corpse on the target
cell, the veto marker stops the spell before the terrain `switch`: no draw is
made, the game state is unchanged and nothing explodes. -/
theorem frag_veto_respected_without_monster {W : Type} (E : frag_env W) (w : W)
    (pow : Int) (target : coord_def)
    (hray : E.exists_ray w (E.you_pos w) target = true)
    (hmon : E.monster_at w target = none)
    (hstack : ∀ si ∈ E.stack w target, si.base_type ≠ .OBJ_CORPSES)
    (hveto : E.veto_fragmentation w target = true) :
    cast_fragmentation E w pow target =
      Rand.pure ⟨true, ⟨w, ⟨0, 5 + cdiv pow 10⟩, 1, .BEAM_FRAG, false, true, [], false⟩,
        false, true⟩ := by
  unfold cast_fragmentation
  dsimp only
  rw [hray, hmon]
  dsimp only
  rw [frag_corpses_none E target _ w hstack, hveto]
  rfl

/-- C16 fails on the code: the target cell (7, 5) is floor with a skeleton
corpse on it and no monster.  The corpse loop destroys the corpse and goes to
`all_done` with zero damage dice, where the spell is reported to fizzle
although an item was destroyed. -/
theorem frag_fizzles_after_destroying_corpse :
    sample_frag.stack ⟨[], [], [(⟨7, 5⟩, ⟨3, .OBJ_CORPSES, CORPSE_SKELETON⟩)], [], ⟨5, 5⟩, []⟩
      ⟨7, 5⟩ = [⟨3, .OBJ_CORPSES, CORPSE_SKELETON⟩] ∧
    ((cast_fragmentation sample_frag
        ⟨[], [], [(⟨7, 5⟩, ⟨3, .OBJ_CORPSES, CORPSE_SKELETON⟩)], [], ⟨5, 5⟩, []⟩ 40
        ⟨7, 5⟩).run (draws [])).1.state.damage.num = 0 ∧
    ((cast_fragmentation sample_frag
        ⟨[], [], [(⟨7, 5⟩, ⟨3, .OBJ_CORPSES, CORPSE_SKELETON⟩)], [], ⟨5, 5⟩, []⟩ 40
        ⟨7, 5⟩).run (draws [])).1.fizzled = true ∧
    sample_frag.stack
      ((cast_fragmentation sample_frag
        ⟨[], [], [(⟨7, 5⟩, ⟨3, .OBJ_CORPSES, CORPSE_SKELETON⟩)], [], ⟨5, 5⟩, []⟩ 40
        ⟨7, 5⟩).run (draws [])).1.state.world ⟨7, 5⟩ = [] := by
  decide

/-- C20 fails on the code: an orange statue with 30 hit points stands on the
target cell and the power is 50.  The branch sets 6 dice, the
`one_chance_in(10)` draw makes the hit as large as the statue's hit points,
the statue dies and the branch adds 2 dice: the blast has 8 dice, above the
6 that the comment of line 1424 gives as the highest number. -/
theorem frag_orange_statue_eight_dice :
    ((cast_fragmentation sample_frag
        ⟨[⟨⟨7, 5⟩, 1, .MONS_ORANGE_STATUE, 10, 30⟩], [], [], [], ⟨5, 5⟩, []⟩ 50
        ⟨7, 5⟩).run (draws [0, 0, 0, 0, 0, 0, 0])).1.state.damage.num = 8 ∧
    ((cast_fragmentation sample_frag
        ⟨[⟨⟨7, 5⟩, 1, .MONS_ORANGE_STATUE, 10, 30⟩], [], [], [], ⟨5, 5⟩, []⟩ 50
        ⟨7, 5⟩).run (draws [0, 0, 0, 0, 0, 0, 0])).1.exploded = true ∧
    ((cast_fragmentation sample_frag
        ⟨[⟨⟨7, 5⟩, 1, .MONS_ORANGE_STATUE, 10, 30⟩], [], [], [], ⟨5, 5⟩, []⟩ 50
        ⟨7, 5⟩).run (draws [0, 0, 0, 0, 0, 0, 0])).1.state.world.blasts = [⟨8, 10⟩] ∧
    ((cast_fragmentation sample_frag
        ⟨[⟨⟨7, 5⟩, 1, .MONS_ORANGE_STATUE, 10, 30⟩], [], [], [], ⟨5, 5⟩, []⟩ 50
        ⟨7, 5⟩).run (draws [0, 0, 0, 0, 0, 0, 0])).1.state.hits
      = [⟨30, .BEAM_DISINTEGRATION, true⟩] := by
  decide

/-! ## C17: `_shatter_items` -/

theorem broken_potions_are_potions (stack : List item_def) :
    ∀ s : Draws, ∀ it ∈ broken_potions stack s,
      it.base_type = .OBJ_POTIONS ∧ it ∈ stack := by
  induction stack with
  | nil =>
      intro s it hit
      exact absurd hit (List.not_mem_nil _)
  | cons si rest ih =>
      intro s it hit
      unfold broken_potions at hit
      split_ifs at hit with hp hd
      · exact ⟨(ih _ it hit).1, List.mem_cons_of_mem _ (ih _ it hit).2⟩
      · rcases List.mem_cons.mp hit with h | h
        · rw [h]
          exact ⟨hp, List.mem_cons_self _ _⟩
        · exact ⟨(ih _ it h).1, List.mem_cons_of_mem _ (ih _ it h).2⟩
      · exact ⟨(ih _ it hit).1, List.mem_cons_of_mem _ (ih _ it hit).2⟩

theorem shatter_stack_run {W : Type} (E : items_env W) (stack : List item_def) :
    ∀ (n : Int) (w : W) (broken : List item_def) (s : Draws),
      ((shatter_stack E stack (n, w, broken)).run s).1 =
        (n + (broken_potions stack s).length,
          (broken_potions stack s).foldl (fun w' it => E.destroy_item w' it.index) w,
          broken ++ broken_potions stack s) := by
  induction stack with
  | nil =>
      intro n w broken s
      simp [shatter_stack, broken_potions]
  | cons si rest ih =>
      intro n w broken s
      unfold shatter_stack broken_potions
      by_cases hp : si.base_type = .OBJ_POTIONS
      · rw [if_pos hp, if_pos hp]
        simp only [Rand.run_bind, one_chance_in_ten_run]
        by_cases hd : s 0 % 10 = 0
        · simp only [hd, decide_True, Bool.not_true, Bool.false_eq_true, if_false, if_true]
          exact ih _ _ _ _
        · simp only [hd, decide_False, Bool.not_false, if_true, if_false]
          rw [ih]
          simp only [List.length_cons, List.foldl_cons, List.append_assoc,
            List.singleton_append, Nat.cast_add, Nat.cast_one]
          congr 1
          ring
      · rw [if_neg hp, if_neg hp]
        exact ih _ _ _ _

/-- C17: `_shatter_items` destroys an item only if it is a potion of the
stack; the destroyed items are exactly the potions whose own
`one_chance_in(10)` draw fails, in the order of the stack, each potion having
one draw and the other items none; the state is the one after `destroy_item`
on those potions; and the function returns 1 exactly when at least one potion
was destroyed and 0 otherwise. -/
theorem shatter_items_potions {W : Type} (E : items_env W) (w : W) (where_ : coord_def)
    (pow : Int) (s : Draws) :
    ((_shatter_items E w where_ pow).run s).1.broken
      = broken_potions (E.stack w where_) s ∧
    (∀ it ∈ ((_shatter_items E w where_ pow).run s).1.broken,
      it.base_type = .OBJ_POTIONS ∧ it ∈ E.stack w where_) ∧
    ((_shatter_items E w where_ pow).run s).1.world
      = (broken_potions (E.stack w where_) s).foldl
          (fun w' it => E.destroy_item w' it.index) w ∧
    (((_shatter_items E w where_ pow).run s).1.ret = 1 ↔
      ((_shatter_items E w where_ pow).run s).1.broken ≠ []) ∧
    (((_shatter_items E w where_ pow).run s).1.ret = 0 ↔
      ((_shatter_items E w where_ pow).run s).1.broken = []) := by
  have hrun : ((_shatter_items E w where_ pow).run s).1 =
      if broken_potions (E.stack w where_) s = [] then
        ⟨0, w, []⟩
      else ⟨1, (broken_potions (E.stack w where_) s).foldl
          (fun w' it => E.destroy_item w' it.index) w,
        broken_potions (E.stack w where_) s⟩ := by
    unfold _shatter_items
    simp only [Rand.run_bind, shatter_stack_run, zero_add, List.nil_append]
    by_cases hb : broken_potions (E.stack w where_) s = []
    · simp [hb]
    · have hlen : ((broken_potions (E.stack w where_) s).length : Int) ≠ 0 := by
        have := List.length_pos.mpr hb
        omega
      simp [hb, hlen]
  rw [hrun]
  by_cases hb : broken_potions (E.stack w where_) s = []
  · simp [hb]
  · simp only [hb, if_false, ne_eq, not_false_eq_true, iff_true, true_and]
    refine ⟨fun it hit => broken_potions_are_potions _ s it hit, ?_⟩
    decide

theorem shatter_items_potions_witness :
    ((_shatter_items sample_items
        ⟨[], [], [(⟨7, 5⟩, ⟨1, .OBJ_POTIONS, 0⟩), (⟨7, 5⟩, ⟨2, .OBJ_WEAPONS, 0⟩),
          (⟨7, 5⟩, ⟨3, .OBJ_POTIONS, 4⟩)], [], ⟨5, 5⟩, []⟩ ⟨7, 5⟩ 50).run
      (draws [10, 7])).1.broken = [⟨3, .OBJ_POTIONS, 4⟩] ∧
    ((_shatter_items sample_items
        ⟨[], [], [(⟨7, 5⟩, ⟨1, .OBJ_POTIONS, 0⟩), (⟨7, 5⟩, ⟨2, .OBJ_WEAPONS, 0⟩),
          (⟨7, 5⟩, ⟨3, .OBJ_POTIONS, 4⟩)], [], ⟨5, 5⟩, []⟩ ⟨7, 5⟩ 50).run
      (draws [10, 7])).1.ret = 1 :=
  ⟨by decide,
   (shatter_items_potions sample_items
      ⟨[], [], [(⟨7, 5⟩, ⟨1, .OBJ_POTIONS, 0⟩), (⟨7, 5⟩, ⟨2, .OBJ_WEAPONS, 0⟩),
        (⟨7, 5⟩, ⟨3, .OBJ_POTIONS, 4⟩)], [], ⟨5, 5⟩, []⟩ ⟨7, 5⟩ 50
      (draws [10, 7])).2.2.2.1.mpr (by decide)⟩

/-! ## C18: a strictly closer candidate -/

/-- C18: for a valid monster at non-zero distance with a clear lightning line
whose jittered distance is strictly below `min_dist`: if the
`one_chance_in(10)` draw fails then `min_dist` becomes that distance, the
target becomes the monster's position and `count` is reset to 0; if the draw
succeeds then `min_dist` and the target are left unchanged; and the first
happens with probability 9/10. -/
theorem closer_candidate_step (E : hop_env) (source : coord_def) (st : sel_state)
    (mi : monsters) (s : Draws)
    (hvalid : E.invalid_monster mi = false)
    (hdist : grid_distance source mi.pos ≠ 0)
    (hlos : E.lightning_los source mi.pos = true)
    (hlt : jittered source mi.pos s < st.min_dist) :
    (s 1 % 10 ≠ 0 →
      ((monster_step E source st mi).run s).1 = ⟨jittered source mi.pos s, mi.pos, 0⟩) ∧
    (s 1 % 10 = 0 →
      ((monster_step E source st mi).run s).1.min_dist = st.min_dist ∧
      ((monster_step E source st mi).run s).1.target = st.target) ∧
    (monster_step E source st mi).probChance s
      (fun st' => decide (st' = ⟨jittered source mi.pos s, mi.pos, 0⟩)) = 9 / 10 := by
  have hs1 : s.tail 0 = s 1 := rfl
  have hngt : ¬ (jittered source mi.pos s > st.min_dist) := by omega
  have hne : ¬ ((⟨st.min_dist, st.target, st.count + 1⟩ : sel_state)
      = ⟨jittered source mi.pos s, mi.pos, 0⟩) := by
    intro h
    have := congrArg sel_state.min_dist h
    simp only at this
    omega
  unfold jittered at hlt hngt hne ⊢
  refine ⟨?_, ?_, ?_⟩
  · intro hd
    unfold monster_step
    dsimp only
    simp only [hvalid, hdist, hlos, Bool.false_eq_true, if_false, Bool.not_true,
      Rand.run_bind, random2_three_run, one_chance_in_ten_run, hngt, hlt, if_true, hs1, hd,
      decide_False, Bool.not_false, Rand.run_pure]
  · intro hd
    unfold monster_step
    dsimp only
    simp only [hvalid, hdist, hlos, Bool.false_eq_true, if_false, Bool.not_true,
      Rand.run_bind, random2_three_run, one_chance_in_ten_run, hngt, hlt, if_true, hs1, hd,
      decide_True, Rand.run_pure, and_self]
  · unfold monster_step
    dsimp only
    simp only [hvalid, hdist, hlos, Bool.false_eq_true, if_false, Bool.not_true,
      random2_three_eq, one_chance_in_ten_eq, Rand.uniform_bind_eq, Rand.chance_bind_eq,
      Rand.pure_bind_eq, Rand.probChance_uniform, Rand.probChance_chance,
      Rand.probChance_pure, hngt, hlt, if_true, Bool.not_false, decide_True, hne,
      decide_False]
    norm_num

theorem closer_candidate_step_witness :
    ((monster_step sample_hop ⟨5, 5⟩ ⟨5, ⟨10, 5⟩, 2⟩ (mon ⟨8, 5⟩ 1)).run (draws [1, 3])).1
      = ⟨jittered ⟨5, 5⟩ (mon ⟨8, 5⟩ 1).pos (draws [1, 3]), (mon ⟨8, 5⟩ 1).pos, 0⟩ :=
  (closer_candidate_step sample_hop ⟨5, 5⟩ ⟨5, ⟨10, 5⟩, 2⟩ (mon ⟨8, 5⟩ 1) (draws [1, 3])
    (by decide) (by decide) (by decide) (by decide)).1 (by decide)

/-! ## C19: the chance of another arc -/

theorem Rand.prob_pure {α : Type} (a : α) (p : α → Bool) :
    (Pure.pure a : Rand α).prob p = if p a then 1 else 0 := rfl

theorem Rand.prob_chance {α : Type} (n : Nat) (k : Bool → Rand α) (p : α → Bool) :
    (Rand.chance n k).prob p =
      (1 / (n : ℚ)) * (k true).prob p + (1 - 1 / (n : ℚ)) * (k false).prob p := rfl

theorem Rand.prob_uniform {α : Type} (n : Nat) (k : Nat → Rand α) (p : α → Bool) :
    (Rand.uniform n k).prob p =
      if n = 0 then (k 0).prob p
      else ((List.range n).map (fun r => (k r).prob p)).sum / (n : ℚ) := rfl

theorem Rand.prob_bind_const {α β : Type} (m : Rand α) (f : α → Rand β) (p : β → Bool)
    (x : ℚ) (h : ∀ a, (f a).prob p = x) : (m >>= f).prob p = x := by
  induction m with
  | pure a => exact h a
  | uniform n k ih =>
      rw [Rand.uniform_bind_eq, Rand.prob_uniform]
      by_cases hn : n = 0
      · rw [if_pos hn]
        exact ih 0
      · rw [if_neg hn]
        simp only [ih]
        have hn' : (n : ℚ) ≠ 0 := by exact_mod_cast hn
        simp only [List.map_const', List.sum_replicate, List.length_range, nsmul_eq_mul]
        field_simp
  | chance n k ih =>
      rw [Rand.chance_bind_eq, Rand.prob_chance, ih true, ih false]
      ring

theorem one_chance_in_three_eq : one_chance_in 3 = Rand.chance 3 (fun b => Pure.pure b) := rfl

theorem discharge_gate_prob {W : Type} (E : discharge_env W)
    (self : W → coord_def → Int → Rand (discharge_result W)) (w : W)
    (where_ : coord_def) (pow damage : Int) :
    (discharge_gate E self w where_ pow damage).prob (fun r => decide (1 ≤ r.arcs))
      = arc_chance pow := by
  have harc :
      (do
        let coin ← coinflip
        let r ← apply_random_around_square E self w where_ (arc_power pow coin) 1
        (Pure.pure ⟨damage + r.damage, r.world, 1 + r.arcs, r.finished⟩ :
          Rand (discharge_result W))).prob
        (fun r : discharge_result W => decide (1 ≤ r.arcs)) = 1 := by
    apply Rand.prob_bind_const
    intro coin
    apply Rand.prob_bind_const
    intro r
    rw [Rand.prob_pure]
    have : (1 : Nat) ≤ 1 + r.arcs := by omega
    simp only [this, decide_True, if_true]
  have hstop : (Pure.pure ⟨damage, w, 0, true⟩ : Rand (discharge_result W)).prob
      (fun r : discharge_result W => decide (1 ≤ r.arcs)) = 0 := by
    rw [Rand.prob_pure]
    simp
  unfold discharge_gate arc_chance
  by_cases h10 : pow ≥ 10
  · have h3 : pow ≥ 3 := by omega
    rw [if_pos h10, if_neg (by omega), if_neg (by omega)]
    simp only [Rand.bind_assoc_eq, Rand.pure_bind_eq, one_chance_in_three_eq,
      one_chance_in_ten_eq, Rand.chance_bind_eq, Rand.prob_chance, Bool.not_true,
      Bool.not_false, Bool.false_eq_true, if_false, if_true, h3, harc, hstop]
    norm_num
  · rw [if_neg h10]
    simp only [Rand.pure_bind_eq, Bool.false_eq_true, if_false]
    by_cases h3 : pow ≥ 3
    · rw [if_pos h3, if_neg (by omega), if_pos (by omega)]
      simp only [one_chance_in_ten_eq, Rand.chance_bind_eq, Rand.pure_bind_eq,
        Rand.prob_chance, if_true, Bool.false_eq_true, if_false, harc, hstop]
      norm_num
    · rw [if_neg h3, if_pos (by omega)]
      exact hstop

theorem arc_chance_mono (p q : Int) (h : p ≤ q) : arc_chance p ≤ arc_chance q := by
  unfold arc_chance
  split_ifs <;> first | omega | norm_num

theorem coinflip_prob : coinflip.prob (fun c => c) = 1 / 2 := by
  simp [coinflip, random2, Rand.prob, Rand.uniform_bind_eq, Rand.pure_bind_eq,
    List.range_succ]

theorem discharge_gate_split {W : Type} (E : discharge_env W)
    (self : W → coord_def → Int → Rand (discharge_result W)) (w : W)
    (where_ : coord_def) (pow damage : Int) (p : discharge_result W → Bool) :
    (discharge_gate E self w where_ pow damage).prob p =
      arc_chance pow *
          (1 / 2 * (next_arc E self w where_ (cdiv pow 2) damage).prob p
            + 1 / 2 * (next_arc E self w where_ (cdiv pow 3) damage).prob p)
        + (1 - arc_chance pow) * (if p ⟨damage, w, 0, true⟩ then 1 else 0) := by
  have harc :
      (do
        let coin ← coinflip
        let r ← apply_random_around_square E self w where_ (arc_power pow coin) 1
        (Pure.pure ⟨damage + r.damage, r.world, 1 + r.arcs, r.finished⟩ :
          Rand (discharge_result W))).prob p
      = 1 / 2 * (next_arc E self w where_ (cdiv pow 2) damage).prob p
          + 1 / 2 * (next_arc E self w where_ (cdiv pow 3) damage).prob p := by
    have hflip : coinflip = Rand.uniform 2 (fun r => Pure.pure (decide ((r : Int) ≠ 0))) := rfl
    rw [hflip, Rand.uniform_bind_eq, Rand.prob_uniform, if_neg (by decide)]
    simp only [Rand.pure_bind_eq, List.range_succ, List.range_zero, List.nil_append,
      List.cons_append, List.map_cons, List.map_nil, List.sum_cons, List.sum_nil]
    have h0 : arc_power pow (decide (((0 : Nat) : Int) ≠ 0)) = cdiv pow 3 := rfl
    have h1 : arc_power pow (decide (((1 : Nat) : Int) ≠ 0)) = cdiv pow 2 := rfl
    rw [h0, h1]
    unfold next_arc
    push_cast
    ring
  have hstop : (Pure.pure ⟨damage, w, 0, true⟩ : Rand (discharge_result W)).prob p
      = if p ⟨damage, w, 0, true⟩ then 1 else 0 := Rand.prob_pure _ _
  unfold discharge_gate arc_chance
  by_cases h10 : pow ≥ 10
  · have h3 : pow ≥ 3 := by omega
    rw [if_pos h10, if_neg (by omega), if_neg (by omega)]
    simp only [Rand.bind_assoc_eq, Rand.pure_bind_eq, one_chance_in_three_eq,
      one_chance_in_ten_eq, Rand.chance_bind_eq, Rand.prob_chance, Bool.not_true,
      Bool.not_false, Bool.false_eq_true, if_false, if_true, h3, harc, hstop]
    push_cast
    ring
  · rw [if_neg h10]
    simp only [Rand.pure_bind_eq, Bool.false_eq_true, if_false]
    by_cases h3 : pow ≥ 3
    · rw [if_pos h3, if_neg (by omega), if_pos (by omega)]
      simp only [one_chance_in_ten_eq, Rand.chance_bind_eq, Rand.pure_bind_eq,
        Rand.prob_chance, if_true, Bool.false_eq_true, if_false, harc, hstop]
      push_cast
      ring
    · rw [if_neg h3, if_pos (by omega)]
      rw [hstop]
      ring

/-- C19: a call of `_discharge_monsters` that reaches its gate (the cell is
the player's, or holds a monster that neither resists electricity nor flies)
arcs again with probability 0 when `pow < 3`, 1/10 when `3 <= pow < 10` and
7/10 when `pow >= 10`; this chance does not decrease when `pow` grows; and the
next arc gets `pow / 2` or `pow / 3` on a fair coin flip: the call is a damage
draw followed by the gate at the same cell and power with `_discharge_monsters`
itself as the function of the sweep, and for every event the gate runs, with
that chance, half the time the sweep with the power `pow / 2` and half the time
the sweep with the power `pow / 3`, and otherwise returns without an arc. -/
theorem discharge_arc_chance {W : Type} (E : discharge_env W) (fuel : Nat) (w : W)
    (where_ : coord_def) (pow : Int)
    (hgate : where_ = E.you_pos w ∨
      ∃ m, E.monster_at w where_ = some m ∧ E.res_elec m ≤ 0 ∧ E.mons_flies m = false) :
    (_discharge_monsters E (fuel + 1) w where_ pow).prob (fun r => decide (1 ≤ r.arcs))
      = (if pow < 3 then 0 else if pow < 10 then 1 / 10 else 7 / 10) ∧
    (∀ p q : Int, p ≤ q → arc_chance p ≤ arc_chance q) ∧
    coinflip.prob (fun c => c) = 1 / 2 ∧
    (∀ coin : Bool, arc_power pow coin = if coin then cdiv pow 2 else cdiv pow 3) ∧
    (∃ (state : Int → W) (damage : Int → Int),
      _discharge_monsters E (fuel + 1) w where_ pow =
        random2 (5 + cdiv pow 10) >>= fun r =>
          discharge_gate E (_discharge_monsters E fuel) (state r) where_ pow (damage r)) ∧
    (∀ (w1 : W) (damage : Int) (p : discharge_result W → Bool),
      (discharge_gate E (_discharge_monsters E fuel) w1 where_ pow damage).prob p =
        (if pow < 3 then 0 else if pow < 10 then 1 / 10 else 7 / 10) *
            (1 / 2 *
                (next_arc E (_discharge_monsters E fuel) w1 where_ (cdiv pow 2) damage).prob p
              + 1 / 2 *
                (next_arc E (_discharge_monsters E fuel) w1 where_ (cdiv pow 3) damage).prob p)
          + (1 - (if pow < 3 then 0 else if pow < 10 then 1 / 10 else 7 / 10)) *
            (if p ⟨damage, w1, 0, true⟩ then 1 else 0)) := by
  refine ⟨?_, arc_chance_mono, coinflip_prob, fun coin => by cases coin <;> rfl, ?_,
    fun w1 damage p => discharge_gate_split E _ w1 where_ pow damage p⟩
  · have hgoal : (_discharge_monsters E (fuel + 1) w where_ pow).prob
        (fun r => decide (1 ≤ r.arcs)) = arc_chance pow := by
      unfold _discharge_monsters
      by_cases hyou : where_ = E.you_pos w
      · rw [if_pos hyou]
        apply Rand.prob_bind_const
        intro r
        exact discharge_gate_prob E _ _ _ _ _
      · rw [if_neg hyou]
        rcases hgate with h | ⟨m, hm, hres, hfly⟩
        · exact absurd h hyou
        · rw [hm]
          dsimp only
          have hcond : ¬ ((decide (E.res_elec m > 0) || E.mons_flies m) = true) := by
            simp only [hfly, Bool.or_false, decide_eq_true_eq]
            omega
          rw [if_neg hcond]
          apply Rand.prob_bind_const
          intro r
          exact discharge_gate_prob E _ _ _ _ _
    rw [hgoal]
    rfl
  · unfold _discharge_monsters
    by_cases hyou : where_ = E.you_pos w
    · rw [if_pos hyou]
      exact ⟨fun r => E.ouch w
          (if E.airborne w then cdiv (E.check_your_resists w (3 + r)) 2
            else E.check_your_resists w (3 + r)),
        fun r => if E.airborne w then cdiv (E.check_your_resists w (3 + r)) 2
            else E.check_your_resists w (3 + r), rfl⟩
    · rw [if_neg hyou]
      rcases hgate with h | ⟨m, hm, hres, hfly⟩
      · exact absurd h hyou
      · rw [hm]
        dsimp only
        have hcond : ¬ ((decide (E.res_elec m > 0) || E.mons_flies m) = true) := by
          simp only [hfly, Bool.or_false, decide_eq_true_eq]
          omega
        rw [if_neg hcond]
        exact ⟨fun r =>
            if E.mons_adjust_flavoured w m (3 + r) ≠ 0 then
              (_player_hurt_monster E.hurt w m (E.mons_adjust_flavoured w m (3 + r))
                .BEAM_MISSILE).1
            else w,
          fun r => E.mons_adjust_flavoured w m (3 + r), rfl⟩

theorem discharge_arc_chance_witness :
    (_discharge_monsters sample_discharge (4 + 1) ⟨[mon ⟨6, 5⟩ 1, mon ⟨7, 5⟩ 2], ⟨5, 5⟩⟩
        ⟨6, 5⟩ 12).prob (fun r => decide (1 ≤ r.arcs))
      = (if (12 : Int) < 3 then 0 else if (12 : Int) < 10 then 1 / 10 else 7 / 10) :=
  (discharge_arc_chance sample_discharge 4 ⟨[mon ⟨6, 5⟩ 1, mon ⟨7, 5⟩ 2], ⟨5, 5⟩⟩ ⟨6, 5⟩ 12
    (Or.inr ⟨mon ⟨6, 5⟩ 1, by decide, by decide, by decide⟩)).1

/-! ## C21: the hit points that `vampiric_drain` takes -/

theorem random2avg_nine_two : (random2avg 9 2).All (fun a => 0 ≤ a ∧ a ≤ 8) := by
  unfold random2avg
  apply Rand.All.bind_random2
  intro r0 h0 h0'
  have h0b : r0 < 9 := by simpa using h0'
  have hrolls : ((2 : Int) - 1).toNat = 1 := by decide
  rw [hrolls]
  unfold sum_random2
  apply Rand.All.bind
  apply Rand.All.bind_random2
  intro r1 h1 h1'
  have h1b : r1 < 10 := by simpa using h1'
  unfold sum_random2
  apply Rand.All.bind_pure
  apply Rand.All.of_pure
  apply Rand.All.of_pure
  unfold cdiv
  rw [Int.tdiv_eq_ediv (by omega) (by decide)]
  constructor <;> omega

theorem drain_gain_bounds (pow hit_points missing : Int) (hpow : pow ≤ 100) :
    (drain_gain pow hit_points missing).All
      (fun g => g ≤ 25 ∧ g ≤ hit_points ∧ g ≤ missing) := by
  unfold drain_gain
  apply Rand.All.bind
  apply Rand.All.mono random2avg_nine_two
  rintro a ⟨ha0, ha8⟩
  apply Rand.All.bind_random2
  intro b hb0 hb
  have hb99 : b ≤ 99 := by
    rcases le_total pow 1 with h | h
    · rw [max_eq_right h] at hb
      omega
    · rw [max_eq_left h] at hb
      omega
  have hdiv : cdiv b 7 ≤ 14 := by
    unfold cdiv
    rw [Int.tdiv_eq_ediv hb0 (by decide)]
    omega
  refine ⟨?_, ?_, min_le_left _ _⟩
  · exact le_trans (min_le_right _ _) (le_trans (min_le_right _ _) (by omega))
  · exact le_trans (min_le_right _ _) (min_le_left _ _)

theorem cdiv_two_le (g bound : Int) (hg : g ≤ bound) (hb : 0 ≤ bound) :
    cdiv g 2 ≤ bound := by
  unfold cdiv
  rcases le_total 0 g with h | h
  · rw [Int.tdiv_eq_ediv h (by decide)]
    omega
  · have hneg : (g.tdiv 2) = -((-g).tdiv 2) := by
      rw [Int.neg_tdiv, neg_neg]
    rw [hneg, Int.tdiv_eq_ediv (by omega) (by decide)]
    omega

theorem vampiric_drain_all {W : Type} (E : drain_env W) (w : W) (pow : Int)
    (m : monsters) (hpow : pow ≤ 100) :
    (vampiric_drain E w pow (some m)).All
      (fun res =>
        (∀ d ∈ res.drained, d ≤ 25 ∧ d ≤ m.hit_points ∧
          d ≤ E.you_hp_max (E.behaviour_event w m) - E.you_hp (E.behaviour_event w m)) ∧
        (∀ h ∈ res.healed,
          E.you_hp (E.behaviour_event w m) ≤ E.you_hp_max (E.behaviour_event w m) →
          E.you_hp (E.behaviour_event w m) + h ≤ E.you_hp_max (E.behaviour_event w m))) := by
  have hnone : ∀ (ret : Bool) (w' : W),
      (∀ d ∈ (⟨ret, w', none, none⟩ : drain_result W).drained, d ≤ 25 ∧ d ≤ m.hit_points ∧
        d ≤ E.you_hp_max (E.behaviour_event w m) - E.you_hp (E.behaviour_event w m)) ∧
      (∀ h ∈ (⟨ret, w', none, none⟩ : drain_result W).healed,
        E.you_hp (E.behaviour_event w m) ≤ E.you_hp_max (E.behaviour_event w m) →
        E.you_hp (E.behaviour_event w m) + h ≤ E.you_hp_max (E.behaviour_event w m)) :=
    fun _ _ => ⟨fun d hd => absurd hd (by simp), fun h hh => absurd hh (by simp)⟩
  unfold vampiric_drain
  dsimp only
  by_cases h1 : E.submerged m = true
  · rw [if_pos h1]
    exact hnone _ _
  rw [if_neg h1]
  by_cases h2 : (E.observable m && E.undead_or_demonic m) = true
  · rw [if_pos h2]
    exact hnone _ _
  rw [if_neg h2]
  by_cases h3 : (!!E.stop_attack_prompt w m) = true
  · rw [if_pos h3]
    exact hnone _ _
  rw [if_neg h3]
  by_cases h4 : (!E.alive (E.behaviour_event w m) m) = true
  · rw [if_pos h4]
    exact hnone _ _
  rw [if_neg h4]
  by_cases h5 : E.undead_or_demonic m = true
  · rw [if_pos h5]
    apply Rand.All.bind
    apply Rand.All.any
    intro r
    exact hnone _ _
  rw [if_neg h5]
  by_cases h6 : (!E.natural m || E.res_negative_energy m) = true
  · rw [if_pos h6]
    exact hnone _ _
  rw [if_neg h6]
  apply Rand.All.bind
  apply Rand.All.mono (drain_gain_bounds pow m.hit_points _ hpow)
  rintro g ⟨hg25, hghp, hgmiss⟩
  by_cases h7 : g = 0
  · rw [if_pos h7]
    exact hnone _ _
  rw [if_neg h7]
  have hdr : ∀ d ∈ (some g : Option Int), d ≤ 25 ∧ d ≤ m.hit_points ∧
      d ≤ E.you_hp_max (E.behaviour_event w m) - E.you_hp (E.behaviour_event w m) := by
    intro d hd
    simp only [Option.mem_def, Option.some.injEq] at hd
    rw [← hd]
    exact ⟨hg25, hghp, hgmiss⟩
  split_ifs
  · refine ⟨hdr, ?_⟩
    intro h hh hle
    simp only [Option.mem_def, Option.some.injEq] at hh
    rw [← hh]
    have := cdiv_two_le g _ hgmiss (by omega)
    omega
  · exact ⟨hdr, fun h hh => absurd hh (by simp)⟩

/-- C21: in `vampiric_drain`, for every power up to 100 and every sequence of
draws, the hit points drained from the monster (`hp_gain` before it is halved)
are at most 25, at most the monster's hit points and at most the hit points
that the player is missing (`hp_max - hp`); and the half that the player
gains keeps the player's hit points, when they were within `hp_max`, within
`hp_max`. -/
theorem vampiric_drain_bounds {W : Type} (E : drain_env W) (w : W) (pow : Int)
    (m : monsters) (s : Draws) (hpow : pow ≤ 100) :
    (∀ d ∈ ((vampiric_drain E w pow (some m)).run s).1.drained,
      d ≤ 25 ∧ d ≤ m.hit_points ∧
      d ≤ E.you_hp_max (E.behaviour_event w m) - E.you_hp (E.behaviour_event w m)) ∧
    (∀ h ∈ ((vampiric_drain E w pow (some m)).run s).1.healed,
      E.you_hp (E.behaviour_event w m) ≤ E.you_hp_max (E.behaviour_event w m) →
      E.you_hp (E.behaviour_event w m) + h ≤ E.you_hp_max (E.behaviour_event w m)) :=
  (vampiric_drain_all E w pow m hpow).run s

theorem vampiric_drain_bounds_witness :
    ((vampiric_drain sample_drain ⟨10, 40⟩ 100 (some ⟨⟨6, 5⟩, 1, .MONS_OTHER 0, 0, 50⟩)).run
        (draws [8, 9, 99])).1.drained = some 25 ∧
    ((vampiric_drain sample_drain ⟨10, 40⟩ 100 (some ⟨⟨6, 5⟩, 1, .MONS_OTHER 0, 0, 50⟩)).run
        (draws [8, 9, 99])).1.world = ⟨22, 40⟩ ∧
    (25 : Int) ≤ 25 :=
  ⟨by decide, by decide,
   ((vampiric_drain_bounds sample_drain ⟨10, 40⟩ 100 ⟨⟨6, 5⟩, 1, .MONS_OTHER 0, 0, 50⟩
      (draws [8, 9, 99]) (by decide)).1 25 (by decide)).1⟩

/-! ## C22: the group rules of `_shatter_monsters` -/

/-- C22: for a monster whose type has no `case` label of its own,
`_shatter_monsters` takes the number of dice of the first group rule that
matches, in the order insubstantial 0, flying 1, icy 4, skeletal 6,
petrifying 4, petrified 6, and 3 when none matches; the size of the dice is
`5 + pow / 3`. -/
theorem shatter_group_dice (E : shatter_env) (m : monsters) (pow : Int)
    (h : shatter_listed m.type = false) :
    (shatter_dice E m pow).num = group_dice E m ∧
    (shatter_dice E m pow).size = 5 + cdiv pow 3 := by
  obtain ⟨pos, mid, type, ac, hp⟩ := m
  cases type <;> first
    | exact Bool.noConfusion h
    | (unfold shatter_dice group_dice
       dsimp only
       split_ifs <;> simp_all)

theorem shatter_group_dice_witness :
    (shatter_dice ⟨fun _ => false, fun _ => true, fun _ => false, fun _ => true,
        fun _ => false, fun _ => false⟩ (mon ⟨3, 3⟩ 1) 30).num = 1 ∧
    (shatter_dice ⟨fun _ => true, fun _ => false, fun _ => true, fun _ => false,
        fun _ => false, fun _ => false⟩ (mon ⟨3, 3⟩ 1) 30).num = 0 ∧
    (shatter_dice plain_props (mon ⟨3, 3⟩ 1) 30).num = group_dice plain_props (mon ⟨3, 3⟩ 1) :=
  ⟨by decide, by decide, (shatter_group_dice plain_props (mon ⟨3, 3⟩ 1) 30 rfl).1⟩

/-! ## C23 and C26: two slips of `cast_fragmentation` -/

/-- The branches that follow the pattern of `frag_blast` hit with the
disintegration flavour and raise the number of dice exactly when that hit
killed the monster. -/
theorem frag_blast_raises_iff_died {W : Type} (E : frag_env W) (st : frag_state W)
    (m : monsters) (num extra : Int) (hextra : extra ≠ 0) :
    (frag_blast E st m num extra).All
      (fun st' => ∃ dmg : Int,
        st'.hits = st.hits ++
          [⟨dmg, .BEAM_DISINTEGRATION,
            (_player_hurt_monster E.hurt st.world m dmg .BEAM_DISINTEGRATION).2⟩] ∧
        (st'.damage.num = num + extra ↔
          (_player_hurt_monster E.hurt st.world m dmg .BEAM_DISINTEGRATION).2 = true) ∧
        (st'.damage.num = num ↔
          (_player_hurt_monster E.hurt st.world m dmg .BEAM_DISINTEGRATION).2 = false)) := by
  unfold frag_blast
  dsimp only
  apply Rand.All.bind
  apply Rand.All.any
  intro dmg
  cases hdied : (_player_hurt_monster E.hurt (st.with_num num).world m dmg
      .BEAM_DISINTEGRATION).2 with
  | false =>
      have hd : (frag_hurt E (st.with_num num) m dmg .BEAM_DISINTEGRATION).2 = false := hdied
      rw [hd]
      refine ⟨dmg, ?_, ?_, ?_⟩
      · show st.hits ++ _ = _
        rw [hdied]
        rw [show (st.with_num num).world = st.world from rfl] at hdied
        rw [hdied]
      · rw [show (st.with_num num).world = st.world from rfl] at hdied
        rw [hdied]
        constructor
        · intro h
          have h' : num = num + extra := h
          omega
        · exact Bool.noConfusion
      · rw [show (st.with_num num).world = st.world from rfl] at hdied
        rw [hdied]
        exact ⟨fun _ => rfl, fun _ => rfl⟩
  | true =>
      have hd : (frag_hurt E (st.with_num num) m dmg .BEAM_DISINTEGRATION).2 = true := hdied
      rw [hd]
      refine ⟨dmg, ?_, ?_, ?_⟩
      · show st.hits ++ _ = _
        rw [hdied]
        rw [show (st.with_num num).world = st.world from rfl] at hdied
        rw [hdied]
      · rw [show (st.with_num num).world = st.world from rfl] at hdied
        rw [hdied]
        exact ⟨fun _ => rfl, fun _ => rfl⟩
      · rw [show (st.with_num num).world = st.world from rfl] at hdied
        rw [hdied]
        constructor
        · intro h
          have h' : num + extra = num := h
          omega
        · exact Bool.noConfusion

/-- C23 fails on the code in the icy branch: an icy monster with 100 hit
points stands on the target cell and the power is 40.  The first hit of 2
points leaves it alive, yet the number of dice is raised from 2 to 3, and the
hit is dealt with the missile flavour, not the disintegration flavour: in
line 1521 the closing bracket of the call stands before `BEAM_DISINTEGRATION`. -/
theorem frag_icy_raises_without_kill :
    ((cast_fragmentation sample_frag_icy
        ⟨[⟨⟨7, 5⟩, 1, .MONS_OTHER 0, 0, 100⟩], [], [], [], ⟨5, 5⟩, []⟩ 40
        ⟨7, 5⟩).run (draws [0, 0])).1.state.hits = [⟨2, .BEAM_MISSILE, false⟩] ∧
    ((cast_fragmentation sample_frag_icy
        ⟨[⟨⟨7, 5⟩, 1, .MONS_OTHER 0, 0, 100⟩], [], [], [], ⟨5, 5⟩, []⟩ 40
        ⟨7, 5⟩).run (draws [0, 0])).1.state.damage.num = 3 ∧
    ((cast_fragmentation sample_frag_icy
        ⟨[⟨⟨7, 5⟩, 1, .MONS_OTHER 0, 0, 100⟩], [], [], [], ⟨5, 5⟩, []⟩ 40
        ⟨7, 5⟩).run (draws [0, 0])).1.state.world.mons
      = [⟨⟨7, 5⟩, 1, .MONS_OTHER 0, 0, 98⟩] ∧
    ((cast_fragmentation sample_frag_icy
        ⟨[⟨⟨7, 5⟩, 1, .MONS_OTHER 0, 0, 100⟩], [], [], [], ⟨5, 5⟩, []⟩ 40
        ⟨7, 5⟩).run (draws [0, 0])).1.state.world.blasts = [⟨3, 9⟩] := by
  decide

/-- C26 fails on the code: the target cell (7, 5) has the feature
`DNGN_TRAP_MECHANICAL` and `find_trap` returns no trap for it.  The test
`ptrap && ptrap->category() != DNGN_TRAP_MECHANICAL` is then false, the branch
goes on and calls `ptrap->destroy()` on the null pointer. -/
theorem frag_destroys_null_trap :
    sample_frag.grd ⟨[], [(⟨7, 5⟩, .DNGN_TRAP_MECHANICAL)], [], [], ⟨5, 5⟩, []⟩ ⟨7, 5⟩
      = .DNGN_TRAP_MECHANICAL ∧
    sample_frag.find_trap ⟨[], [(⟨7, 5⟩, .DNGN_TRAP_MECHANICAL)], [], [], ⟨5, 5⟩, []⟩ ⟨7, 5⟩
      = none ∧
    ((cast_fragmentation sample_frag
        ⟨[], [(⟨7, 5⟩, .DNGN_TRAP_MECHANICAL)], [], [], ⟨5, 5⟩, []⟩ 40
        ⟨7, 5⟩).run (draws [])).1.state.fault = true := by
  decide

/-- The guarded part of the trap branch: when `find_trap` returns a trap, the
branch never calls `destroy` on a null pointer. -/
theorem frag_terrain_trap_found {W : Type} (E : frag_env W) (pow : Int)
    (grid : dungeon_feature_type) (target : coord_def) (st : frag_state W)
    (ptrap : trap_def) (hfound : E.find_trap st.world target = some ptrap)
    (hfault : st.fault = false) :
    (frag_terrain E pow grid target st).All (fun st' => st'.fault = false) := by
  cases grid <;> unfold frag_terrain <;> dsimp only <;>
    first
      | exact hfault
      | (rw [hfound]
         dsimp only
         split_ifs <;> exact hfault)
      | (unfold frag_rock
         apply Rand.All.bind
         apply Rand.All.any
         intro blown
         split_ifs <;> exact hfault)
      | (apply Rand.All.bind
         apply Rand.All.any
         intro blown
         split_ifs
         · first
             | exact hfault
             | (apply Rand.All.bind
                apply Rand.All.any
                intro big
                exact hfault)
         · exact hfault)

/-! ## C24: which cells the terrain switch clears -/

theorem or_else_run (a b : Rand Bool) (s : Draws) :
    (or_else a b).run s =
      if (a.run s).1 then (true, (a.run s).2) else b.run (a.run s).2 := by
  unfold or_else
  rw [Rand.run_bind]
  split_ifs <;> rfl

theorem and_then_run (c : Bool) (b : Rand Bool) (s : Draws) :
    (and_then c b).run s = if c then b.run s else (false, s) := by
  unfold and_then
  split_ifs <;> rfl

/-- C24 fails on the code for a trap: the cell (7, 5) holds a mechanical trap,
which is none of the listed cases, and after the spell the cell is floor,
because the trap branch calls `destroy` on the trap. -/
theorem frag_trap_cell_cleared :
    sample_frag_trap.grd ⟨[], [(⟨7, 5⟩, .DNGN_TRAP_MECHANICAL)], [], [], ⟨5, 5⟩, []⟩ ⟨7, 5⟩
      = .DNGN_TRAP_MECHANICAL ∧
    frag_floor_cases .DNGN_TRAP_MECHANICAL 40 (draws []) = false ∧
    sample_frag_trap.grd
      ((cast_fragmentation sample_frag_trap
        ⟨[], [(⟨7, 5⟩, .DNGN_TRAP_MECHANICAL)], [], [], ⟨5, 5⟩, []⟩ 40
        ⟨7, 5⟩).run (draws [])).1.state.world ⟨7, 5⟩ = .DNGN_FLOOR ∧
    ((cast_fragmentation sample_frag_trap
        ⟨[], [(⟨7, 5⟩, .DNGN_TRAP_MECHANICAL)], [], [], ⟨5, 5⟩, []⟩ 40
        ⟨7, 5⟩).run (draws [])).1.state.fault = false := by
  decide

/-- C24, amended: on the draws `s` the terrain switch of `cast_fragmentation`
clears a cell whose feature is no trap exactly in the listed cases (doors,
orcish idol and granite statue always; rock from power 40 on a 1-in-3 draw,
stone from power 60 on a 1-in-10 draw, metal from power 80 on a
`pow / 5`-in-500 draw, green crystal on a coin flip) and leaves the world
untouched for every other such feature; for a trap feature whose trap was
found the switch writes no floor of its own: the world is untouched for a
trap that is not mechanical, and is what the trap's `destroy` makes of it for
a mechanical trap. -/
theorem frag_terrain_floor {W : Type} (E : frag_env W) (pow : Int)
    (grid : dungeon_feature_type) (target : coord_def) (st : frag_state W) (s : Draws) :
    (grid ≠ .DNGN_UNDISCOVERED_TRAP → grid ≠ .DNGN_TRAP_MECHANICAL →
      ((frag_terrain E pow grid target st).run s).1.world =
        if frag_floor_cases grid pow s = true then
          E.set_terrain_changed (E.set_grd st.world target .DNGN_FLOOR) target
        else st.world) ∧
    (grid = .DNGN_UNDISCOVERED_TRAP ∨ grid = .DNGN_TRAP_MECHANICAL →
      ∀ t, E.find_trap st.world target = some t →
        ((frag_terrain E pow grid target st).run s).1.world =
          if t.category = .DNGN_TRAP_MECHANICAL then E.destroy_trap st.world t
          else st.world) := by
  cases grid <;> refine ⟨fun h1 h2 => ?_, fun h t ht => ?_⟩ <;>
    first
    | exact absurd rfl h1
    | exact absurd rfl h2
    | (simp at h; done)
    | (simp only [frag_terrain, ht]
       split_ifs <;> simp_all [frag_state.with_world, frag_state.with_num,
         frag_state.with_explode, frag_state.with_hole])
    | (simp [frag_terrain, frag_rock, frag_floor_cases, frag_floor, or_else_run,
        and_then_run, frag_state.with_world, frag_state.with_num, frag_state.with_ex_size,
        frag_state.with_explode, frag_state.with_hole]; done)
    | skip
  all_goals
    simp [frag_terrain, frag_rock, frag_floor_cases, frag_floor, or_else_run,
        and_then_run, frag_state.with_world, frag_state.with_num, frag_state.with_ex_size,
        frag_state.with_explode, frag_state.with_hole]
    split_ifs <;> simp_all


theorem frag_terrain_floor_witness :
    frag_floor_cases .DNGN_ROCK_WALL 40 (draws [0]) = true ∧
    ((frag_terrain sample_frag 40 .DNGN_ROCK_WALL ⟨7, 5⟩
        ⟨⟨[], [(⟨7, 5⟩, .DNGN_ROCK_WALL)], [], [], ⟨5, 5⟩, []⟩, ⟨0, 9⟩, 1, .BEAM_FRAG,
          false, true, [], false⟩).run (draws [0])).1.world =
      sample_frag.set_terrain_changed
        (sample_frag.set_grd ⟨[], [(⟨7, 5⟩, .DNGN_ROCK_WALL)], [], [], ⟨5, 5⟩, []⟩
          ⟨7, 5⟩ .DNGN_FLOOR) ⟨7, 5⟩ :=
  ⟨by decide,
    ((frag_terrain_floor sample_frag 40 .DNGN_ROCK_WALL ⟨7, 5⟩
        ⟨⟨[], [(⟨7, 5⟩, .DNGN_ROCK_WALL)], [], [], ⟨5, 5⟩, []⟩, ⟨0, 9⟩, 1, .BEAM_FRAG,
          false, true, [], false⟩ (draws [0])).1 (by decide) (by decide)).trans
      (if_pos (by decide))⟩

/-! ## C25: the chances of `_shatter_walls` -/

theorem range_indicator_sum (n : Nat) (c : Int) (hc : 0 ≤ c) :
    ((List.range n).map (fun r : Nat => if (r : Int) < c then (1 : ℚ) else 0)).sum
      = ((min (n : Int) c : Int) : ℚ) := by
  induction n with
  | zero => simp [hc]
  | succ n ih =>
      rw [List.range_succ, List.map_append, List.sum_append, ih]
      simp only [List.map_cons, List.map_nil, List.sum_cons, List.sum_nil, add_zero]
      by_cases h : (n : Int) < c
      · rw [if_pos h, min_eq_left (le_of_lt h), min_eq_left (by push_cast; omega)]
        push_cast
        ring
      · rw [if_neg h, min_eq_right (by omega), min_eq_right (by push_cast; omega)]
        ring

theorem chance_in_100_bind_prob {β : Type} (c : Int) (f : Bool → Rand β) (p : β → Bool)
    (ht : (f true).prob p = 1) (hf : (f false).prob p = 0) :
    (x_chance_in_y c 100 >>= f).prob p = chance_in_100 c := by
  unfold x_chance_in_y chance_in_100
  by_cases h1 : c ≤ 0
  · rw [if_pos h1]
    show (f false).prob p = _
    rw [hf, min_eq_right (by omega), max_eq_left h1]
    simp
  · rw [if_neg h1]
    by_cases h2 : c ≥ 100
    · rw [if_pos h2]
      show (f true).prob p = _
      rw [ht, min_eq_left h2, max_eq_right (by norm_num)]
      norm_num
    · rw [if_neg h2]
      show (Rand.uniform 100 (fun r => f (decide ((r : Int) < c)))).prob p = _
      rw [Rand.prob_uniform, if_neg (by decide)]
      have hfun : (fun r : Nat => (f (decide ((r : Int) < c))).prob p)
          = (fun r : Nat => if (r : Int) < c then (1 : ℚ) else 0) := by
        funext r
        by_cases hr : (r : Int) < c
        · rw [if_pos hr, decide_eq_true hr, ht]
        · rw [if_neg hr, decide_eq_false hr, hf]
      rw [hfun, range_indicator_sum 100 c (by omega), max_eq_right (by omega)]
      norm_num

theorem shatter_chance_eq_wall_chance (grid : dungeon_feature_type) (pow : Int) :
    shatter_chance grid pow = wall_chance grid pow := by
  cases grid <;> simp [shatter_chance, wall_chance]

theorem chance_in_100_mono (a b : Int) (h : a ≤ b) : chance_in_100 a ≤ chance_in_100 b := by
  unfold chance_in_100
  have hm : max 0 (min 100 a) ≤ max 0 (min 100 b) :=
    max_le_max (le_refl 0) (min_le_min (le_refl 100) h)
  have hq : ((max 0 (min 100 a) : Int) : ℚ) ≤ ((max 0 (min 100 b) : Int) : ℚ) := by
    exact_mod_cast hm
  exact div_le_div_of_nonneg_right hq (by norm_num)

/-- C25: on a cell that is in bounds and not vetoed, `_shatter_walls` turns
the cell into floor and returns 1 with the chance `c` in 100 that the table of
the claim gives to the cell's feature, and otherwise returns 0 and leaves the
state as it was; the table is the code's; doors are turned into floor with
probability 1, a feature outside the table with probability 0, and for
`pow >= 0` the chance of a rock wall is at least that of a stone wall, which
is at least that of a metal wall.  The terrain store is outside the file: the
cell reads as floor after `grd(where) = DNGN_FLOOR` when a write is read back
and noise, change marks and conducts leave the features alone. -/
theorem shatter_walls_chance {W : Type} (E : walls_env W) (w : W) (where_ : coord_def)
    (pow : Int) (hin : E.in_bounds where_ = true) (hveto : E.veto_shatter w where_ = false) :
    shatter_chance (E.grd w where_) pow = wall_chance (E.grd w where_) pow ∧
    (_shatter_walls E w where_ pow).prob (fun r => decide (r.1 = 1))
      = chance_in_100 (wall_chance (E.grd w where_) pow) ∧
    (E.grd w where_ ∈ [dungeon_feature_type.DNGN_SECRET_DOOR, .DNGN_CLOSED_DOOR,
        .DNGN_DETECTED_SECRET_DOOR, .DNGN_OPEN_DOOR] →
      (_shatter_walls E w where_ pow).prob (fun r => decide (r.1 = 1)) = 1) ∧
    (E.grd w where_ ∉ [dungeon_feature_type.DNGN_SECRET_DOOR, .DNGN_CLOSED_DOOR,
        .DNGN_DETECTED_SECRET_DOOR, .DNGN_OPEN_DOOR, .DNGN_METAL_WALL, .DNGN_ORCISH_IDOL,
        .DNGN_GRANITE_STATUE, .DNGN_GREEN_CRYSTAL_WALL, .DNGN_STONE_WALL,
        .DNGN_CLEAR_STONE_WALL, .DNGN_ROCK_WALL, .DNGN_CLEAR_ROCK_WALL, .DNGN_SLIMY_WALL] →
      (_shatter_walls E w where_ pow).prob (fun r => decide (r.1 = 1)) = 0) ∧
    (0 ≤ pow →
      chance_in_100 (shatter_chance .DNGN_METAL_WALL pow)
          ≤ chance_in_100 (shatter_chance .DNGN_STONE_WALL pow) ∧
        chance_in_100 (shatter_chance .DNGN_STONE_WALL pow)
          ≤ chance_in_100 (shatter_chance .DNGN_ROCK_WALL pow)) ∧
    (_shatter_walls E w where_ pow).All
      (fun r =>
        (r.1 = 1 ∧
          r.2 =
            if E.grd w where_ = .DNGN_ORCISH_IDOL then
              E.did_god_conduct
                (E.set_terrain_changed (E.set_grd (E.noisy w where_) where_ .DNGN_FLOOR)
                  where_)
            else
              E.set_terrain_changed (E.set_grd (E.noisy w where_) where_ .DNGN_FLOOR)
                where_)
        ∨ r = (0, w)) ∧
    ((∀ w p f, E.grd (E.set_grd w p f) p = f) →
      (∀ w p q, E.grd (E.set_terrain_changed w p) q = E.grd w q) →
      (∀ w q, E.grd (E.did_god_conduct w) q = E.grd w q) →
      (_shatter_walls E w where_ pow).prob
          (fun r => decide (r.1 = 1 ∧ E.grd r.2 where_ = .DNGN_FLOOR))
        = chance_in_100 (wall_chance (E.grd w where_) pow)) := by
  have hprob : (_shatter_walls E w where_ pow).prob (fun r => decide (r.1 = 1))
      = chance_in_100 (wall_chance (E.grd w where_) pow) := by
    unfold _shatter_walls
    dsimp only
    rw [hin, hveto, ← shatter_chance_eq_wall_chance]
    exact chance_in_100_bind_prob _ _ _ rfl rfl
  refine ⟨shatter_chance_eq_wall_chance _ _, hprob, ?_, ?_, ?_, ?_, ?_⟩
  · intro hdoor
    rw [hprob]
    have h100 : wall_chance (E.grd w where_) pow = 100 := by
      simp only [List.mem_cons, List.mem_singleton, List.mem_nil_iff, or_false] at hdoor
      unfold wall_chance
      rw [if_pos hdoor]
    rw [h100]
    unfold chance_in_100
    norm_num
  · intro hother
    rw [hprob]
    have h0 : wall_chance (E.grd w where_) pow = 0 := by
      simp only [List.mem_cons, List.mem_singleton, List.mem_nil_iff, or_false, not_or]
        at hother
      unfold wall_chance
      simp [hother]
    rw [h0]
    unfold chance_in_100
    norm_num
  · intro hpow
    have h10 : cdiv pow 10 ≤ cdiv pow 6 := by
      unfold cdiv
      rw [Int.tdiv_eq_ediv hpow (by norm_num), Int.tdiv_eq_ediv hpow (by norm_num)]
      omega
    have h6 : cdiv pow 6 ≤ cdiv pow 4 := by
      unfold cdiv
      rw [Int.tdiv_eq_ediv hpow (by norm_num), Int.tdiv_eq_ediv hpow (by norm_num)]
      omega
    exact ⟨chance_in_100_mono _ _ h10, chance_in_100_mono _ _ h6⟩
  · unfold _shatter_walls
    dsimp only
    rw [hin, hveto]
    apply Rand.All.bind
    apply Rand.All.any
    intro hit
    cases hit
    · exact Or.inr rfl
    · exact Or.inl ⟨rfl, rfl⟩
  · intro hset hchanged hconduct
    unfold _shatter_walls
    dsimp only
    rw [hin, hveto, ← shatter_chance_eq_wall_chance]
    apply chance_in_100_bind_prob
    · have hfloor : E.grd
          (if E.grd w where_ = .DNGN_ORCISH_IDOL then
            E.did_god_conduct
              (E.set_terrain_changed (E.set_grd (E.noisy w where_) where_ .DNGN_FLOOR)
                where_)
          else
            E.set_terrain_changed (E.set_grd (E.noisy w where_) where_ .DNGN_FLOOR)
              where_) where_ = .DNGN_FLOOR := by
        split_ifs
        · rw [hconduct, hchanged, hset]
        · rw [hchanged, hset]
      show (if decide ((1 : Int) = 1 ∧ E.grd _ where_ = .DNGN_FLOOR) = true then (1 : ℚ)
        else 0) = 1
      rw [if_pos]
      exact decide_eq_true ⟨rfl, hfloor⟩
    · show (if decide ((0 : Int) = 1 ∧ E.grd w where_ = .DNGN_FLOOR) = true then (1 : ℚ)
        else 0) = 0
      rw [if_neg]
      intro h
      have h01 : ¬ ((0 : Int) = 1) := by decide
      exact h01 (of_decide_eq_true h).1

theorem shatter_walls_chance_witness :
    sample_walls.in_bounds ⟨7, 5⟩ = true ∧
    sample_walls.veto_shatter ⟨[], [(⟨7, 5⟩, .DNGN_ROCK_WALL)], [], [], ⟨5, 5⟩, []⟩ ⟨7, 5⟩
      = false ∧
    (_shatter_walls sample_walls ⟨[], [(⟨7, 5⟩, .DNGN_ROCK_WALL)], [], [], ⟨5, 5⟩, []⟩
        ⟨7, 5⟩ 200).prob
        (fun r => decide (r.1 = 1 ∧ sample_walls.grd r.2 ⟨7, 5⟩ = .DNGN_FLOOR)) = 1 / 2 := by
  refine ⟨by decide, by decide, ?_⟩
  have hg : wall_chance
      (sample_walls.grd ⟨[], [(⟨7, 5⟩, .DNGN_ROCK_WALL)], [], [], ⟨5, 5⟩, []⟩ ⟨7, 5⟩) 200
      = 50 := by decide
  rw [(shatter_walls_chance sample_walls ⟨[], [(⟨7, 5⟩, .DNGN_ROCK_WALL)], [], [], ⟨5, 5⟩, []⟩
      ⟨7, 5⟩ 200 (by decide) (by decide)).2.2.2.2.2.2
      (fun w p f => by simp [sample_walls, frag_world.feature, frag_world.set_feature])
      (fun _ _ _ => rfl) (fun _ _ => rfl), hg]
  unfold chance_in_100
  norm_num

end Crawl
